import Mathlib

/-! # D2SLAM consensus core: ARock solver and round negotiation

A shallow embedding of `d2common/src/solver/ARock.cpp`, of the
synchronisation, state-property and landmark-factor parts of
`d2vins/src/estimator/d2estimator.cpp`, of the message conversion of
`d2vins/src/estimator/solver/ConsensusSync.cpp` and of `clearFrame` of
`d2vins/src/estimator/d2vinsstate.cpp`. What these call and the sources do
not contain is a parameter, or a definition marked `Modelled from the spec`.

* `std::map` is a key-ordered association list (`StdMap`); `operator[]`
  assignment is `StdMap.insert`, `find`/`at` is `StdMap.find` (a missing key
  of `at` is the value `none`, the C++ exception).
* `state_type*` is an address (`StatePtr`); the scalars behind it are read
  through `D2State.mem`.
* Scalars are elements of an ordered field `K` with a floor function, so the
  arithmetic of the dual update is exact (rationals, reals).
* Machine integers are integers with the wrap-around written out: `wrapInt32`
  for the `int` counters of `solve`, `wrapInt64` for the solve token, `toSizeT`
  for an `int` compared with a `size_t`.
-/

namespace D2SLAM

/-! ## Ordered maps -/

/-- Ordered associative container: the entries of a `std::map` in iteration order. -/
abbrev StdMap (κ ν : Type) := List (κ × ν)

namespace StdMap

variable {κ ν μ : Type} [DecidableEq κ] [LT κ] [DecidableRel (fun a b : κ => a < b)]

/-- Lookup, the common core of `std::map::find` and `std::map::at`. -/
def find : StdMap κ ν → κ → Option ν
  | [], _ => none
  | (k', v) :: rest, k => if k' = k then some v else find rest k

/-- Membership test `m.find(k) != m.end()`. -/
def contains (m : StdMap κ ν) (k : κ) : Bool := (find m k).isSome

/-- Assignment `m[k] = v`: overwrite the entry of `k`, or add it at its place in key order. -/
def insert : StdMap κ ν → κ → ν → StdMap κ ν
  | [], k, v => [(k, v)]
  | (k', v') :: rest, k, v =>
    if k < k' then (k, v) :: (k', v') :: rest
    else if k' = k then (k, v) :: rest
    else (k', v') :: insert rest k v

/-- Read access `m[k]`, which default-constructs the value of an absent key. -/
def getD (m : StdMap κ ν) (k : κ) (dflt : ν) : ν := (find m k).getD dflt

/-- In-place traversal `for (auto & it : m)` whose body may throw: every value is
replaced by the body's result, and the traversal fails as soon as the body does. -/
def mapValsM (f : κ → ν → Option μ) : StdMap κ ν → Option (StdMap κ μ)
  | [] => some []
  | (k, v) :: rest =>
    match f k v with
    | none => none
    | some w =>
      match mapValsM f rest with
      | none => none
      | some r => some ((k, w) :: r)

end StdMap

/-! ## Parameters, residuals and the estimator state seen by the solver -/

/-- Address of a parameter block (`state_type*`), compared by identity. -/
abbrev StatePtr := Nat

/-- Frame identifier (`FrameIdType`). -/
abbrev FrameIdType := Int

/-- Kind tag of a parameter block: the tags of `marginalization_info.hpp` and
the yaw-only pose tag `POSE_4D` that `ARock.cpp` tests for. -/
inductive ParamsType where
  | POSE
  | POSE_4D
  | SPEED_BIAS
  | EXTRINSIC
  | TD
  | LANDMARK
  deriving DecidableEq, Repr

/-- Record `ParamInfo` of `marginalization_info.hpp` (the scratch copy `data_copied` left out). -/
structure ParamInfo where
  pointer : StatePtr
  index : Int := -1
  size : Nat := 0
  eff_size : Nat := 0
  is_remove : Bool := false
  type : ParamsType
  id : FrameIdType
  deriving DecidableEq, Repr

/-- Fields of a frame that the solver and the estimator state read. -/
structure VINSFrame where
  frame_id : FrameIdType
  drone_id : Int
  is_keyframe : Bool := false
  deriving DecidableEq, Repr

/-- Estimator state as the solver sees it: the frame database and the scalars
stored behind every parameter address. -/
structure D2State (K : Type) where
  frame_db : StdMap FrameIdType VINSFrame := []
  mem : StatePtr → Nat → K

/-- Lookup `getFramebyId`: `frame_db.at(frame_id)`, which throws for an unknown frame. -/
def D2State.getFramebyId {K : Type} (state : D2State K) (frame_id : FrameIdType) :
    Option VINSFrame :=
  StdMap.find state.frame_db frame_id

/-- Vector view `Map<VectorXd>(pointer, size)`: the first `size` scalars behind `pointer`. -/
def D2State.mapVector {K : Type} (state : D2State K) (pointer : StatePtr) (size : Nat) :
    List K :=
  (List.range size).map (state.mem pointer)

/-- Residual block: its kind tag is irrelevant here, its parameter list is
computed from the state as `paramsList(state)` does. -/
structure ResidualInfo (K : Type) where
  paramsList : D2State K → List ParamInfo

/-- Dual store of one side: `std::map<int, std::map<state_type*, VectorXd>>`. -/
abbrev DualStates (K : Type) := StdMap Int (StdMap StatePtr (List K))

/-- Options of `ARockSolverConfig` that the embedded code reads. The header
declares `self_id`, the three weights, `eta_k` and `max_steps`;
`max_wait_steps` is read by `solve` in `ARock.cpp`. -/
structure ARockSolverConfig (K : Type) where
  self_id : Int := 0
  rho_frame_T : K
  rho_frame_theta : K
  rho_landmark : K
  eta_k : K
  max_steps : Int := 10
  max_wait_steps : Int

/-- Residual block of the inner problem, as `AddResidualBlock` receives it: a
primary residual with the addresses of its parameters, or one of the three
consensus factors with its target and the address it is attached to. The pose
factors are built from `Swarm::Pose(dual_state)`, the prior from the matrix
`scale · I` of the given size and the vector `b`. -/
inductive ResidualBlock (K : Type) where
  | primary (residual_info : ResidualInfo K) (params : List StatePtr)
  | ConsenusPoseFactor (dual_state : List K) (rho_T rho_theta : K) (state_pointer : StatePtr)
  | ConsenusPoseFactor4D (dual_state : List K) (rho_T rho_theta : K) (state_pointer : StatePtr)
  | NormalPrior (size : Nat) (scale : K) (b : List K) (state_pointer : StatePtr)

/-- Inner problem `ceres::Problem`: its residual blocks in the order they were added. -/
structure Problem (K : Type) where
  residual_blocks : List (ResidualBlock K) := []

/-- Solver object `ARockSolver`; `problem` is `none` for the null pointer. -/
structure ARockSolver (K : Type) where
  config : ARockSolverConfig K
  rho_landmark : K
  rho_T : K
  rho_theta : K
  self_id : Int
  state : D2State K
  residuals : List (ResidualInfo K) := []
  all_estimating_params : StdMap StatePtr ParamInfo := []
  dual_states_local : DualStates K := []
  dual_states_remote : DualStates K := []
  updated : Bool := false
  problem : Option (Problem K) := none

namespace ARockSolver

variable {K : Type}

/-- Method `ARockSolver::addParam`. -/
def addParam (s : ARockSolver K) (param_info : ParamInfo) : ARockSolver K :=
  if StdMap.contains s.all_estimating_params param_info.pointer then s
  else { s with
    all_estimating_params :=
      StdMap.insert s.all_estimating_params param_info.pointer param_info }

/-- Method `ARockSolver::addResidual`: registers every parameter of the residual,
appends the residual (`SolverWrapper::addResidual`) and raises `updated`. -/
def addResidual (s : ARockSolver K) (residual_info : ResidualInfo K) : ARockSolver K :=
  let s1 := (residual_info.paramsList s.state).foldl addParam s
  { s1 with residuals := s1.residuals ++ [residual_info], updated := true }

/-- Method `ARockSolver::resetResiduals`. -/
def resetResiduals (s : ARockSolver K) : ARockSolver K :=
  { s with residuals := [] }

/-- Method `ARockSolver::isRemoteParam`; `none` when `getFramebyId` throws. -/
def isRemoteParam (s : ARockSolver K) (param_info : ParamInfo) : Option Bool :=
  if param_info.type = ParamsType.POSE ∨ param_info.type = ParamsType.POSE_4D then
    match s.state.getFramebyId param_info.id with
    | none => none
    | some frame => if frame.drone_id ≠ s.self_id then some true else some false
  else some false

/-- Method `ARockSolver::solverId`; `none` when `getFramebyId` throws. -/
def solverId (s : ARockSolver K) (param_info : ParamInfo) : Option Int :=
  if param_info.type = ParamsType.POSE ∨ param_info.type = ParamsType.POSE_4D then
    match s.state.getFramebyId param_info.id with
    | none => none
    | some frame => some frame.drone_id
  else some (-1)

/-- Method `ARockSolver::hasDualState`: only the remote store is consulted. -/
def hasDualState (s : ARockSolver K) (param : StatePtr) (drone_id : Int) : Bool :=
  match StdMap.find s.dual_states_remote drone_id with
  | none => false
  | some duals => StdMap.contains duals param

/-- Method `ARockSolver::createDualState`. -/
def createDualState (s : ARockSolver K) (param_info : ParamInfo) (drone_id : Int) :
    ARockSolver K :=
  let s1 : ARockSolver K :=
    if StdMap.contains s.dual_states_remote drone_id then s
    else { s with
      dual_states_remote := StdMap.insert s.dual_states_remote drone_id []
      dual_states_local := StdMap.insert s.dual_states_local drone_id [] }
  let value := s.state.mapVector param_info.pointer param_info.size
  { s1 with
    dual_states_remote :=
      StdMap.insert s1.dual_states_remote drone_id
        (StdMap.insert (StdMap.getD s1.dual_states_remote drone_id []) param_info.pointer value)
    dual_states_local :=
      StdMap.insert s1.dual_states_local drone_id
        (StdMap.insert (StdMap.getD s1.dual_states_local drone_id []) param_info.pointer value)
    updated := true }

/-- Body of the inner loop of `scanAndCreateDualStates` for one `param_info`. -/
def scanParam (s : ARockSolver K) (param_info : ParamInfo) : Option (ARockSolver K) :=
  match isRemoteParam s param_info with
  | none => none
  | some false => some s
  | some true =>
    match solverId s param_info with
    | none => none
    | some drone_id =>
      if drone_id ≠ s.self_id then
        if ¬ hasDualState s param_info.pointer drone_id then
          some (createDualState s param_info drone_id)
        else some s
      else some s

/-- Inner loop of `scanAndCreateDualStates`: `for (auto param_info : param_infos)`. -/
def scanParams (s : ARockSolver K) : List ParamInfo → Option (ARockSolver K)
  | [] => some s
  | p :: rest =>
    match scanParam s p with
    | none => none
    | some s1 => scanParams s1 rest

/-- Outer loop of `scanAndCreateDualStates`: `for (auto res : residuals)`. -/
def scanResiduals (s : ARockSolver K) : List (ResidualInfo K) → Option (ARockSolver K)
  | [] => some s
  | res :: rest =>
    match scanParams s (res.paramsList s.state) with
    | none => none
    | some s1 => scanResiduals s1 rest

/-- Method `ARockSolver::scanAndCreateDualStates`. -/
def scanAndCreateDualStates (s : ARockSolver K) : Option (ARockSolver K) :=
  scanResiduals s s.residuals

end ARockSolver

/-! ## The ARock dual update -/

section DualUpdate

variable {K P : Type} [LinearOrderedField K] [FloorRing K]

/-- Modelled from the spec: `Utility::NormalizeAngle` (d2common/utils.hpp is not
among the sources). The spec has every yaw wrapped to the half-open interval
(-π, π]; this is the unique representative of `angle` modulo 2π in it. The
constant `pi` stands for `M_PI`. -/
def NormalizeAngle (pi : K) (angle : K) : K :=
  angle - 2 * pi * ((⌈(angle - pi) / (2 * pi)⌉ : ℤ) : K)

/-- Operations of the external pose library `Swarm::Pose` (package swarm_msgs)
and the kind predicates `IsSE3`, `IsPose4D` and the constant `M_PI`, none of
which is among the sources: they are parameters of the embedding. -/
structure Externals (K P : Type) where
  IsSE3 : ParamsType → Bool
  IsPose4D : ParamsType → Bool
  pi : K
  ofVector : List K → P
  ofPointer : (Nat → K) → P
  averagePoses : List P → P
  DeltaPose : P → P → P
  tangentSpace : P → List K
  fromTangentSpace : List K → P
  mul : P → P → P
  to_vector : P → List K

/-- Coefficient-wise binary operation of two `VectorXd`; Eigen requires equal sizes. -/
def zipSame (f : K → K → K) (a b : List K) : Option (List K) :=
  if a.length = b.length then some (List.zipWith f a b) else none

/-- Assignment `v(3) = f(v(3))`; the coefficient must exist. -/
def setYaw (f : K → K) (v : List K) : Option (List K) :=
  match v[3]? with
  | none => none
  | some yaw => some (v.set 3 (f yaw))

/-- Store `pose.to_vector(v.data())`: the scalars of the pose overwrite the head of `v`. -/
def storeHead (scalars v : List K) : List K :=
  scalars ++ v.drop scalars.length

/-- Branch `IsSE3` of `updateDualStates` (lines 196-208). -/
def updateDualSE3 (E : Externals K P) (eta_k : K) (cur : Nat → K)
    (dual_state_local dual_state_remote : List K) : List K :=
  let dual_pose_local := E.ofVector dual_state_local
  let dual_pose_remote := E.ofVector dual_state_remote
  let avg_pose := E.averagePoses [dual_pose_remote, dual_pose_local]
  let cur_est_pose := E.ofPointer cur
  let pose_err := E.tangentSpace (E.DeltaPose cur_est_pose avg_pose)
  let delta_state := pose_err.map (fun c => c * eta_k)
  let dual_pose_local_new :=
    E.mul dual_pose_local (E.fromTangentSpace (delta_state.map (fun c => -c)))
  storeHead (E.to_vector dual_pose_local_new) dual_state_local

/-- Branch `IsPose4D` of `updateDualStates` (lines 210-216). -/
def updateDualPose4D (pi eta_k : K) (cur_est_state dual_state_local dual_state_remote : List K) :
    Option (List K) :=
  (zipSame (fun a b => a + b) dual_state_local dual_state_remote).bind fun sum =>
  let avg_state := sum.map (fun c => c / 2)
  (zipSame (fun a b => a - b) avg_state cur_est_state).bind fun diff =>
  (setYaw (NormalizeAngle pi) (diff.map (fun c => c * eta_k))).bind fun delta =>
  (zipSame (fun a b => a - b) dual_state_local delta).bind fun moved =>
  setYaw (NormalizeAngle pi) moved

/-- Branch for vectors of `updateDualStates` (lines 219-223). -/
def updateDualVector (eta_k : K) (cur_est_state dual_state_local dual_state_remote : List K) :
    Option (List K) :=
  (zipSame (fun a b => a + b) dual_state_local dual_state_remote).bind fun sum =>
  let avg_state := sum.map (fun c => c / 2)
  (zipSame (fun a b => a - b) avg_state cur_est_state).bind fun diff =>
  let delta := diff.map (fun c => c * eta_k)
  zipSame (fun a b => a - b) dual_state_local delta

/-- Body of the inner loop of `updateDualStates` for the local dual of
`state_pointer` towards `remote_drone_id`; `none` when an `at` lookup throws
or a vector operation is ill-sized. -/
def ARockSolver.updateDualState (E : Externals K P) (s : ARockSolver K) (remote_drone_id : Int)
    (state_pointer : StatePtr) (dual_state_local : List K) : Option (List K) :=
  match StdMap.find s.all_estimating_params state_pointer with
  | none => none
  | some param_info =>
    match (StdMap.find s.dual_states_remote remote_drone_id).bind
        (fun duals => StdMap.find duals state_pointer) with
    | none => none
    | some dual_state_remote =>
      if E.IsSE3 param_info.type then
        some (updateDualSE3 E s.config.eta_k (s.state.mem state_pointer)
          dual_state_local dual_state_remote)
      else if E.IsPose4D param_info.type then
        updateDualPose4D E.pi s.config.eta_k
          (s.state.mapVector state_pointer param_info.size) dual_state_local dual_state_remote
      else
        updateDualVector s.config.eta_k
          (s.state.mapVector state_pointer param_info.size) dual_state_local dual_state_remote

/-- Method `ARockSolver::updateDualStates`. -/
def ARockSolver.updateDualStates (E : Externals K P) (s : ARockSolver K) :
    Option (ARockSolver K) :=
  match StdMap.mapValsM (fun remote_drone_id duals =>
      StdMap.mapValsM (fun state_pointer dual_state_local =>
        s.updateDualState E remote_drone_id state_pointer dual_state_local) duals)
      s.dual_states_local with
  | none => none
  | some duals => some { s with dual_states_local := duals }

/-- Local dual stored for `(drone_id, pointer)`. -/
def ARockSolver.localDual (s : ARockSolver K) (drone_id : Int) (pointer : StatePtr) :
    Option (List K) :=
  (StdMap.find s.dual_states_local drone_id).bind (fun duals => StdMap.find duals pointer)

/-- Remote dual stored for `(drone_id, pointer)`. -/
def ARockSolver.remoteDual (s : ARockSolver K) (drone_id : Int) (pointer : StatePtr) :
    Option (List K) :=
  (StdMap.find s.dual_states_remote drone_id).bind (fun duals => StdMap.find duals pointer)

/-- Yaw-pose update in the words of the spec: `z_avg = (z_l + z_r)/2`, wrap yaw;
`δ = η·(z_avg − x)`, wrap yaw of δ; `z_l' = z_l − δ`, wrap yaw of the result. -/
def yawUpdateSpec (pi eta : K) (x z_l z_r : List K) : Option (List K) :=
  (zipSame (fun a b => a + b) z_l z_r).bind fun sum =>
  (setYaw (NormalizeAngle pi) (sum.map (fun c => c / 2))).bind fun z_avg =>
  (zipSame (fun a b => a - b) z_avg x).bind fun diff =>
  (setYaw (NormalizeAngle pi) (diff.map (fun c => eta * c))).bind fun delta =>
  (zipSame (fun a b => a - b) z_l delta).bind fun moved =>
  setYaw (NormalizeAngle pi) moved

end DualUpdate

/-! ## Round negotiation in the estimator -/

/-- Signals of `SyncSignal`. The callback receives a plain `int`; every value
that is none of the three enumerators is `Unrecognized`. -/
inductive SyncSignal where
  | DSolverReady
  | DSolverStart
  | DSolverNonDist
  | Unrecognized
  deriving DecidableEq, Repr

/-- Message `DistributedVinsData` of `ConsensusSync.cpp` (time stamp left out). -/
structure DistributedVinsData (P : Type) where
  drone_id : Int
  solver_token : Int
  iteration_count : Int
  frame_ids : List FrameIdType := []
  frame_poses : List P := []
  cam_ids : List Int := []
  extrinsic : List P := []
  remote_drone_ids : List Int := []
  relative_coordinates : List P := []

/-- Modelled from the spec: `SyncDataReceiver::add` (ConsensusSync.hpp is not
among the sources). The spec has a received message retained until the next
scan: the receiver is the list of retained messages, and `add` appends one. -/
def SyncDataReceiver.add {P : Type} (buffer : List (DistributedVinsData P))
    (dist_data : DistributedVinsData P) : List (DistributedVinsData P) :=
  buffer ++ [dist_data]

/-- Values of `D2VINSConfig::estimation_mode` that the sources name; every other
enumerator is `Unlisted`. -/
inductive EstimationMode where
  | SOLVE_ALL_MODE
  | DISTRIBUTED_CAMERA_CONSENUS
  | SERVER_MODE
  | Unlisted
  deriving DecidableEq, Repr

/-- Options of `D2VINSConfig` read by the negotiation, by `setStateProperties`,
by `clearFrame` and by the landmark factors. The integer options are `int`. -/
structure D2VINSConfig where
  min_solve_frames : Int
  consensus_sync_to_start : Bool
  max_sld_win_size : Int := 10
  estimate_td : Bool := false
  estimate_extrinsic : Bool := false
  always_fixed_first_pose : Bool := false
  enable_marginalization : Bool := false
  estimation_mode : EstimationMode := EstimationMode.DISTRIBUTED_CAMERA_CONSENUS

/-- Prior factor `PriorFactor` (prior_factor.h is not among the sources): the
parameters it keeps, which `getKeepParams` returns. -/
structure PriorFactor where
  keep_params : List ParamInfo := []
  deriving DecidableEq, Repr

/-- Members of `D2EstimatorState` that the embedded code reads or writes: the
sliding windows and participants, the window lists last announced by the
other drones, the frame database, the addresses of the pose, speed-bias and
extrinsic blocks and of `td`, and the prior (`none` for the null pointer). -/
structure D2EstimatorState where
  self_id : Int
  all_drones : Finset Int
  sld_wins : StdMap Int (List VINSFrame) := []
  latest_remote_sld_wins : StdMap Int (List FrameIdType) := []
  frame_db : StdMap FrameIdType VINSFrame := []
  _frame_pose_state : StdMap FrameIdType StatePtr := []
  _frame_spd_Bias_state : StdMap FrameIdType StatePtr := []
  _camera_extrinsic_state : StdMap Int StatePtr := []
  td : StatePtr := 0
  prior_factor : Option PriorFactor := none

/-- Method `D2EstimatorState::availableDrones`. -/
def D2EstimatorState.availableDrones (state : D2EstimatorState) : Finset Int :=
  state.all_drones

/-- Method `D2EstimatorState::size`: `sld_wins.at(self_id).size()`. -/
def D2EstimatorState.size (state : D2EstimatorState) : Option Nat :=
  (StdMap.find state.sld_wins state.self_id).map List.length

/-- Value of a 64-bit two's-complement integer after an arithmetic result `x`. -/
def wrapInt64 (x : Int) : Int := (x + 2 ^ 63) % 2 ^ 64 - 2 ^ 63

/-- Value of a 32-bit two's-complement `int` after an arithmetic result `x`:
the wrap-around of the compiled code where C++ leaves signed overflow
undefined. It is the identity on the range of `int`. -/
def wrapInt32 (x : Int) : Int := (x + 2147483648) % 4294967296 - 2147483648

/-- Conversion of an `int` to `size_t`, which the comparison
`state.size() < params->min_solve_frames` applies to its signed operand. -/
def toSizeT (x : Int) : Nat := (x % 2 ^ 64).toNat

/-- Object `D2Estimator`: the members read or written by the negotiation, the
receiver of consensus data, the solver and the landmarks used by the factors. -/
structure D2Estimator (K P : Type) where
  self_id : Int
  params : D2VINSConfig
  state : D2EstimatorState
  solve_token : Int
  ready_to_start : Bool
  ready_drones : Finset Int
  updated : Bool
  sync_data_receiver : List (DistributedVinsData P) := []
  solver : ARockSolver K
  used_landmarks : Finset Int := ∅

/-- One delivery of the sync callback: `(drone_id, signal, token)`. -/
abbrev SyncMsg := Int × SyncSignal × Int

namespace D2Estimator

variable {K P : Type}

/-- Method `D2Estimator::isMain`. -/
def isMain (e : D2Estimator K P) : Bool := e.self_id = 1

/-- Method `D2Estimator::onSyncSignal`. -/
def onSyncSignal (e : D2Estimator K P) (drone_id : Int) (signal : SyncSignal) (token : Int) :
    D2Estimator K P :=
  let e1 : D2Estimator K P :=
    if signal = SyncSignal.DSolverReady ∨ signal = SyncSignal.DSolverNonDist then
      { e with ready_drones := insert drone_id e.ready_drones }
    else e
  let e2 : D2Estimator K P :=
    if signal = SyncSignal.DSolverStart ∨ (signal = SyncSignal.DSolverNonDist ∧ drone_id = 1) then
      { e1 with ready_to_start := true, solve_token := token }
    else e1
  if e2.isMain ∧ e2.ready_drones.card = e2.state.availableDrones.card then
    { e2 with ready_to_start := true }
  else e2

/-- Method `D2Estimator::readyForStart`. -/
def readyForStart (e : D2Estimator K P) : Bool :=
  if e.state.availableDrones.card = 1 then true else e.ready_to_start

/-- Method `D2Estimator::waitForStart`. The loop polls `readyForStart` while the
callback thread delivers the signals `incoming`, one before each new poll; it
returns the state at which the poll succeeds, and `none` when the signals run
out first (the loop keeps waiting). -/
def waitForStart (e : D2Estimator K P) : List SyncMsg → Option (D2Estimator K P)
  | [] => if e.readyForStart then some e else none
  | msg :: rest =>
    if e.readyForStart then some e
    else waitForStart (e.onSyncSignal msg.1 msg.2.1 msg.2.2) rest

/-- Method `D2Estimator::solveinDistributedMode`, its statements up to the factor
setup (lines 418-452): the members of the negotiation are written nowhere
after them. `incoming` are the signals delivered while it waits. -/
def solveinDistributedMode (e : D2Estimator K P) (incoming : List SyncMsg) :
    Option (D2Estimator K P) :=
  match e.state.size with
  | none => none
  | some n =>
    if n < toSizeT e.params.min_solve_frames ∨ ¬ e.updated then some e
    else
      let e1 : D2Estimator K P := { e with updated := false }
      if e1.params.consensus_sync_to_start then
        let e2 : D2Estimator K P := { e1 with ready_drones := {e1.self_id} }
        match waitForStart e2 incoming with
        | none => none
        | some e3 =>
          let e4 : D2Estimator K P :=
            if e3.isMain then { e3 with solve_token := wrapInt64 (e3.solve_token + 1) } else e3
          some { e4 with ready_to_start := false }
      else some e1

end D2Estimator

/-! ## Concrete inputs -/

namespace Sample

/-- Frame 10 belongs to drone 1, frame 42 to drone 2. The pose of frame 10 is
stored at address 100, the pose of frame 42 at address 200 with the scalars
(1, 2, 3, 0, 0, 0, 1), and a landmark at address 300 with inverse depth 1/2. -/
def state : D2State ℚ where
  frame_db := [(10, { frame_id := 10, drone_id := 1 }), (42, { frame_id := 42, drone_id := 2 })]
  mem := fun pointer i =>
    if pointer = 200 then (if i = 0 then 1 else if i = 1 then 2 else if i = 2 then 3
      else if i = 6 then 1 else 0)
    else if pointer = 300 then 1 / 2
    else if i = 6 then 1 else 0

/-- Pose of the own frame 10. -/
def poseSelf : ParamInfo := { pointer := 100, size := 7, eff_size := 6, type := .POSE, id := 10 }

/-- Pose of frame 42, which drone 2 owns. -/
def poseRemote : ParamInfo := { pointer := 200, size := 7, eff_size := 6, type := .POSE, id := 42 }

/-- Landmark 5. -/
def landmark : ParamInfo := { pointer := 300, size := 1, eff_size := 1, type := .LANDMARK, id := 5 }

/-- Record with the address of `poseRemote` but another kind and size. -/
def poseRemoteAs4D : ParamInfo :=
  { pointer := 200, size := 4, eff_size := 4, type := .POSE_4D, id := 42 }

/-- Residual over the own pose, the remote pose and the landmark. -/
def residual : ResidualInfo ℚ where
  paramsList := fun _ => [poseSelf, poseRemote, landmark]

/-- Fresh solver of drone 1 with step 1/2. -/
def solver : ARockSolver ℚ where
  config :=
    { self_id := 1, rho_frame_T := 1 / 10, rho_frame_theta := 1 / 10, rho_landmark := 1 / 10,
      eta_k := 1 / 2, max_steps := 10, max_wait_steps := 10 }
  rho_landmark := 1 / 10
  rho_T := 1 / 10
  rho_theta := 1 / 10
  self_id := 1
  state := state

end Sample

/-! ## State predicates -/

/-- Pairing of the two dual stores: every remote dual has a local counterpart.
It holds after `reset`, and `createDualState` and `updateDualStates` keep it;
`receiveAll`, which writes the remote store from received messages, need not. -/
def ARockSolver.DualsPaired {K : Type} (s : ARockSolver K) : Prop :=
  ∀ (drone_id : Int) (pointer : StatePtr),
    (s.remoteDual drone_id pointer).isSome → (s.localDual drone_id pointer).isSome

/-- Every pose referenced by a residual names a frame of the frame database,
so that `getFramebyId` does not throw during the scan. -/
def ARockSolver.FramesKnown {K : Type} (s : ARockSolver K) : Prop :=
  ∀ res ∈ s.residuals, ∀ p ∈ res.paramsList s.state,
    p.type = ParamsType.POSE ∨ p.type = ParamsType.POSE_4D →
      (s.state.getFramebyId p.id).isSome

/-- Nested lookup `store.at(drone_id).at(pointer)`. -/
def DualStates.look {K : Type} (store : DualStates K) (drone_id : Int) (pointer : StatePtr) :
    Option (List K) :=
  (StdMap.find store drone_id).bind (fun duals => StdMap.find duals pointer)

/-- Parameters met by the scan, in scan order: the parameter lists of the
residuals one after the other. -/
def allParams {K : Type} (state : D2State K) : List (ResidualInfo K) → List ParamInfo
  | [] => []
  | res :: rest => res.paramsList state ++ allParams state rest

namespace Sample

/-- Solver of drone 1 after `addResidual residual`: no dual yet. -/
def solver1 : ARockSolver ℚ := solver.addResidual residual

/-- Solver of drone 1 with the residual and a dual for the pose of frame 42
towards its owner, drone 2; both sides differ from the primal (1, 2, 3, 0, 0, 0, 1). -/
def solverWithDual : ARockSolver ℚ :=
  { solver1 with
    dual_states_local := [(2, [(200, [8, 8, 8, 0, 0, 0, 1])])]
    dual_states_remote := [(2, [(200, [9, 9, 9, 0, 0, 0, 1])])] }

end Sample

/-- Precondition under which `updateDualStates` does not throw: every local dual
belongs to a registered parameter and has a remote counterpart, and outside the
SE3 branch both duals have the registered size (with a yaw coefficient in the
yaw-pose branch). -/
def ARockSolver.UpdateReady {K P : Type} (E : Externals K P) (s : ARockSolver K) : Prop :=
  ∀ d duals, (d, duals) ∈ s.dual_states_local → ∀ ptr zl, (ptr, zl) ∈ duals →
    ∃ param_info zr, StdMap.find s.all_estimating_params ptr = some param_info ∧
      s.remoteDual d ptr = some zr ∧
      (E.IsSE3 param_info.type = false →
        zl.length = param_info.size ∧ zr.length = param_info.size ∧
        (E.IsPose4D param_info.type = true → 3 < param_info.size))

namespace Sample

/-- Stand-in for the external parameters, over the rationals: `M_PI` is the
value of the double constant, a pose is its list of scalars, and the pose
operations are coefficient-wise (composition adds, `DeltaPose(a, b)` is
`b - a`, the average is the mean of two poses). -/
def externals : Externals ℚ (List ℚ) where
  IsSE3 := fun t => t = ParamsType.POSE ∨ t = ParamsType.EXTRINSIC
  IsPose4D := fun t => t = ParamsType.POSE_4D
  pi := 884279719003555 / 281474976710656
  ofVector := fun v => v
  ofPointer := fun buffer => (List.range 7).map buffer
  averagePoses := fun poses =>
    match poses with
    | [a, b] => List.zipWith (fun x y => (x + y) / 2) a b
    | _ => []
  DeltaPose := fun a b => List.zipWith (fun x y => y - x) a b
  tangentSpace := fun v => v
  fromTangentSpace := fun v => v
  mul := fun a b => List.zipWith (fun x y => x + y) a b
  to_vector := fun v => v

/-- Yaw-only pose of frame 42 at address 400; its primal is (0, 0, 0, 0). -/
def poseYaw : ParamInfo := { pointer := 400, size := 4, eff_size := 4, type := .POSE_4D, id := 42 }

/-- Solver with step 1/2 holding, towards drone 2, the duals (3) and (5) of the
landmark, whose primal is (1/2). -/
def solverEuclid : ARockSolver ℚ :=
  { solver with
    all_estimating_params := [(300, landmark)]
    dual_states_local := [(2, [(300, [3])])]
    dual_states_remote := [(2, [(300, [5])])] }

/-- Solver with step 1/2 whose local and remote dual of the yaw pose both have
the yaw 4, outside (-π, π]. -/
def solverYawOut : ARockSolver ℚ :=
  { solver with
    all_estimating_params := [(400, poseYaw)]
    dual_states_local := [(2, [(400, [0, 0, 0, 4])])]
    dual_states_remote := [(2, [(400, [0, 0, 0, 4])])] }

/-- Solver with step 1/2 whose local and remote dual of the yaw pose have the
yaws 1 and 3, both in (-π, π]. -/
def solverYawIn : ARockSolver ℚ :=
  { solver with
    all_estimating_params := [(400, poseYaw)]
    dual_states_local := [(2, [(400, [5, 0, 0, 1])])]
    dual_states_remote := [(2, [(400, [7, 0, 0, 3])])] }

/-- Solver with step 1/2 holding duals of the SE3 pose of frame 42, whose
primal is (1, 2, 3, 0, 0, 0, 1). -/
def solverSE3 : ARockSolver ℚ :=
  { solver with
    all_estimating_params := [(200, poseRemote)]
    dual_states_local := [(2, [(200, [1, 2, 3, 0, 0, 0, 1])])]
    dual_states_remote := [(2, [(200, [3, 2, 3, 0, 0, 0, 1])])] }

end Sample

namespace Sample

/-- Estimator of drone 2 in a swarm of drones 1 and 2, with a window of two
frames and new data to solve for; its solver has no residual yet. -/
def estimator : D2Estimator ℚ (List ℚ) where
  self_id := 2
  params := { min_solve_frames := 2, consensus_sync_to_start := true }
  solve_token := 0
  ready_to_start := false
  ready_drones := ∅
  state :=
    { self_id := 2
      all_drones := {1, 2}
      sld_wins := [(2, [{ frame_id := 10, drone_id := 2 }, { frame_id := 11, drone_id := 2 }])] }
  updated := true
  solver := solver

/-- Estimator of drone 1, the main agent, in the same swarm. -/
def estimatorMain : D2Estimator ℚ (List ℚ) where
  self_id := 1
  params := { min_solve_frames := 2, consensus_sync_to_start := true }
  ready_to_start := false
  ready_drones := ∅
  state :=
    { self_id := 1
      all_drones := {1, 2}
      sld_wins := [(1, [{ frame_id := 10, drone_id := 1 }, { frame_id := 12, drone_id := 1 }])] }
  solve_token := 7
  updated := true
  solver := solver

end Sample

/-- Method `ARockSolver::reset`: the reset of the base class `SolverWrapper`,
which is not among the sources and is the parameter `base`, then both dual
stores are cleared. -/
def ARockSolver.reset {K : Type} (base : ARockSolver K → ARockSolver K) (s : ARockSolver K) :
    ARockSolver K :=
  { base s with dual_states_local := [], dual_states_remote := [] }

/-! ## Construction, consensus factors and the outer loop of the solver -/

section SolveModel

variable {K P : Type} [LinearOrderedField K] [FloorRing K]

/-- Constructor `ARockSolver::ARockSolver(_state, _config)` of `ARock.hpp`: the
base is initialised with the state, `config` and `self_id` are copied and the
body copies the three weights. The result is an `Option` so that a rejected
configuration could be told from an accepted one; the constructor has no
statement that rejects. -/
def ARockSolver.construct (_state : D2State K) (_config : ARockSolverConfig K) :
    Option (ARockSolver K) :=
  some
    { config := _config
      self_id := _config.self_id
      state := _state
      rho_landmark := _config.rho_landmark
      rho_T := _config.rho_frame_T
      rho_theta := _config.rho_frame_theta }

/-- Body of the inner loop of `setDualStateFactors`: the consensus factor for
the remote dual `dual_state` of `state_pointer`; `none` when
`all_estimating_params.at` throws. -/
def ARockSolver.dualStateFactor (E : Externals K P) (s : ARockSolver K)
    (state_pointer : StatePtr) (dual_state : List K) : Option (ResidualBlock K) :=
  match StdMap.find s.all_estimating_params state_pointer with
  | none => none
  | some param_info =>
    if E.IsSE3 param_info.type then
      some (ResidualBlock.ConsenusPoseFactor dual_state s.rho_T s.rho_theta state_pointer)
    else if E.IsPose4D param_info.type then
      some (ResidualBlock.ConsenusPoseFactor4D dual_state s.rho_T s.rho_theta state_pointer)
    else
      some (ResidualBlock.NormalPrior param_info.size
        (if param_info.type = ParamsType.LANDMARK then s.rho_landmark else 1)
        dual_state state_pointer)

/-- Inner loop of `setDualStateFactors`: `for (auto it : param_pair.second)`. -/
def ARockSolver.addFactorsOf (E : Externals K P) (s : ARockSolver K) :
    StdMap StatePtr (List K) → Problem K → Option (Problem K)
  | [], problem => some problem
  | (state_pointer, dual_state) :: rest, problem =>
    match s.dualStateFactor E state_pointer dual_state with
    | none => none
    | some factor =>
      ARockSolver.addFactorsOf E s rest
        { problem with residual_blocks := problem.residual_blocks ++ [factor] }

/-- Outer loop of `setDualStateFactors`: `for (auto & param_pair : dual_states_remote)`. -/
def ARockSolver.addFactorsAll (E : Externals K P) (s : ARockSolver K) :
    DualStates K → Problem K → Option (Problem K)
  | [], problem => some problem
  | (_, duals) :: rest, problem =>
    match s.addFactorsOf E duals problem with
    | none => none
    | some problem1 => ARockSolver.addFactorsAll E s rest problem1

/-- Method `ARockSolver::setDualStateFactors`; `none` when `problem` is null or a
lookup throws. -/
def ARockSolver.setDualStateFactors (E : Externals K P) (s : ARockSolver K) :
    Option (ARockSolver K) :=
  match s.problem with
  | none => none
  | some problem =>
    match s.addFactorsAll E s.dual_states_remote problem with
    | none => none
    | some problem1 => some { s with problem := some problem1 }

/-- Pairs `(peer, parameter, remote dual)` of a dual store in iteration order. -/
def dualPairs : DualStates K → List (Int × StatePtr × List K)
  | [] => []
  | (drone_id, duals) :: rest =>
    duals.map (fun it => (drone_id, it.1, it.2)) ++ dualPairs rest

/-- Address a consensus factor is attached to (none for a primary residual). -/
def ResidualBlock.attachedTo : ResidualBlock K → Option StatePtr
  | .primary _ _ => none
  | .ConsenusPoseFactor _ _ _ state_pointer => some state_pointer
  | .ConsenusPoseFactor4D _ _ _ state_pointer => some state_pointer
  | .NormalPrior _ _ _ state_pointer => some state_pointer

/-- Target value of a consensus factor (none for a primary residual). -/
def ResidualBlock.target : ResidualBlock K → Option (List K)
  | .primary _ _ => none
  | .ConsenusPoseFactor dual_state _ _ _ => some dual_state
  | .ConsenusPoseFactor4D dual_state _ _ _ => some dual_state
  | .NormalPrior _ _ b _ => some b

/-- Fields of `ceres::Solver::Summary` read by `solve`, and whether the inner
solver reports success (`IsSolutionUsable`). -/
structure Summary (K : Type) where
  initial_cost : K
  final_cost : K
  num_successful_steps : Int
  num_unsuccessful_steps : Int
  is_solution_usable : Bool

/-- Fields of `SolverReport` written by `solve`. -/
structure SolverReport (K : Type) where
  total_iterations : Int
  initial_cost : K
  final_cost : K

/-- What `solve` calls but `ARock.cpp` does not define: the pure virtual
`receiveAll` (its call in pass `n` of one `solve`, which may write the dual
stores and `updated`), the virtual `setStateProperties`, which sets properties of
parameter blocks of the problem and leaves its residual blocks, the inner
solver `ceres::Solve` acting on the primal buffers, and the
default-constructed report. -/
structure SolveEnv (K : Type) where
  receiveAll : Nat → ARockSolver K → ARockSolver K
  setStateProperties : Problem K → Problem K
  ceresSolve : Problem K → (StatePtr → Nat → K) → (StatePtr → Nat → K) × Summary K
  report0 : SolverReport K

/-- Call of `receiveAll`: of what the override returns, the dual stores and
`updated` are taken over. -/
def ARockSolver.receiveAll (env : SolveEnv K) (n : Nat) (s : ARockSolver K) : ARockSolver K :=
  { s with
    dual_states_local := (env.receiveAll n s).dual_states_local
    dual_states_remote := (env.receiveAll n s).dual_states_remote
    updated := (env.receiveAll n s).updated }

/-- Call of the virtual `setStateProperties`: it acts on the problem and
leaves its residual blocks. -/
def ARockSolver.setStateProperties (env : SolveEnv K) (s : ARockSolver K) : ARockSolver K :=
  { s with problem := s.problem.map (fun problem =>
      { env.setStateProperties problem with residual_blocks := problem.residual_blocks }) }

/-- Method `ARockSolver::solveLocalStep`; `none` when `problem` is null. -/
def ARockSolver.solveLocalStep (env : SolveEnv K) (s : ARockSolver K) :
    Option (ARockSolver K × Summary K) :=
  match s.problem with
  | none => none
  | some problem =>
    some ({ s with
        state := { s.state with mem := (env.ceresSolve problem s.state.mem).1 }
        updated := false },
      (env.ceresSolve problem s.state.mem).2)

/-- Observable steps of one call of `solve`. -/
inductive SolveEvent (K : Type) where
  | skipped
  | localStep (problem : Problem K) (summary : Summary K)
  | updateDualStates
  | broadcastData

/-- Outcome of one pass of the `while` loop of `solve`: `halt` for `break`,
`next` for `continue` and for the end of the body, `threw` for an exception. -/
inductive PassResult (K : Type) where
  | halt (solver : ARockSolver K) (events : List (SolveEvent K))
  | next (solver : ARockSolver K) (iter_cnt total_cnt : Int) (report : SolverReport K)
      (events : List (SolveEvent K))
  | threw (solver : ARockSolver K) (events : List (SolveEvent K))

/-- Lines 54-71 of `solve`: the old problem is deleted and a new one receives a
residual block for every residual of the list. The primary blocks get the
addresses of `paramsList(state)` for `paramsPointerList(state)`. -/
def ARockSolver.buildProblem (s : ARockSolver K) : ARockSolver K :=
  { s with problem := some { residual_blocks := s.residuals.map (fun residual_info =>
      ResidualBlock.primary residual_info
        ((residual_info.paramsList s.state).map (fun p => p.pointer))) } }

/-- Body of the `while` loop of `solve` (lines 40-89), in pass number `n` of
the call. The counters `iter_cnt` and `total_cnt` and the options `max_steps`
and `max_wait_steps` are `int`: `total_cnt ++` and the sum
`config.max_wait_steps + config.max_steps` are taken modulo 2^32
(`wrapInt32`). `iter_cnt ++` is reached only under the loop guard
`iter_cnt < config.max_steps`, where `iter_cnt + 1` is at most the `int`
`max_steps` and cannot overflow. -/
def ARockSolver.solvePass (E : Externals K P) (env : SolveEnv K) (s : ARockSolver K)
    (n : Nat) (iter_cnt total_cnt : Int) (report : SolverReport K) : PassResult K :=
  let s1 := s.receiveAll env n
  if ¬ s1.updated then
    if wrapInt32 (total_cnt + 1)
        > wrapInt32 (s1.config.max_wait_steps + s1.config.max_steps) then
      PassResult.halt s1 [SolveEvent.skipped]
    else PassResult.next s1 iter_cnt (wrapInt32 (total_cnt + 1)) report [SolveEvent.skipped]
  else
    let s2 : ARockSolver K := s1.buildProblem
    match s2.scanAndCreateDualStates with
    | none => PassResult.threw s2 []
    | some s3 =>
      match s3.setDualStateFactors E with
      | none => PassResult.threw s3 []
      | some s4 =>
        let s5 : ARockSolver K := s4.setStateProperties env
        match s5.solveLocalStep env with
        | none => PassResult.threw s5 []
        | some (s6, summary) =>
          match s6.updateDualStates E with
          | none =>
            PassResult.threw s6
              [SolveEvent.localStep (s5.problem.getD {}) summary, SolveEvent.updateDualStates]
          | some s7 =>
            PassResult.next s7 (iter_cnt + 1) (wrapInt32 (total_cnt + 1))
              { total_iterations := report.total_iterations +
                  (summary.num_successful_steps + summary.num_unsuccessful_steps)
                final_cost := summary.final_cost
                initial_cost := if iter_cnt = 0 then summary.initial_cost
                  else report.initial_cost }
              [SolveEvent.localStep (s5.problem.getD {}) summary, SolveEvent.updateDualStates,
                SolveEvent.broadcastData]

/-- How a run of `solve` ended: it returned its report, an exception left it, or
the passes granted to the model were used up. -/
inductive SolveStatus where
  | returned
  | thrown
  | outOfFuel
  deriving DecidableEq, Repr

/-- A run of `solve`: how it ended, the solver and the report at that point and
the steps it made. -/
structure SolveRun (K : Type) where
  status : SolveStatus
  solver : ARockSolver K
  report : SolverReport K
  trace : List (SolveEvent K)

/-- The `while (iter_cnt < config.max_steps)` loop of `solve`, run for at most
`fuel` passes from pass number `n` on. -/
def ARockSolver.solveLoop (E : Externals K P) (env : SolveEnv K) :
    Nat → Nat → ARockSolver K → Int → Int → SolverReport K → SolveRun K
  | 0, _, s, iter_cnt, _, report =>
    if iter_cnt < s.config.max_steps then
      { status := SolveStatus.outOfFuel, solver := s, report := report, trace := [] }
    else { status := SolveStatus.returned, solver := s, report := report, trace := [] }
  | fuel + 1, n, s, iter_cnt, total_cnt, report =>
    if iter_cnt < s.config.max_steps then
      match s.solvePass E env n iter_cnt total_cnt report with
      | PassResult.halt s1 events =>
        { status := SolveStatus.returned, solver := s1, report := report, trace := events }
      | PassResult.threw s1 events =>
        { status := SolveStatus.thrown, solver := s1, report := report, trace := events }
      | PassResult.next s1 iter_cnt1 total_cnt1 report1 events =>
        { ARockSolver.solveLoop E env fuel (n + 1) s1 iter_cnt1 total_cnt1 report1 with
          trace := events ++
            (ARockSolver.solveLoop E env fuel (n + 1) s1 iter_cnt1 total_cnt1 report1).trace }
    else { status := SolveStatus.returned, solver := s, report := report, trace := [] }

/-- Method `ARockSolver::solve`, run for at most `fuel` passes of its loop. -/
def ARockSolver.solve (E : Externals K P) (env : SolveEnv K) (fuel : Nat) (s : ARockSolver K) :
    SolveRun K :=
  s.solveLoop E env fuel 0 0 0 env.report0

/-- Number of passes of a run that built a problem and ran a local step. -/
def countLocalSteps : List (SolveEvent K) → Nat
  | [] => 0
  | SolveEvent.localStep _ _ :: rest => countLocalSteps rest + 1
  | _ :: rest => countLocalSteps rest

/-- Number of empty-reception passes of a run. -/
def countSkipped : List (SolveEvent K) → Nat
  | [] => 0
  | SolveEvent.skipped :: rest => countSkipped rest + 1
  | _ :: rest => countSkipped rest

end SolveModel

/-- Deliveries of the sync callback one after the other. -/
def D2Estimator.deliver {K P : Type} (e : D2Estimator K P) : List SyncMsg → D2Estimator K P
  | [] => e
  | msg :: rest => D2Estimator.deliver (e.onSyncSignal msg.1 msg.2.1 msg.2.2) rest

namespace Sample

/-- Estimator of drone 2 that has reached token 7 and is not ready to start. -/
def estimatorAt7 : D2Estimator ℚ (List ℚ) :=
  { estimator with solve_token := 7 }

/-- Estimator of drone 2 in a swarm of drones 2 and 3: it has the lowest id. -/
def estimatorLowest : D2Estimator ℚ (List ℚ) :=
  { estimator with state := { self_id := 2, all_drones := {2, 3} } }

/-- Main agent (drone 1) of the swarm of drones 1 and 2, at the start of a
round: `ready_drones` holds itself only and `ready_to_start` is false. -/
def estimatorMainIdle : D2Estimator ℚ (List ℚ) :=
  { estimatorMain with ready_drones := {1} }

end Sample

namespace Sample

/-- Summary of an inner solve that reports success. -/
def summary : Summary ℚ where
  initial_cost := 4
  final_cost := 1
  num_successful_steps := 3
  num_unsuccessful_steps := 0
  is_solution_usable := true

/-- Environment in which `receiveAll` never delivers anything, the inner solver
leaves the primal buffers and reports `summary`. -/
def env : SolveEnv ℚ where
  receiveAll := fun _ s => s
  setStateProperties := fun problem => problem
  ceresSolve := fun _ mem => (mem, summary)
  report0 := { total_iterations := 0, initial_cost := 0, final_cost := 0 }

/-- Environment in which every call of `receiveAll` delivers data and the inner
solver reports failure every time. -/
def envFailing : SolveEnv ℚ where
  receiveAll := fun _ s => { s with updated := true }
  setStateProperties := fun problem => problem
  ceresSolve := fun _ mem => (mem, { summary with is_solution_usable := false })
  report0 := { total_iterations := 0, initial_cost := 0, final_cost := 0 }

/-- Solver of drone 1 holding the residual over frame 42, with `max_steps = 2`
and `max_wait_steps = 1`. -/
def solverShort : ARockSolver ℚ :=
  { solver1 with config := { solver1.config with max_steps := 2, max_wait_steps := 1 } }

end Sample

section SolveShapes

variable {K : Type}

/-- Kind of an observable step; a local step keeps whether the inner solver
reported success. -/
inductive EventKind where
  | skipped
  | localStep (is_solution_usable : Bool)
  | updateDualStates
  | broadcastData
  deriving DecidableEq, Repr

/-- Kind of an event. -/
def SolveEvent.kind : SolveEvent K → EventKind
  | .skipped => EventKind.skipped
  | .localStep _ summary => EventKind.localStep summary.is_solution_usable
  | .updateDualStates => EventKind.updateDualStates
  | .broadcastData => EventKind.broadcastData

/-- Event with the success report of the inner solver blanked out. -/
def SolveEvent.shape : SolveEvent K → SolveEvent K
  | .localStep problem summary =>
    SolveEvent.localStep problem { summary with is_solution_usable := true }
  | event => event

/-- Run with the success reports of the inner solver blanked out. -/
def SolveRun.shape (run : SolveRun K) : SolveRun K :=
  { run with trace := run.trace.map SolveEvent.shape }

/-- Outcome of a pass with the success reports of the inner solver blanked out. -/
def PassResult.shape : PassResult K → PassResult K
  | .halt solver events => PassResult.halt solver (events.map SolveEvent.shape)
  | .next solver iter_cnt total_cnt report events =>
    PassResult.next solver iter_cnt total_cnt report (events.map SolveEvent.shape)
  | .threw solver events => PassResult.threw solver (events.map SolveEvent.shape)

/-- Environment whose inner solver does the same but reports `usable` as its success. -/
def SolveEnv.reporting (env : SolveEnv K) (usable : Bool) : SolveEnv K :=
  { env with
    ceresSolve := fun problem mem =>
      ((env.ceresSolve problem mem).1,
        { (env.ceresSolve problem mem).2 with is_solution_usable := usable }) }

/-- Every local step of the trace is followed by `updateDualStates` and that by
`broadcastData`; only the last step may lack the broadcast (when
`updateDualStates` threw). -/
def stepsPublished : List (SolveEvent K) → Bool
  | [] => true
  | .skipped :: rest => stepsPublished rest
  | .localStep _ _ :: .updateDualStates :: .broadcastData :: rest => stepsPublished rest
  | [.localStep _ _, .updateDualStates] => true
  | _ => false

end SolveShapes

namespace Sample

/-- Configuration whose step 2 lies outside the interval (0, 1]. -/
def configLargeStep : ARockSolverConfig ℚ :=
  { solver.config with eta_k := 2 }

end Sample

namespace Sample

/-- Solver holding duals of the SE3 pose of frame 42 (local (1, 2, 3, ..), remote
(3, 2, 3, ..)) and an empty inner problem. -/
def solverFactors : ARockSolver ℚ :=
  { solverSE3 with problem := some { residual_blocks := [] } }

/-- Estimator of drone 1 that knows no other drone and has `ready_to_start` false. -/
def estimatorAlone : D2Estimator ℚ (List ℚ) :=
  { estimatorMain with state := { self_id := 1, all_drones := {1} } }

end Sample

/-- Keys `(peer, parameter)` of a dual store in iteration order. -/
def dualKeys {K : Type} (store : DualStates K) : List (Int × StatePtr) :=
  (dualPairs store).map (fun pair => (pair.1, pair.2.1))

namespace Sample

/-- Solver with step 1/2 whose local dual, remote dual and primal of the yaw
pose at address 200 are all (1, 2, 3, 0). -/
def solverYawAgree : ARockSolver ℚ :=
  { solver with
    all_estimating_params := [(200, poseRemoteAs4D)]
    dual_states_local := [(2, [(200, [1, 2, 3, 0])])]
    dual_states_remote := [(2, [(200, [1, 2, 3, 0])])] }

end Sample

/-- Solver states in which every residual of the list was added through
`addResidual` and every dual was created by `scanAndCreateDualStates`: the
start has no residual and no dual, and the steps are `addResidual`,
`resetResiduals`, the scan, the other steps of a pass of `solve` (problem
build, `setDualStateFactors`, `setStateProperties`, `solveLocalStep`,
`updateDualStates`). The inner solver rewrites the primal buffers; the
parameter lists of the residuals read addresses, not the solved values, so
they are the same afterwards. -/
inductive ARockSolver.ByScan {K P : Type} [LinearOrderedField K] [FloorRing K]
    (E : Externals K P) : ARockSolver K → Prop where
  | start (s : ARockSolver K) (hres : s.residuals = []) (hlocal : s.dual_states_local = [])
      (hremote : s.dual_states_remote = []) : ARockSolver.ByScan E s
  | addResidual (s : ARockSolver K) (residual_info : ResidualInfo K)
      (h : ARockSolver.ByScan E s) : ARockSolver.ByScan E (s.addResidual residual_info)
  | resetResiduals (s : ARockSolver K) (h : ARockSolver.ByScan E s) :
      ARockSolver.ByScan E s.resetResiduals
  | scanAndCreateDualStates (s t : ARockSolver K) (h : ARockSolver.ByScan E s)
      (ht : s.scanAndCreateDualStates = some t) : ARockSolver.ByScan E t
  | buildProblem (s : ARockSolver K) (h : ARockSolver.ByScan E s) :
      ARockSolver.ByScan E s.buildProblem
  | setDualStateFactors (s t : ARockSolver K) (h : ARockSolver.ByScan E s)
      (ht : s.setDualStateFactors E = some t) : ARockSolver.ByScan E t
  | setStateProperties (s : ARockSolver K) (env : SolveEnv K) (h : ARockSolver.ByScan E s) :
      ARockSolver.ByScan E (s.setStateProperties env)
  | solveLocalStep (s t : ARockSolver K) (env : SolveEnv K) (summary : Summary K)
      (h : ARockSolver.ByScan E s) (ht : s.solveLocalStep env = some (t, summary))
      (hlists : ∀ res ∈ s.residuals, res.paramsList t.state = res.paramsList s.state) :
      ARockSolver.ByScan E t
  | updateDualStates (s t : ARockSolver K) (h : ARockSolver.ByScan E s)
      (ht : s.updateDualStates E = some t) : ARockSolver.ByScan E t

/-- What the lookups of the consensus steps need: every parameter of a residual
is registered, every key of the local store is registered and has a remote
dual, and every key of the remote store is registered. -/
def ARockSolver.LookupsReady {K : Type} (s : ARockSolver K) : Prop :=
  (∀ res ∈ s.residuals, ∀ p ∈ res.paramsList s.state,
    (StdMap.find s.all_estimating_params p.pointer).isSome) ∧
  (∀ key ∈ dualKeys s.dual_states_local,
    (StdMap.find s.all_estimating_params key.2).isSome ∧
      (s.remoteDual key.1 key.2).isSome) ∧
  (∀ key ∈ dualKeys s.dual_states_remote,
    (StdMap.find s.all_estimating_params key.2).isSome)

section SolvePasses

variable {K P : Type} [LinearOrderedField K] [FloorRing K]

/-- Number of passes of the `while` loop of `solve` (stepping, skipping or left
by an exception) among the at most `fuel` passes that the model runs. -/
def ARockSolver.loopPasses (E : Externals K P) (env : SolveEnv K) :
    Nat → Nat → ARockSolver K → Int → Int → SolverReport K → Nat
  | 0, _, _, _, _, _ => 0
  | fuel + 1, n, s, iter_cnt, total_cnt, report =>
    if iter_cnt < s.config.max_steps then
      match s.solvePass E env n iter_cnt total_cnt report with
      | PassResult.halt _ _ => 1
      | PassResult.threw _ _ => 1
      | PassResult.next s1 iter_cnt1 total_cnt1 report1 _ =>
        ARockSolver.loopPasses E env fuel (n + 1) s1 iter_cnt1 total_cnt1 report1 + 1
    else 0

/-- Number of passes of the loop in a run of `solve`. -/
def ARockSolver.solvePasses (E : Externals K P) (env : SolveEnv K) (fuel : Nat)
    (s : ARockSolver K) : Nat :=
  s.loopPasses E env fuel 0 0 0 env.report0

end SolvePasses

/-! ## Wire form of the consensus data -/

/-- Wire message `DistributedVinsData_t`, the LCM type that `ConsensusSync.cpp`
converts to and from: the fields the two conversions read and write (the time
stamp is left out, as in `DistributedVinsData`). `W` is the wire form of a
pose. The integer fields are unbounded integers on both sides. -/
structure DistributedVinsData_t (W : Type) where
  drone_id : Int
  solver_token : Int
  iteration_count : Int
  sld_win_len : Int
  camera_num : Int
  remote_drone_num : Int
  frame_ids : List FrameIdType := []
  frame_poses : List W := []
  cam_ids : List Int := []
  extrinsic : List W := []
  remote_drone_ids : List Int := []
  relative_coordinates : List W := []

/-- Conversions of the external pose library between a pose and its wire
form: `Swarm::Pose::toLCM()` and the constructor `Swarm::Pose(const Pose_t &)`. -/
structure PoseWire (P W : Type) where
  toLCM : P → W
  ofLCM : W → P

/-- Loop `for (int i = 0; i < n; i++) { as.emplace_back(f(xs[i]));
bs.emplace_back(g(ys[i])); }` run up to `n`; an index outside a vector fails. -/
def emplacePairs {α β γ δ : Type} (f : α → γ) (g : β → δ) (xs : List α) (ys : List β) :
    Nat → Option (List γ × List δ)
  | 0 => some ([], [])
  | n + 1 =>
    match emplacePairs f g xs ys n with
    | none => none
    | some (as, bs) =>
      match xs[n]?, ys[n]? with
      | some x, some y => some (as ++ [f x], bs ++ [g y])
      | _, _ => none

/-- Constructor `DistributedVinsData::DistributedVinsData(const DistributedVinsData_t &)`
(lines 5-21): the three loops run over `msg.frame_ids`, `msg.extrinsic` and
`msg.remote_drone_ids`. -/
def DistributedVinsData.construct {P W : Type} (C : PoseWire P W)
    (msg : DistributedVinsData_t W) : Option (DistributedVinsData P) :=
  match emplacePairs id C.ofLCM msg.frame_ids msg.frame_poses msg.frame_ids.length with
  | none => none
  | some (frame_ids, frame_poses) =>
    match emplacePairs C.ofLCM id msg.extrinsic msg.cam_ids msg.extrinsic.length with
    | none => none
    | some (extrinsic, cam_ids) =>
      match emplacePairs id C.ofLCM msg.remote_drone_ids msg.relative_coordinates
          msg.remote_drone_ids.length with
      | none => none
      | some (remote_drone_ids, relative_coordinates) =>
        some
          { drone_id := msg.drone_id
            solver_token := msg.solver_token
            iteration_count := msg.iteration_count
            frame_ids := frame_ids
            frame_poses := frame_poses
            cam_ids := cam_ids
            extrinsic := extrinsic
            remote_drone_ids := remote_drone_ids
            relative_coordinates := relative_coordinates }

/-- Method `DistributedVinsData::toLCM` (lines 23-45): the three loops run over
`frame_ids`, `extrinsic` and `relative_coordinates`; the counts are the sizes of
`extrinsic`, `frame_ids` and `remote_drone_ids`. -/
def DistributedVinsData.toLCM {P W : Type} (C : PoseWire P W) (d : DistributedVinsData P) :
    Option (DistributedVinsData_t W) :=
  match emplacePairs id C.toLCM d.frame_ids d.frame_poses d.frame_ids.length with
  | none => none
  | some (frame_ids, frame_poses) =>
    match emplacePairs C.toLCM id d.extrinsic d.cam_ids d.extrinsic.length with
    | none => none
    | some (extrinsic, cam_ids) =>
      match emplacePairs C.toLCM id d.relative_coordinates d.remote_drone_ids
          d.relative_coordinates.length with
      | none => none
      | some (relative_coordinates, remote_drone_ids) =>
        some
          { drone_id := d.drone_id
            frame_ids := frame_ids
            frame_poses := frame_poses
            extrinsic := extrinsic
            cam_ids := cam_ids
            relative_coordinates := relative_coordinates
            remote_drone_ids := remote_drone_ids
            camera_num := d.extrinsic.length
            sld_win_len := d.frame_ids.length
            remote_drone_num := d.remote_drone_ids.length
            solver_token := d.solver_token
            iteration_count := d.iteration_count }

namespace Sample

/-- Stand-in for the wire form of a pose: the list of its scalars. -/
def poseWire : PoseWire (List ℚ) (List ℚ) where
  toLCM := fun pose => pose
  ofLCM := fun pose => pose

/-- Message of drone 2 with two frames, one camera and one remote drone. -/
def messageFull : DistributedVinsData (List ℚ) where
  drone_id := 2
  solver_token := 7
  iteration_count := 3
  frame_ids := [42, 43]
  frame_poses := [[9, 9, 9, 0, 0, 0, 1], [8, 8, 8, 0, 0, 0, 1]]
  cam_ids := [20]
  extrinsic := [[0, 0, 0, 0, 0, 0, 1]]
  remote_drone_ids := [1]
  relative_coordinates := [[1, 0, 0, 0, 0, 0, 1]]

end Sample

/-! ## Properties of the parameter blocks -/

/-- Iteration order of a `std::set<int>`: its elements in ascending order. -/
def StdSet.toList (s : Finset Int) : List Int :=
  Quotient.liftOn s.val (fun l => l.insertionSort (fun a b => a ≤ b)) (fun a b h =>
    List.eq_of_perm_of_sorted
      (((List.perm_insertionSort _ a).trans h).trans (List.perm_insertionSort _ b).symm)
      (List.sorted_insertionSort _ a) (List.sorted_insertionSort _ b))

/-- Methods of `D2EstimatorState` that `d2estimator.cpp` calls and
`d2vinsstate.cpp` does not define (they are declared in d2vinsstate.hpp,
outside the sources), and the landmark manager behind `getLandmarkState`:
parameters of the embedding. `size` is the overload `size(drone_id)`,
`getFrame` is `getFrame(drone_id, index)`, `firstFrame` is
`firstFrame(drone_id)`; a frame that does not exist is `none`. -/
structure StateMethods where
  size : D2EstimatorState → Int → Nat
  getFrame : D2EstimatorState → Int → Nat → Option VINSFrame
  firstFrame : D2EstimatorState → Int → Option VINSFrame
  getCameraBelonging : D2EstimatorState → Int → Int
  marginalizeSelf : D2EstimatorState → Bool
  getLandmarkState : D2EstimatorState → Int → StatePtr

/-- Method `D2EstimatorState::getPoseState`: `_frame_pose_state.at(frame_id)`. -/
def D2EstimatorState.getPoseState (state : D2EstimatorState) (frame_id : FrameIdType) :
    Option StatePtr :=
  StdMap.find state._frame_pose_state frame_id

/-- Method `D2EstimatorState::getExtrinsicState`: `_camera_extrinsic_state.at(cam_id)`. -/
def D2EstimatorState.getExtrinsicState (state : D2EstimatorState) (cam_id : Int) :
    Option StatePtr :=
  StdMap.find state._camera_extrinsic_state cam_id

/-- Method `D2EstimatorState::getTdState`: `&td`, whatever its argument. -/
def D2EstimatorState.getTdState (state : D2EstimatorState) (_camera_index : Int) : StatePtr :=
  state.td

/-- Method `D2EstimatorState::getPrior`. -/
def D2EstimatorState.getPrior (state : D2EstimatorState) : Option PriorFactor :=
  state.prior_factor

/-- Method `D2EstimatorState::getAvailableCameraIds`: the keys of
`_camera_extrinsic_state`, in key order. -/
def D2EstimatorState.getAvailableCameraIds (state : D2EstimatorState) : List Int :=
  state._camera_extrinsic_state.map Prod.fst

/-- Calls that `setStateProperties` makes on the `ceres::Problem`. -/
inductive ProblemCall (K : Type) where
  | SetParameterization (pointer : StatePtr)
  | SetParameterBlockConstant (pointer : StatePtr)
  | SetParameterLowerBound (pointer : StatePtr) (index : Nat) (bound : K)
  deriving DecidableEq

/-- A call on a parameter block of `ceres::Problem`: the library aborts when
the block is not in the problem (`none`). -/
def callOn {K : Type} (HasParameterBlock : StatePtr → Bool) (pointer : StatePtr)
    (call : ProblemCall K) : Option (List (ProblemCall K)) :=
  if HasParameterBlock pointer then some [call] else none

/-- Sequence of statements that may fail: the calls of each, one after the
other, or the first failure. -/
def collectCalls {α β : Type} (f : α → Option (List β)) : List α → Option (List β)
  | [] => some []
  | x :: rest =>
    match f x with
    | none => none
    | some calls =>
      match collectCalls f rest with
      | none => none
      | some more => some (calls ++ more)

namespace D2Estimator

variable {K P : Type}

/-- Lines 310-320 of `setStateProperties`: the local parameterization of every
pose of every window that is in the problem. -/
def poseParameterizations (e : D2Estimator K P) (M : StateMethods)
    (HasParameterBlock : StatePtr → Bool) : Option (List (ProblemCall K)) :=
  collectCalls (fun drone_id =>
    if M.size e.state drone_id > 0 then
      collectCalls (fun i =>
        match M.getFrame e.state drone_id i with
        | none => none
        | some frame_a =>
          match e.state.getPoseState frame_a.frame_id with
          | none => none
          | some pointer =>
            if HasParameterBlock pointer then
              some [ProblemCall.SetParameterization pointer]
            else some []) (List.range (M.size e.state drone_id))
    else some []) (StdSet.toList e.state.availableDrones)

/-- Body of the loop of lines 322-333 for one camera. -/
def extrinsicProperties (e : D2Estimator K P) (M : StateMethods)
    (HasParameterBlock : StatePtr → Bool) (cam_id : Int) : Option (List (ProblemCall K)) :=
  match e.state.getExtrinsicState cam_id with
  | none => none
  | some pointer =>
    if ¬ HasParameterBlock pointer then some []
    else
      let drone_id := M.getCameraBelonging e.state cam_id
      if ¬ e.params.estimate_extrinsic ∨
          M.size e.state drone_id < toSizeT (e.params.max_sld_win_size - 1) then
        some [ProblemCall.SetParameterBlockConstant pointer,
          ProblemCall.SetParameterization pointer]
      else some [ProblemCall.SetParameterization pointer]

/-- Lines 335-342: the lower bound of every used landmark that is in the problem. -/
def landmarkBounds (e : D2Estimator K P) (M : StateMethods) (min_inv_dep : K)
    (HasParameterBlock : StatePtr → Bool) : List (ProblemCall K) :=
  ((StdSet.toList e.used_landmarks).filter
    (fun lm_id => HasParameterBlock (M.getLandmarkState e.state lm_id))).map
    (fun lm_id => ProblemCall.SetParameterLowerBound (M.getLandmarkState e.state lm_id) 0
      min_inv_dep)

/-- Lines 344-346: the time offset is set constant when it is not estimated or
the own window is short; `state.size()` is evaluated only when `estimate_td`
is on. -/
def tdProperties (e : D2Estimator K P) (HasParameterBlock : StatePtr → Bool) :
    Option (List (ProblemCall K)) :=
  if ¬ e.params.estimate_td then
    callOn HasParameterBlock (e.state.getTdState e.self_id)
      (ProblemCall.SetParameterBlockConstant (e.state.getTdState e.self_id))
  else
    match e.state.size with
    | none => none
    | some n =>
      if n < toSizeT e.params.max_sld_win_size then
        callOn HasParameterBlock (e.state.getTdState e.self_id)
          (ProblemCall.SetParameterBlockConstant (e.state.getTdState e.self_id))
      else some []

/-- Lines 348-356: the first pose of the own window is set constant. -/
def firstPoseProperties (e : D2Estimator K P) (M : StateMethods)
    (HasParameterBlock : StatePtr → Bool) : Option (List (ProblemCall K)) :=
  if e.state.getPrior.isNone ∨ e.params.always_fixed_first_pose ∨
      ¬ M.marginalizeSelf e.state then
    match M.firstFrame e.state e.self_id with
    | none => none
    | some frame =>
      match e.state.getPoseState frame.frame_id with
      | none => none
      | some pointer =>
        callOn HasParameterBlock pointer (ProblemCall.SetParameterBlockConstant pointer)
  else some []

/-- Method `D2Estimator::setStateProperties` (lines 306-357): the calls it makes
on the problem, in order; `none` when a lookup or a call fails.
`HasParameterBlock` is the query of the problem, `min_inv_dep` the option
`params->min_inv_dep`. -/
def setStateProperties (e : D2Estimator K P) (M : StateMethods) (min_inv_dep : K)
    (HasParameterBlock : StatePtr → Bool) : Option (List (ProblemCall K)) :=
  match e.poseParameterizations M HasParameterBlock with
  | none => none
  | some poses =>
    match collectCalls (e.extrinsicProperties M HasParameterBlock)
        e.state.getAvailableCameraIds with
    | none => none
    | some extrinsics =>
      match e.tdProperties HasParameterBlock with
      | none => none
      | some td =>
        match e.firstPoseProperties M HasParameterBlock with
        | none => none
        | some first =>
          some (poses ++ extrinsics ++ e.landmarkBounds M min_inv_dep HasParameterBlock
            ++ td ++ first)

end D2Estimator

namespace Sample

/-- Stand-in for the methods that the sources do not define: a window is the
entry of `sld_wins`, every camera belongs to drone 1, the own frames were not
marginalized, and landmark `k` is stored at address `1000 + k`. -/
def stateMethods : StateMethods where
  size := fun state drone_id => ((StdMap.find state.sld_wins drone_id).getD []).length
  getFrame := fun state drone_id i => ((StdMap.find state.sld_wins drone_id).getD [])[i]?
  firstFrame := fun state drone_id => ((StdMap.find state.sld_wins drone_id).getD [])[0]?
  getCameraBelonging := fun _ _ => 1
  marginalizeSelf := fun _ => false
  getLandmarkState := fun _ lm_id => 1000 + lm_id.toNat

/-- Estimator of drone 1 alone, with a window of two keyframes (poses at 100 and
120) out of `max_sld_win_size = 3`, camera 20 with its extrinsic at 500, the
time offset at 600, a prior, and `estimate_td`, `estimate_extrinsic` on. -/
def estimatorProps : D2Estimator ℚ (List ℚ) :=
  { estimatorMain with
    params :=
      { min_solve_frames := 2, consensus_sync_to_start := true, max_sld_win_size := 3,
        estimate_td := true, estimate_extrinsic := true, always_fixed_first_pose := false }
    state :=
      { self_id := 1
        all_drones := {1}
        sld_wins := [(1, [{ frame_id := 10, drone_id := 1, is_keyframe := true },
          { frame_id := 12, drone_id := 1, is_keyframe := true }])]
        _frame_pose_state := [(10, 100), (12, 120)]
        _camera_extrinsic_state := [(20, 500)]
        td := 600
        prior_factor := some {} }
    used_landmarks := {5} }

end Sample

/-! ## Clearing the sliding windows -/

/-- Removal `m.erase(k)` of a `std::map`. -/
def StdMap.erase {κ ν : Type} [DecidableEq κ] (m : StdMap κ ν) (k : κ) : StdMap κ ν :=
  m.filter (fun kv => kv.1 ≠ k)

/-- What `clearFrame` calls and the sources do not define: the marginalizer
(`marginalizer->marginalize(clear_key_frames)`, which returns a prior or the
null pointer) and `PriorFactor::removeFrame`. The landmark manager, which
yields the returned landmarks, is left out. -/
structure ClearEnv where
  marginalize : D2EstimatorState → Finset FrameIdType → Option PriorFactor
  removeFrame : PriorFactor → FrameIdType → PriorFactor

namespace D2EstimatorState

/-- Method `D2EstimatorState::removeFrameById` on the members of the state: the
frame leaves the database and its pose and speed-bias blocks are deleted;
`none` when one of the two `at` lookups throws. -/
def removeFrameById (state : D2EstimatorState) (frame_id : FrameIdType) :
    Option D2EstimatorState :=
  if StdMap.contains state._frame_pose_state frame_id ∧
      StdMap.contains state._frame_spd_Bias_state frame_id then
    some { state with
      frame_db := StdMap.erase state.frame_db frame_id
      _frame_pose_state := StdMap.erase state._frame_pose_state frame_id
      _frame_spd_Bias_state := StdMap.erase state._frame_spd_Bias_state frame_id }
  else none

/-- Inner loop of lines 205-213: the frames of a remote window that its latest
list no longer names are put in `clear_frames`, the keyframes among them also
in `clear_key_frames`; `none` when `frame_db.at` throws. -/
def markMissing (state : D2EstimatorState) (latest_sld_win : List FrameIdType) :
    List VINSFrame → Finset FrameIdType × Finset FrameIdType →
      Option (Finset FrameIdType × Finset FrameIdType)
  | [], sets => some sets
  | it :: rest, (clear_frames, clear_key_frames) =>
    if it.frame_id ∈ latest_sld_win then
      markMissing state latest_sld_win rest (clear_frames, clear_key_frames)
    else
      match StdMap.find state.frame_db it.frame_id with
      | none => none
      | some frame =>
        markMissing state latest_sld_win rest
          (insert it.frame_id clear_frames,
            if frame.is_keyframe then insert it.frame_id clear_key_frames
            else clear_key_frames)

/-- Loop of lines 200-214 over `latest_remote_sld_wins`; `none` when
`sld_wins.at(drone_id)` or `frame_db.at` throws. -/
def markRemote (state : D2EstimatorState) :
    List (Int × List FrameIdType) → Finset FrameIdType × Finset FrameIdType →
      Option (Finset FrameIdType × Finset FrameIdType)
  | [], sets => some sets
  | (drone_id, latest_sld_win) :: rest, sets =>
    match StdMap.find state.sld_wins drone_id with
    | none => none
    | some _sld_win =>
      match markMissing state latest_sld_win _sld_win sets with
      | none => none
      | some sets1 => markRemote state rest sets1

/-- Lines 216-225: the own frame to remove. The last frame goes when it is no
keyframe, else the oldest one when the window is full; `none` when the window
is empty although the size test passed. -/
def markSelf (min_solve_frames max_sld_win_size : Int) (self_sld_win : List VINSFrame)
    (sets : Finset FrameIdType × Finset FrameIdType) :
    Option (Finset FrameIdType × Finset FrameIdType) :=
  if self_sld_win.length ≥ toSizeT min_solve_frames then
    match self_sld_win.getLast?, self_sld_win.head? with
    | some last, some first =>
      if ¬ last.is_keyframe then some (insert last.frame_id sets.1, sets.2)
      else if self_sld_win.length ≥ toSizeT max_sld_win_size then
        some (insert first.frame_id sets.1, insert first.frame_id sets.2)
      else some sets
    | _, _ => none
  else some sets

/-- Inner loop of lines 251-269 over one window: every frame named in
`clear_frames` is removed from the state and from the window. -/
def eraseFrames (clear_frames : Finset FrameIdType) :
    List VINSFrame → D2EstimatorState → Option (List VINSFrame × D2EstimatorState)
  | [], state => some ([], state)
  | it :: rest, state =>
    if it.frame_id ∈ clear_frames then
      match state.removeFrameById it.frame_id with
      | none => none
      | some state1 => eraseFrames clear_frames rest state1
    else
      match eraseFrames clear_frames rest state with
      | none => none
      | some (kept, state1) => some (it :: kept, state1)

/-- Loop of lines 249-270 over all windows. -/
def eraseWindows (clear_frames : Finset FrameIdType) :
    StdMap Int (List VINSFrame) → D2EstimatorState →
      Option (StdMap Int (List VINSFrame) × D2EstimatorState)
  | [], state => some ([], state)
  | (drone_id, _sld_win) :: rest, state =>
    match eraseFrames clear_frames _sld_win state with
    | none => none
    | some (kept, state1) =>
      match eraseWindows clear_frames rest state1 with
      | none => none
      | some (windows, state2) => some ((drone_id, kept) :: windows, state2)

/-- Method `D2EstimatorState::clearFrame` (lines 194-276) on the members of the
state; the list of landmarks it returns, `outlierRejection` and
`updatePoseIndices` concern the landmark manager only and are left out. -/
def clearFrame (state : D2EstimatorState) (params : D2VINSConfig) (env : ClearEnv) :
    Option D2EstimatorState :=
  match markRemote state state.latest_remote_sld_wins (∅, ∅) with
  | none => none
  | some sets0 =>
    let state1 : D2EstimatorState :=
      if StdMap.contains state.sld_wins state.self_id then state
      else { state with sld_wins := StdMap.insert state.sld_wins state.self_id [] }
    match markSelf params.min_solve_frames params.max_sld_win_size
        (StdMap.getD state1.sld_wins state1.self_id []) sets0 with
    | none => none
    | some (clear_frames, clear_key_frames) =>
      let prior1 : Option PriorFactor :=
        if params.enable_marginalization ∧ clear_key_frames.card > 0 then
          env.marginalize state1 (clear_key_frames ∪ clear_frames)
        else state1.prior_factor
      let prior2 : Option PriorFactor :=
        prior1.map (fun prior => prior.keep_params.foldl (fun acc p =>
          if p.id ∈ clear_frames then env.removeFrame acc p.id else acc) prior)
      let state2 : D2EstimatorState := { state1 with prior_factor := prior2 }
      if clear_frames.card > 0 then
        match eraseWindows clear_frames state2.sld_wins state2 with
        | none => none
        | some (windows, state3) => some { state3 with sld_wins := windows }
      else some state2

end D2EstimatorState

namespace Sample

/-- Stand-in for the marginalizer: it returns no prior, and removing a frame
leaves a prior as it is. -/
def clearEnv : ClearEnv where
  marginalize := fun _ _ => none
  removeFrame := fun prior _ => prior

/-- State of drone 1 whose window holds the keyframes 10 and 12 and the frame 13,
which is no keyframe; every frame has its pose and speed-bias block. -/
def stateClear : D2EstimatorState where
  self_id := 1
  all_drones := {1}
  sld_wins := [(1, [{ frame_id := 10, drone_id := 1, is_keyframe := true },
    { frame_id := 12, drone_id := 1, is_keyframe := true },
    { frame_id := 13, drone_id := 1, is_keyframe := false }])]
  frame_db := [(10, { frame_id := 10, drone_id := 1, is_keyframe := true }),
    (12, { frame_id := 12, drone_id := 1, is_keyframe := true }),
    (13, { frame_id := 13, drone_id := 1, is_keyframe := false })]
  _frame_pose_state := [(10, 100), (12, 120), (13, 130)]
  _frame_spd_Bias_state := [(10, 101), (12, 121), (13, 131)]

/-- Options with `min_solve_frames = 2` and `max_sld_win_size = 3`. -/
def paramsClear : D2VINSConfig :=
  { min_solve_frames := 2, consensus_sync_to_start := true, max_sld_win_size := 3 }

/-- Options with a negative `min_solve_frames` and `max_sld_win_size = 2`. -/
def paramsNegative : D2VINSConfig :=
  { min_solve_frames := -1, consensus_sync_to_start := true, max_sld_win_size := 2 }

end Sample

/-! ## Landmark factors -/

/-- Observation `LandmarkPerFrame` (d2landmarks.h is not among the sources): the
fields that decide which residual `setupLandmarkFactors` builds. -/
structure LandmarkPerFrame (K : Type) where
  frame_id : FrameIdType
  camera_id : Int
  depth_mea : Bool := false
  depth : K

/-- Landmark `LandmarkPerId`: its id, the drone that observed it first, the
agent that solves it (`-1` for an internal landmark) and its track. -/
structure LandmarkPerId (K : Type) where
  landmark_id : Int
  drone_id : Int
  solver_id : Int
  track : List (LandmarkPerFrame K) := []

/-- Options of `D2VINSConfig` on the fusion of depth measurements. -/
structure DepthOptions (K : Type) where
  fuse_dep : Bool
  max_depth_to_fuse : K
  min_depth_to_fuse : K

/-- Residuals that `setupLandmarkFactors` hands to `solver->addResidual`, by the
`create` call that builds them and its arguments (the cost functions are built
from the measurements and are left out). -/
inductive LandmarkResidual where
  | DepthResInfo (frame_id : FrameIdType) (landmark_id : Int)
  | LandmarkTwoFrameOneCamResInfo (frame_ida frame_idb : FrameIdType) (landmark_id : Int)
      (camera_id : Int) (enable_depth_mea : Bool)
  | LandmarkOneFrameTwoCamResInfo (frame_id : FrameIdType) (landmark_id : Int)
      (camera_id_a camera_id_b : Int)
  | LandmarkTwoFrameTwoCamResInfo (frame_ida frame_idb : FrameIdType) (landmark_id : Int)
      (camera_id_a camera_id_b : Int)
  deriving DecidableEq, Repr

/-- What `setupLandmarkFactors` writes: the residuals added to the solver (and to
the marginalizer), `used_landmarks`, `keyframe_measurements`, the landmarks
flagged `SOLVED` and those whose lower bound it sets. -/
structure LandmarkSetup where
  residuals : List LandmarkResidual := []
  used_landmarks : Finset Int := ∅
  keyframe_measurements : StdMap FrameIdType Int := []
  solved : List Int := []
  lower_bounds : List Int := []

/-- Statement `keyframe_measurements[frame_id] ++`. -/
def LandmarkSetup.count (acc : LandmarkSetup) (frame_id : FrameIdType) : LandmarkSetup :=
  { acc with
    keyframe_measurements :=
      StdMap.insert acc.keyframe_measurements frame_id
        (StdMap.getD acc.keyframe_measurements frame_id 0 + 1) }

/-- Statements `solver->addResidual(info); marginalizer->addResidualInfo(info);
used_landmarks.insert(lm_id)`. -/
def LandmarkSetup.add (acc : LandmarkSetup) (info : LandmarkResidual) (lm_id : Int) :
    LandmarkSetup :=
  { acc with residuals := acc.residuals ++ [info], used_landmarks := insert lm_id acc.used_landmarks }

section LandmarkFactors

variable {K : Type} [LinearOrderedField K]

/-- Test `depth_mea && params->fuse_dep && depth < max_depth_to_fuse &&
depth > min_depth_to_fuse` of an observation. -/
def DepthOptions.fusable (D : DepthOptions K) (obs : LandmarkPerFrame K) : Bool :=
  obs.depth_mea && D.fuse_dep && decide (obs.depth < D.max_depth_to_fuse) &&
    decide (obs.depth > D.min_depth_to_fuse)

/-- Test of lines 598-604 and 627-633: the landmark is internal to another
drone, or solved by another agent. -/
def LandmarkPerId.skipped (lm : LandmarkPerId K) (self_id : Int) : Bool :=
  (lm.solver_id == -1 && lm.drone_id != self_id) ||
    (decide (lm.solver_id > 0) && lm.solver_id != self_id)

/-- Body of the loop of lines 650-700 for the observation `lm_per_frame`. -/
def trackFactor (D : DepthOptions K) (mode : EstimationMode) (lm_id : Int)
    (firstObs lm_per_frame : LandmarkPerFrame K) (acc : LandmarkSetup) : LandmarkSetup :=
  if lm_per_frame.camera_id = firstObs.camera_id ∧
      firstObs.frame_id = lm_per_frame.frame_id then acc
  else
    let acc1 : LandmarkSetup :=
      if lm_per_frame.camera_id = firstObs.camera_id then
        (acc.count lm_per_frame.frame_id).add
          (LandmarkResidual.LandmarkTwoFrameOneCamResInfo firstObs.frame_id
            lm_per_frame.frame_id lm_id firstObs.camera_id (D.fusable lm_per_frame)) lm_id
      else if lm_per_frame.frame_id = firstObs.frame_id then
        acc.add (LandmarkResidual.LandmarkOneFrameTwoCamResInfo firstObs.frame_id lm_id
          firstObs.camera_id lm_per_frame.camera_id) lm_id
      else
        acc.add (LandmarkResidual.LandmarkTwoFrameTwoCamResInfo firstObs.frame_id
          lm_per_frame.frame_id lm_id firstObs.camera_id lm_per_frame.camera_id) lm_id
    let acc2 := acc1.count lm_per_frame.frame_id
    if mode ≠ EstimationMode.DISTRIBUTED_CAMERA_CONSENUS then
      { acc2 with lower_bounds := acc2.lower_bounds ++ [lm_id] }
    else acc2

/-- Body of the loop of lines 624-701 for the landmark `lm`; `none` when its
track is empty (`lm.track[0]`). -/
def landmarkFactors (D : DepthOptions K) (mode : EstimationMode) (self_id : Int)
    (lm : LandmarkPerId K) (acc : LandmarkSetup) : Option LandmarkSetup :=
  if mode = EstimationMode.DISTRIBUTED_CAMERA_CONSENUS ∧ lm.skipped self_id then some acc
  else
    match lm.track with
    | [] => none
    | firstObs :: rest =>
      let acc1 := acc.count firstObs.frame_id
      let acc2 : LandmarkSetup := { acc1 with solved := acc1.solved ++ [lm.landmark_id] }
      let acc3 : LandmarkSetup :=
        if D.fusable firstObs then
          acc2.add (LandmarkResidual.DepthResInfo firstObs.frame_id lm.landmark_id)
            lm.landmark_id
        else acc2
      some (rest.foldl (fun a lm_per_frame =>
        trackFactor D mode lm.landmark_id firstObs lm_per_frame a) acc3)

/-- Loop of lines 624-701 over the landmarks. -/
def landmarkLoop (D : DepthOptions K) (mode : EstimationMode) (self_id : Int) :
    List (LandmarkPerId K) → LandmarkSetup → Option LandmarkSetup
  | [], acc => some acc
  | lm :: rest, acc =>
    match landmarkFactors D mode self_id lm acc with
    | none => none
    | some acc1 => landmarkLoop D mode self_id rest acc1

/-- Method `D2Estimator::setupLandmarkFactors` on the landmarks `lms` that
`state.availableLandmarkMeasurements()` returns: what it writes, starting from
cleared `used_landmarks` and `keyframe_measurements`. -/
def D2Estimator.setupLandmarkFactors {P : Type} (e : D2Estimator K P) (D : DepthOptions K)
    (lms : List (LandmarkPerId K)) : Option LandmarkSetup :=
  landmarkLoop D e.params.estimation_mode e.self_id lms {}

/-- Method `D2EstimatorState::getFramebyId` of the estimator state:
`frame_db.at(frame_id)`. -/
def D2EstimatorState.getFramebyId (state : D2EstimatorState) (frame_id : FrameIdType) :
    Option VINSFrame :=
  StdMap.find state.frame_db frame_id

/-- Inner loop of lines 605-609: whether a frame of the track belongs to another
drone; `none` when `getFramebyId` throws first. -/
def trackLeavesSelf (state : D2EstimatorState) (self_id : Int) :
    List (LandmarkPerFrame K) → Option Bool
  | [] => some false
  | obs :: rest =>
    match state.getFramebyId obs.frame_id with
    | none => none
    | some frame =>
      if frame.drone_id ≠ self_id then some true
      else trackLeavesSelf state self_id rest

/-- Loop of lines 597-610 of `hasCommonLandmarkMeasurments`. -/
def commonLoop (state : D2EstimatorState) (self_id : Int) :
    List (LandmarkPerId K) → Option Bool
  | [] => some false
  | lm :: rest =>
    if lm.skipped self_id then commonLoop state self_id rest
    else
      match trackLeavesSelf state self_id lm.track with
      | none => none
      | some true => some true
      | some false => commonLoop state self_id rest

/-- Method `D2Estimator::hasCommonLandmarkMeasurments` on the landmarks `lms`
that `state.availableLandmarkMeasurements()` returns. -/
def D2Estimator.hasCommonLandmarkMeasurments {P : Type} (e : D2Estimator K P)
    (lms : List (LandmarkPerId K)) : Option Bool :=
  commonLoop e.state e.self_id lms

end LandmarkFactors

namespace Sample

/-- Depth options with fusion off. -/
def depthOptions : DepthOptions ℚ where
  fuse_dep := false
  max_depth_to_fuse := 10
  min_depth_to_fuse := 1 / 10

/-- Estimator of drone 1 in distributed mode whose database holds frame 10 of
drone 1 and frame 42 of drone 2. -/
def estimatorLandmarks : D2Estimator ℚ (List ℚ) :=
  { estimatorMain with
    state :=
      { self_id := 1
        all_drones := {1, 2}
        frame_db := [(10, { frame_id := 10, drone_id := 1 }),
          (42, { frame_id := 42, drone_id := 2 })] } }

/-- Landmark 5, solved by agent 0, seen by camera 20 in frame 10 and by camera 20
in frame 42. -/
def landmarkOfZero : LandmarkPerId ℚ where
  landmark_id := 5
  drone_id := 1
  solver_id := 0
  track := [{ frame_id := 10, camera_id := 20, depth := 0 },
    { frame_id := 42, camera_id := 20, depth := 0 }]

/-- Landmark 6 with the same track, solved by agent 2. -/
def landmarkOfTwo : LandmarkPerId ℚ :=
  { landmarkOfZero with landmark_id := 6, solver_id := 2 }

/-- Landmark 7 with the same track, solved by drone 1 itself. -/
def landmarkOfSelf : LandmarkPerId ℚ :=
  { landmarkOfZero with landmark_id := 7, solver_id := 1 }

end Sample

namespace Sample

/-- Solver of drone 1 with no residual and no new data, `max_steps = 1` and
`max_wait_steps = 2147483646`: the sum of the two options is `INT_MAX`. -/
def solverWaitMax : ARockSolver ℚ :=
  { solver with config := { solver.config with max_steps := 1, max_wait_steps := 2147483646 } }

end Sample

namespace Sample

end Sample

/-- The group of poses in which the spec writes the SE3 update: composition,
inverse, `Exp` and `Log` between the tangent space and the group, and the
average of two poses. -/
structure PoseGroup (K P : Type) where
  mul : P → P → P
  inv : P → P
  Exp : List K → P
  Log : P → List K
  avg : P → P → P

/-- Right-perturbation local-frame error `a ⊟ b` of the spec: the pose `d` that
perturbs `b` on the right into `a`, `b · d = a`, that is `b⁻¹ · a`. -/
def PoseGroup.boxMinus {K P : Type} (G : PoseGroup K P) (a b : P) : P :=
  G.mul (G.inv b) a

/-- SE3 update in the words of the spec: `z_avg = avg(z_r, z_l)`,
`e = Log(z_avg ⊟ x)`, `δ = η·e`, `z_l' = z_l · Exp(−δ)`. -/
def se3UpdateSpec {K P : Type} [LinearOrderedField K] (G : PoseGroup K P) (eta : K)
    (x z_l z_r : P) : P :=
  let z_avg := G.avg z_r z_l
  let e := G.Log (G.boxMinus z_avg x)
  let delta := e.map (fun c => eta * c)
  G.mul z_l (G.Exp (delta.map (fun c => -c)))

/-- What the operations of the pose library `Swarm::Pose` compute, in the
group of poses: `operator*` composes, `averagePoses` of two poses is their
average, `DeltaPose(a, b)` is the pose of `b` seen from `a`, `a⁻¹ · b`,
`tangentSpace` is `Log` and `fromTangentSpace` is `Exp`. The library is not
among the sources; this is the reading of its operations under which the
code is compared with the spec. -/
structure Externals.Implements {K P : Type} (E : Externals K P) (G : PoseGroup K P) :
    Prop where
  mul_eq : ∀ a b, E.mul a b = G.mul a b
  averagePoses_eq : ∀ a b, E.averagePoses [a, b] = G.avg a b
  DeltaPose_eq : ∀ a b, E.DeltaPose a b = G.mul (G.inv a) b
  tangentSpace_eq : ∀ a, E.tangentSpace a = G.Log a
  fromTangentSpace_eq : ∀ v, E.fromTangentSpace v = G.Exp v

namespace Sample

/-- The group of the stand-in pose library: poses are lists of scalars composed
coefficient by coefficient, the inverse negates, `Exp` and `Log` are the
identity and the average is the mean. -/
def poseGroup : PoseGroup ℚ (List ℚ) where
  mul := fun a b => List.zipWith (fun x y => x + y) a b
  inv := fun a => a.map (fun x => -x)
  Exp := fun v => v
  Log := fun v => v
  avg := fun a b => List.zipWith (fun x y => (x + y) / 2) a b

end Sample

/-! ## Reception of consensus data -/

section Reception

variable {K P : Type}

end Reception

/-! # Properties -/

/-! ## Lemmas on ordered maps -/

namespace StdMap

variable {κ ν μ : Type} [DecidableEq κ] [LT κ] [DecidableRel (fun a b : κ => a < b)]

theorem find_insert_self (m : StdMap κ ν) (k : κ) (v : ν) :
    find (insert m k v) k = some v := by
  induction m with
  | nil => simp [insert, find]
  | cons hd tl ih =>
    obtain ⟨k', v'⟩ := hd
    unfold insert
    by_cases h1 : k < k'
    · simp [h1, find]
    · by_cases h2 : k' = k
      · subst h2
        simp [h1, find]
      · simp [h1, h2, find, ih]

theorem find_insert_ne (m : StdMap κ ν) (k j : κ) (v : ν) (hne : j ≠ k) :
    find (insert m k v) j = find m j := by
  have hne' : ¬ k = j := fun h => hne h.symm
  induction m with
  | nil => simp [insert, find, hne']
  | cons hd tl ih =>
    obtain ⟨k', v'⟩ := hd
    unfold insert
    by_cases h1 : k < k'
    · simp [h1, find, hne']
    · by_cases h2 : k' = k
      · subst h2
        simp [h1, find, hne']
      · simp only [h1, h2, if_false, find, ih]

theorem contains_insert_self (m : StdMap κ ν) (k : κ) (v : ν) :
    contains (insert m k v) k = true := by
  simp [contains, find_insert_self]

omit [LT κ] [DecidableRel (fun a b : κ => a < b)] in
theorem find_mapValsM (f : κ → ν → Option μ) (m : StdMap κ ν) (r : StdMap κ μ)
    (h : mapValsM f m = some r) (k : κ) :
    find r k = (find m k).bind (f k) := by
  induction m generalizing r with
  | nil =>
    simp only [mapValsM, Option.some.injEq] at h
    subst h
    simp [find]
  | cons hd tl ih =>
    obtain ⟨k', v'⟩ := hd
    simp only [mapValsM] at h
    cases hf : f k' v' with
    | none => simp [hf] at h
    | some w =>
      cases ht : mapValsM f tl with
      | none => simp [hf, ht] at h
      | some r' =>
        simp only [hf, ht, Option.some.injEq] at h
        subst h
        by_cases hk : k' = k
        · subst hk
          simp [find, hf]
        · simp [find, hk, ih r' ht]

omit [DecidableEq κ] [LT κ] [DecidableRel (fun a b : κ => a < b)] in
theorem mapValsM_isSome (f : κ → ν → Option μ) (m : StdMap κ ν)
    (h : ∀ kv ∈ m, (f kv.1 kv.2).isSome) : (mapValsM f m).isSome := by
  induction m with
  | nil => simp [mapValsM]
  | cons hd tl ih =>
    obtain ⟨k', v'⟩ := hd
    have h1 := h (k', v') (List.mem_cons_self _ _)
    have h2 := ih (fun kv hkv => h kv (List.mem_cons_of_mem _ hkv))
    obtain ⟨w, hw⟩ := Option.isSome_iff_exists.mp h1
    obtain ⟨r, hr⟩ := Option.isSome_iff_exists.mp h2
    simp only at hw
    simp [mapValsM, hw, hr]

end StdMap

/-! ## Registry -/

section Registry

variable {K : Type}

/-- C1. `addParam` is idempotent: a second call with the same record changes
nothing, and a call with any record whose pointer is already registered
returns the solver as it was, so the stored record (type, size, eff_size, id)
stays, whatever type or size the new record carries. -/
theorem addParam_idempotent (s : ARockSolver K) (p : ParamInfo) :
    (s.addParam p).addParam p = s.addParam p ∧
    ∀ (q stored : ParamInfo), q.pointer = p.pointer →
      StdMap.find s.all_estimating_params p.pointer = some stored →
      s.addParam q = s ∧
      StdMap.find (s.addParam q).all_estimating_params p.pointer = some stored := by
  constructor
  · by_cases h : StdMap.contains s.all_estimating_params p.pointer = true
    · simp [ARockSolver.addParam, h]
    · simp [ARockSolver.addParam, h, StdMap.contains_insert_self]
  · intro q stored hq hfind
    have hc : StdMap.contains s.all_estimating_params q.pointer = true := by
      simp [StdMap.contains, hq, hfind]
    have hs : s.addParam q = s := by simp [ARockSolver.addParam, hc]
    exact ⟨hs, by rw [hs]; exact hfind⟩

/-- Witness of C1: the remote pose is registered as a 7-scalar `POSE`; registering
the same address as a 4-scalar `POSE_4D` leaves that record in place. -/
theorem addParam_idempotent_witness :
    (Sample.solver.addParam Sample.poseRemote).addParam Sample.poseRemoteAs4D
        = Sample.solver.addParam Sample.poseRemote ∧
      StdMap.find ((Sample.solver.addParam Sample.poseRemote).addParam
        Sample.poseRemoteAs4D).all_estimating_params 200 = some Sample.poseRemote :=
  (addParam_idempotent (Sample.solver.addParam Sample.poseRemote) Sample.poseRemote).2
    Sample.poseRemoteAs4D Sample.poseRemote rfl (by decide)

/-- C2 as stated fails: for the landmark, on drone 1, `solverId` answers -1,
which differs from `self_id`, while `isRemoteParam` answers false. -/
theorem isRemoteParam_iff_owner_counterexample :
    Sample.solver.isRemoteParam Sample.landmark = some false ∧
    Sample.solver.solverId Sample.landmark = some (-1) ∧
    (-1 : Int) ≠ Sample.solver.self_id := by
  decide

/-- C2 amended. For a pose (`POSE` or `POSE_4D`) whose frame is in the database
both methods answer, and `isRemoteParam` is true exactly when `solverId` differs
from `self_id`; for every other kind `isRemoteParam` is false and `solverId`
is -1, whatever `self_id` is. -/
theorem isRemoteParam_iff_owner_of_pose (s : ARockSolver K) (p : ParamInfo) :
    (p.type = ParamsType.POSE ∨ p.type = ParamsType.POSE_4D →
      ∀ frame, s.state.getFramebyId p.id = some frame →
        ∃ b d, s.isRemoteParam p = some b ∧ s.solverId p = some d ∧ d = frame.drone_id ∧
          (b = true ↔ d ≠ s.self_id)) ∧
    (¬ (p.type = ParamsType.POSE ∨ p.type = ParamsType.POSE_4D) →
      s.isRemoteParam p = some false ∧ s.solverId p = some (-1)) := by
  constructor
  · intro hp frame hf
    by_cases hd : frame.drone_id = s.self_id
    · exact ⟨false, frame.drone_id, by simp [ARockSolver.isRemoteParam, hp, hf, hd],
        by simp [ARockSolver.solverId, hp, hf], rfl, by simp [hd]⟩
    · exact ⟨true, frame.drone_id, by simp [ARockSolver.isRemoteParam, hp, hf, hd],
        by simp [ARockSolver.solverId, hp, hf], rfl, by simp [hd]⟩
  · intro hp
    exact ⟨by simp [ARockSolver.isRemoteParam, hp], by simp [ARockSolver.solverId, hp]⟩

/-- Witness of C2 amended: the pose of frame 42 is remote for drone 1 and its
owner is drone 2. -/
theorem isRemoteParam_iff_owner_of_pose_witness :
    ∃ b d, Sample.solver.isRemoteParam Sample.poseRemote = some b ∧
      Sample.solver.solverId Sample.poseRemote = some d ∧ d = 2 ∧
      (b = true ↔ d ≠ Sample.solver.self_id) :=
  (isRemoteParam_iff_owner_of_pose Sample.solver Sample.poseRemote).1 (Or.inl rfl)
    { frame_id := 42, drone_id := 2 } (by decide)

end Registry

/-! ## Creation of dual states -/

section Scan

variable {K : Type}

theorem DualStates.look_insert_insert (store : DualStates K) (d d' : Int)
    (inner : StdMap StatePtr (List K)) (ptr ptr' : StatePtr) (v : List K) :
    DualStates.look (StdMap.insert store d (StdMap.insert inner ptr v)) d' ptr' =
      if d' = d then (if ptr' = ptr then some v else StdMap.find inner ptr')
      else DualStates.look store d' ptr' := by
  unfold DualStates.look
  by_cases hd : d' = d
  · subst hd
    rw [StdMap.find_insert_self]
    by_cases hp : ptr' = ptr
    · subst hp
      simp [StdMap.find_insert_self]
    · simp [hp, StdMap.find_insert_ne _ _ _ _ hp]
  · simp [hd, StdMap.find_insert_ne _ _ _ _ hd]

theorem ARockSolver.hasDualState_eq (s : ARockSolver K) (ptr : StatePtr) (d : Int) :
    s.hasDualState ptr d = (s.remoteDual d ptr).isSome := by
  unfold ARockSolver.hasDualState ARockSolver.remoteDual
  cases StdMap.find s.dual_states_remote d <;> simp [StdMap.contains]

theorem ARockSolver.createDualState_frame (s : ARockSolver K) (p : ParamInfo) (d : Int) :
    (s.createDualState p d).state = s.state ∧ (s.createDualState p d).self_id = s.self_id ∧
    (s.createDualState p d).residuals = s.residuals ∧
    (s.createDualState p d).all_estimating_params = s.all_estimating_params ∧
    (s.createDualState p d).config = s.config := by
  unfold ARockSolver.createDualState
  by_cases h : StdMap.contains s.dual_states_remote d = true <;> simp [h]

theorem ARockSolver.remoteDual_createDualState (s : ARockSolver K) (p : ParamInfo) (d d' : Int)
    (ptr' : StatePtr) :
    (s.createDualState p d).remoteDual d' ptr' =
      if d' = d ∧ ptr' = p.pointer then some (s.state.mapVector p.pointer p.size)
      else s.remoteDual d' ptr' := by
  unfold ARockSolver.createDualState ARockSolver.remoteDual
  have hl := @DualStates.look_insert_insert K
  unfold DualStates.look at hl
  by_cases h : StdMap.contains s.dual_states_remote d = true
  · simp only [h, if_true]
    rw [hl]
    by_cases hd : d' = d
    · subst hd
      by_cases hp : ptr' = p.pointer
      · simp [hp]
      · simp only [hp, and_false, if_false, if_true]
        unfold StdMap.contains at h
        obtain ⟨m, hm⟩ := Option.isSome_iff_exists.mp h
        simp [StdMap.getD, hm]
    · simp [hd]
  · simp only [h, if_false]
    rw [hl]
    by_cases hd : d' = d
    · subst hd
      have hnone : StdMap.find s.dual_states_remote d' = none := by
        unfold StdMap.contains at h
        simpa using h
      by_cases hp : ptr' = p.pointer
      · simp [hp]
      · simp [hp, StdMap.getD, StdMap.find_insert_self, hnone, StdMap.find]
    · simp [hd, StdMap.find_insert_ne _ _ _ _ hd]

theorem ARockSolver.localDual_createDualState (s : ARockSolver K) (p : ParamInfo) (d d' : Int)
    (ptr' : StatePtr) :
    (s.createDualState p d).localDual d' ptr' =
      if d' = d ∧ ptr' = p.pointer then some (s.state.mapVector p.pointer p.size)
      else if d' = d ∧ StdMap.contains s.dual_states_remote d = false then none
      else s.localDual d' ptr' := by
  unfold ARockSolver.createDualState ARockSolver.localDual
  have hl := @DualStates.look_insert_insert K
  unfold DualStates.look at hl
  by_cases h : StdMap.contains s.dual_states_remote d = true
  · simp only [h, if_true]
    rw [hl]
    by_cases hd : d' = d
    · subst hd
      by_cases hp : ptr' = p.pointer
      · simp [hp]
      · simp only [hp, and_false, if_false, if_true]
        cases hm : StdMap.find s.dual_states_local d' with
        | none => simp [StdMap.getD, hm, StdMap.find]
        | some m => simp [StdMap.getD, hm]
    · simp [hd]
  · simp only [h, if_false]
    rw [hl]
    by_cases hd : d' = d
    · subst hd
      by_cases hp : ptr' = p.pointer
      · simp [hp]
      · simp [hp, StdMap.getD, StdMap.find_insert_self, StdMap.find, h]
    · simp [hd, StdMap.find_insert_ne _ _ _ _ hd]

end Scan

section ScanLoop

variable {K : Type}

theorem ARockSolver.solverId_of_isRemoteParam (s : ARockSolver K) (p : ParamInfo)
    (h : s.isRemoteParam p = some true) :
    ∃ d, s.solverId p = some d ∧ d ≠ s.self_id := by
  unfold ARockSolver.isRemoteParam at h
  unfold ARockSolver.solverId
  by_cases hp : p.type = ParamsType.POSE ∨ p.type = ParamsType.POSE_4D
  · simp only [hp, if_true] at h ⊢
    cases hf : s.state.getFramebyId p.id with
    | none => simp [hf] at h
    | some frame =>
      by_cases hd : frame.drone_id = s.self_id
      · simp [hf, hd] at h
      · exact ⟨frame.drone_id, rfl, hd⟩
  · simp [hp] at h

theorem ARockSolver.isRemoteParam_congr (s t : ARockSolver K) (p : ParamInfo)
    (hstate : t.state = s.state) (hself : t.self_id = s.self_id) :
    t.isRemoteParam p = s.isRemoteParam p ∧ t.solverId p = s.solverId p := by
  unfold ARockSolver.isRemoteParam ARockSolver.solverId
  rw [hstate, hself]
  exact ⟨rfl, rfl⟩

/-- Inversion of one pass of the scan body: the solver is returned as it was,
or the dual of a remote parameter without a dual is created. -/
theorem ARockSolver.scanParam_cases (s t : ARockSolver K) (p : ParamInfo)
    (h : s.scanParam p = some t) :
    (t = s ∧ (s.isRemoteParam p = some false ∨
      ∃ d, s.isRemoteParam p = some true ∧ s.solverId p = some d ∧
        s.hasDualState p.pointer d = true)) ∨
    (∃ d, s.isRemoteParam p = some true ∧ s.solverId p = some d ∧
      s.hasDualState p.pointer d = false ∧ t = s.createDualState p d) := by
  unfold ARockSolver.scanParam at h
  cases hr : s.isRemoteParam p with
  | none => simp [hr] at h
  | some b =>
    cases b with
    | false =>
      simp only [hr, Option.some.injEq] at h
      exact Or.inl ⟨h.symm, Or.inl rfl⟩
    | true =>
      obtain ⟨d, hd, hne⟩ := s.solverId_of_isRemoteParam p hr
      simp only [hr, hd, ne_eq, hne, not_false_eq_true, if_true] at h
      cases hh : s.hasDualState p.pointer d with
      | true =>
        simp only [hh, not_true_eq_false, if_false, Option.some.injEq] at h
        exact Or.inl ⟨h.symm, Or.inr ⟨d, rfl, hd, hh⟩⟩
      | false =>
        simp [hh] at h
        exact Or.inr ⟨d, rfl, hd, hh, h.symm⟩

theorem ARockSolver.scanParam_frame (s t : ARockSolver K) (p : ParamInfo)
    (h : s.scanParam p = some t) :
    t.state = s.state ∧ t.self_id = s.self_id ∧ t.residuals = s.residuals := by
  rcases s.scanParam_cases t p h with ⟨rfl, _⟩ | ⟨d, _, _, _, rfl⟩
  · exact ⟨rfl, rfl, rfl⟩
  · have hf := s.createDualState_frame p d
    exact ⟨hf.1, hf.2.1, hf.2.2.1⟩

/-- One pass keeps every dual that exists. -/
theorem ARockSolver.scanParam_keeps (s t : ARockSolver K) (p : ParamInfo)
    (h : s.scanParam p = some t) (d : Int) (ptr : StatePtr)
    (hex : (s.remoteDual d ptr).isSome) :
    t.remoteDual d ptr = s.remoteDual d ptr ∧ t.localDual d ptr = s.localDual d ptr := by
  rcases s.scanParam_cases t p h with ⟨rfl, _⟩ | ⟨d0, _, _, hno, rfl⟩
  · exact ⟨rfl, rfl⟩
  · rw [ARockSolver.hasDualState_eq] at hno
    have hne : ¬ (d = d0 ∧ ptr = p.pointer) := by
      rintro ⟨rfl, rfl⟩
      rw [hno] at hex
      exact absurd hex (by simp)
    have hcont : ¬ (d = d0 ∧ StdMap.contains s.dual_states_remote d0 = false) := by
      rintro ⟨rfl, hc⟩
      unfold ARockSolver.remoteDual at hex
      unfold StdMap.contains at hc
      cases hm : StdMap.find s.dual_states_remote d with
      | none => simp [hm] at hex
      | some m => simp [hm] at hc
    rw [ARockSolver.remoteDual_createDualState, ARockSolver.localDual_createDualState]
    simp only [hne, hcont, if_false, and_self]

/-- One pass leaves a remote parameter with both duals. -/
theorem ARockSolver.scanParam_creates (s t : ARockSolver K) (p : ParamInfo)
    (h : s.scanParam p = some t) (d : Int) (hr : s.isRemoteParam p = some true)
    (hd : s.solverId p = some d) :
    (t.remoteDual d p.pointer).isSome ∧
    (s.hasDualState p.pointer d = false →
      t.remoteDual d p.pointer = some (s.state.mapVector p.pointer p.size) ∧
      t.localDual d p.pointer = some (s.state.mapVector p.pointer p.size)) := by
  rcases s.scanParam_cases t p h with ⟨rfl, hcase⟩ | ⟨d0, _, hd0, hno, rfl⟩
  · rcases hcase with hf | ⟨d0, _, hd0, hhas⟩
    · rw [hr] at hf
      exact absurd hf (by simp)
    · rw [hd] at hd0
      cases hd0
      rw [ARockSolver.hasDualState_eq] at hhas
      exact ⟨hhas, fun hno => by rw [ARockSolver.hasDualState_eq, hhas] at hno; simp at hno⟩
  · rw [hd] at hd0
    cases hd0
    rw [ARockSolver.remoteDual_createDualState, ARockSolver.localDual_createDualState]
    simp

/-- One pass keeps the two stores paired. -/
theorem ARockSolver.scanParam_paired (s t : ARockSolver K) (p : ParamInfo)
    (h : s.scanParam p = some t) (hp : s.DualsPaired) : t.DualsPaired := by
  rcases s.scanParam_cases t p h with ⟨rfl, _⟩ | ⟨d0, _, _, hno, rfl⟩
  · exact hp
  · intro d ptr hex
    rw [ARockSolver.remoteDual_createDualState] at hex
    rw [ARockSolver.localDual_createDualState]
    by_cases hnew : d = d0 ∧ ptr = p.pointer
    · simp [hnew]
    · simp only [hnew, if_false] at hex ⊢
      have hcont : ¬ (d = d0 ∧ StdMap.contains s.dual_states_remote d0 = false) := by
        rintro ⟨rfl, hc⟩
        unfold ARockSolver.remoteDual at hex
        unfold StdMap.contains at hc
        cases hm : StdMap.find s.dual_states_remote d with
        | none => simp [hm] at hex
        | some m => simp [hm] at hc
      simp only [hcont, if_false]
      exact hp d ptr hex

/-- One pass returns when the frame of a pose is known. -/
theorem ARockSolver.scanParam_returns (s : ARockSolver K) (p : ParamInfo)
    (hk : p.type = ParamsType.POSE ∨ p.type = ParamsType.POSE_4D →
      (s.state.getFramebyId p.id).isSome) :
    ∃ t, s.scanParam p = some t := by
  unfold ARockSolver.scanParam ARockSolver.isRemoteParam ARockSolver.solverId
  by_cases hp : p.type = ParamsType.POSE ∨ p.type = ParamsType.POSE_4D
  · obtain ⟨frame, hf⟩ := Option.isSome_iff_exists.mp (hk hp)
    simp only [hp, if_true, hf]
    by_cases hd : frame.drone_id = s.self_id
    · simp [hd]
    · by_cases hh : s.hasDualState p.pointer frame.drone_id = true <;> simp [hd, hh]
  · simp [hp]

end ScanLoop

section ScanLists

variable {K : Type}

theorem ARockSolver.scanParams_append (s : ARockSolver K) (ps qs : List ParamInfo) :
    s.scanParams (ps ++ qs) = (s.scanParams ps).bind (fun t => t.scanParams qs) := by
  induction ps generalizing s with
  | nil => simp [ARockSolver.scanParams]
  | cons p rest ih =>
    simp only [List.cons_append, ARockSolver.scanParams]
    cases s.scanParam p with
    | none => simp
    | some s1 => simp [ih]

theorem ARockSolver.scanParams_frame (s t : ARockSolver K) (ps : List ParamInfo)
    (h : s.scanParams ps = some t) :
    t.state = s.state ∧ t.self_id = s.self_id ∧ t.residuals = s.residuals := by
  induction ps generalizing s with
  | nil =>
    simp only [ARockSolver.scanParams, Option.some.injEq] at h
    subst h
    exact ⟨rfl, rfl, rfl⟩
  | cons p rest ih =>
    simp only [ARockSolver.scanParams] at h
    cases h1 : s.scanParam p with
    | none => simp [h1] at h
    | some s1 =>
      simp only [h1] at h
      have hf := s.scanParam_frame s1 p h1
      have hr := ih s1 h
      exact ⟨hr.1.trans hf.1, hr.2.1.trans hf.2.1, hr.2.2.trans hf.2.2⟩

theorem ARockSolver.scanResiduals_eq (s : ARockSolver K) (rs : List (ResidualInfo K)) :
    s.scanResiduals rs = s.scanParams (allParams s.state rs) := by
  induction rs generalizing s with
  | nil => simp [ARockSolver.scanResiduals, allParams, ARockSolver.scanParams]
  | cons res rest ih =>
    simp only [ARockSolver.scanResiduals, allParams, ARockSolver.scanParams_append]
    cases h1 : s.scanParams (res.paramsList s.state) with
    | none => simp
    | some s1 =>
      have hf := s.scanParams_frame s1 _ h1
      simp [ih, hf.1]

theorem mem_allParams (state : D2State K) (rs : List (ResidualInfo K)) (p : ParamInfo) :
    p ∈ allParams state rs ↔ ∃ res ∈ rs, p ∈ res.paramsList state := by
  induction rs with
  | nil => simp [allParams]
  | cons res rest ih => simp [allParams, ih]

theorem ARockSolver.scanParams_keeps (s t : ARockSolver K) (ps : List ParamInfo)
    (h : s.scanParams ps = some t) (d : Int) (ptr : StatePtr)
    (hex : (s.remoteDual d ptr).isSome) :
    t.remoteDual d ptr = s.remoteDual d ptr ∧ t.localDual d ptr = s.localDual d ptr := by
  induction ps generalizing s with
  | nil =>
    simp only [ARockSolver.scanParams, Option.some.injEq] at h
    subst h
    exact ⟨rfl, rfl⟩
  | cons p rest ih =>
    simp only [ARockSolver.scanParams] at h
    cases h1 : s.scanParam p with
    | none => simp [h1] at h
    | some s1 =>
      simp only [h1] at h
      have hk := s.scanParam_keeps s1 p h1 d ptr hex
      have hr := ih s1 h (by rw [hk.1]; exact hex)
      exact ⟨hr.1.trans hk.1, hr.2.trans hk.2⟩

theorem ARockSolver.scanParams_paired (s t : ARockSolver K) (ps : List ParamInfo)
    (h : s.scanParams ps = some t) (hp : s.DualsPaired) : t.DualsPaired := by
  induction ps generalizing s with
  | nil =>
    simp only [ARockSolver.scanParams, Option.some.injEq] at h
    subst h
    exact hp
  | cons p rest ih =>
    simp only [ARockSolver.scanParams] at h
    cases h1 : s.scanParam p with
    | none => simp [h1] at h
    | some s1 =>
      simp only [h1] at h
      exact ih s1 h (s.scanParam_paired s1 p h1 hp)

theorem ARockSolver.scanParams_creates (s t : ARockSolver K) (ps : List ParamInfo)
    (h : s.scanParams ps = some t) (p : ParamInfo) (hmem : p ∈ ps) (d : Int)
    (hr : s.isRemoteParam p = some true) (hd : s.solverId p = some d) :
    (t.remoteDual d p.pointer).isSome := by
  induction ps generalizing s with
  | nil => simp at hmem
  | cons q rest ih =>
    simp only [ARockSolver.scanParams] at h
    cases h1 : s.scanParam q with
    | none => simp [h1] at h
    | some s1 =>
      simp only [h1] at h
      rcases List.mem_cons.mp hmem with rfl | hrest
      · have hc := (s.scanParam_creates s1 p h1 d hr hd).1
        rw [(s1.scanParams_keeps t rest h d p.pointer hc).1]
        exact hc
      · have hf := s.scanParam_frame s1 q h1
        have hcg := s.isRemoteParam_congr s1 p hf.1 hf.2.1
        exact ih s1 h hrest (hcg.1.trans hr) (hcg.2.trans hd)

/-- Origin of a dual made by the scan: it was created for a remote parameter of
the list with that address and owner, with the primal of that parameter on
both sides. -/
theorem ARockSolver.scanParams_origin (s t : ARockSolver K) (ps : List ParamInfo)
    (h : s.scanParams ps = some t) (d : Int) (ptr : StatePtr)
    (hno : s.remoteDual d ptr = none) (hex : (t.remoteDual d ptr).isSome) :
    ∃ q ∈ ps, q.pointer = ptr ∧ s.isRemoteParam q = some true ∧ s.solverId q = some d ∧
      t.remoteDual d ptr = some (s.state.mapVector q.pointer q.size) ∧
      t.localDual d ptr = some (s.state.mapVector q.pointer q.size) := by
  induction ps generalizing s with
  | nil =>
    simp only [ARockSolver.scanParams, Option.some.injEq] at h
    subst h
    rw [hno] at hex
    exact absurd hex (by simp)
  | cons p rest ih =>
    simp only [ARockSolver.scanParams] at h
    cases h1 : s.scanParam p with
    | none => simp [h1] at h
    | some s1 =>
      simp only [h1] at h
      have hf := s.scanParam_frame s1 p h1
      cases hs1 : s1.remoteDual d ptr with
      | none =>
        obtain ⟨q, hq, hptr, hqr, hqd, hrem, hloc⟩ := ih s1 h hs1
        have hcg := s.isRemoteParam_congr s1 q hf.1 hf.2.1
        rw [hf.1] at hrem hloc
        exact ⟨q, List.mem_cons_of_mem _ hq, hptr, hcg.1.symm.trans hqr,
          hcg.2.symm.trans hqd, hrem, hloc⟩
      | some v =>
        have hkeep := s1.scanParams_keeps t rest h d ptr (by simp [hs1])
        rcases s.scanParam_cases s1 p h1 with ⟨rfl, _⟩ | ⟨d0, hr0, hd0, hno0, rfl⟩
        · rw [hno] at hs1
          exact absurd hs1 (by simp)
        · have hrem := s.remoteDual_createDualState p d0 d ptr
          have hloc := s.localDual_createDualState p d0 d ptr
          by_cases hnew : d = d0 ∧ ptr = p.pointer
          · obtain ⟨rfl, rfl⟩ := hnew
            simp only [and_self, if_true] at hrem hloc
            exact ⟨p, List.mem_cons_self _ _, rfl, hr0, hd0, hkeep.1.trans hrem,
              hkeep.2.trans hloc⟩
          · simp only [hnew, if_false] at hrem
            rw [hrem, hno] at hs1
            exact absurd hs1 (by simp)

theorem ARockSolver.scanParams_returns (s : ARockSolver K) (ps : List ParamInfo)
    (hk : ∀ p ∈ ps, p.type = ParamsType.POSE ∨ p.type = ParamsType.POSE_4D →
      (s.state.getFramebyId p.id).isSome) :
    ∃ t, s.scanParams ps = some t := by
  induction ps generalizing s with
  | nil => exact ⟨s, rfl⟩
  | cons p rest ih =>
    obtain ⟨s1, h1⟩ := s.scanParam_returns p (hk p (List.mem_cons_self _ _))
    have hf := s.scanParam_frame s1 p h1
    obtain ⟨t, ht⟩ := ih s1 (fun q hq => by
      rw [hf.1]
      exact hk q (List.mem_cons_of_mem _ hq))
    exact ⟨t, by simp [ARockSolver.scanParams, h1, ht]⟩

theorem ARockSolver.scanAndCreateDualStates_returns (s : ARockSolver K)
    (hframes : s.FramesKnown) :
    ∃ t, s.scanParams (allParams s.state s.residuals) = some t ∧
      s.scanAndCreateDualStates = some t := by
  obtain ⟨t, ht⟩ := s.scanParams_returns (allParams s.state s.residuals) (fun p hp => by
    obtain ⟨res, hres, hmem⟩ := (mem_allParams s.state s.residuals p).mp hp
    exact hframes res hres p hmem)
  exact ⟨t, ht, by rw [ARockSolver.scanAndCreateDualStates, ARockSolver.scanResiduals_eq, ht]⟩

/-- C4. Dual creation is an idempotent ensure: the scan returns; a dual that
`hasDualState` finds before the scan has the same local and the same remote
value after it, whatever the primal is now; and a remote parameter of a
residual without a dual gets a local and a remote dual that both equal the
first `size` scalars of the primal buffer of the parameter record the scan
met for that address and owner. -/
theorem scanAndCreateDualStates_ensure (s : ARockSolver K) (hframes : s.FramesKnown) :
    ∃ t, s.scanAndCreateDualStates = some t ∧
      (∀ d ptr, s.hasDualState ptr d = true →
        t.remoteDual d ptr = s.remoteDual d ptr ∧ t.localDual d ptr = s.localDual d ptr) ∧
      (∀ res ∈ s.residuals, ∀ p ∈ res.paramsList s.state, ∀ d,
        s.isRemoteParam p = some true → s.solverId p = some d →
        s.hasDualState p.pointer d = false →
        ∃ q ∈ allParams s.state s.residuals, q.pointer = p.pointer ∧
          s.isRemoteParam q = some true ∧ s.solverId q = some d ∧
          t.remoteDual d p.pointer = some (s.state.mapVector q.pointer q.size) ∧
          t.localDual d p.pointer = some (s.state.mapVector q.pointer q.size)) := by
  obtain ⟨t, hscan, hret⟩ := s.scanAndCreateDualStates_returns hframes
  refine ⟨t, hret, ?_, ?_⟩
  · intro d ptr hhas
    rw [ARockSolver.hasDualState_eq] at hhas
    exact s.scanParams_keeps t _ hscan d ptr hhas
  · intro res hres p hp d hr hd hno
    rw [ARockSolver.hasDualState_eq] at hno
    have hmem : p ∈ allParams s.state s.residuals :=
      (mem_allParams s.state s.residuals p).mpr ⟨res, hres, hp⟩
    have hrem := s.scanParams_creates t _ hscan p hmem d hr hd
    have hnone : s.remoteDual d p.pointer = none := by
      cases hv : s.remoteDual d p.pointer with
      | none => rfl
      | some v => simp [hv] at hno
    exact s.scanParams_origin t _ hscan d p.pointer hnone hrem

end ScanLists

section ScanWitnesses

theorem Sample.solver1_framesKnown : Sample.solver1.FramesKnown := by
  intro res hres p hp hk
  have hres' : res = Sample.residual := by
    have : Sample.solver1.residuals = [Sample.residual] := rfl
    rw [this] at hres
    simpa using hres
  subst hres'
  have hp' : p = Sample.poseSelf ∨ p = Sample.poseRemote ∨ p = Sample.landmark := by
    simpa [Sample.residual] using hp
  rcases hp' with rfl | rfl | rfl
  · decide
  · decide
  · exact absurd hk (by decide)

theorem Sample.solver1_dualsPaired : Sample.solver1.DualsPaired := by
  intro d ptr h
  have : Sample.solver1.remoteDual d ptr = none := rfl
  rw [this] at h
  exact absurd h (by simp)

theorem Sample.solverWithDual_framesKnown : Sample.solverWithDual.FramesKnown :=
  Sample.solver1_framesKnown

/-- Witness of C4 on a solver that already holds a dual for the pose of frame
42: the scan leaves the stored values (9, 9, 9, ..) and (8, 8, 8, ..) although
the primal is (1, 2, 3, ..). -/
theorem scanAndCreateDualStates_ensure_witness :
    Sample.solverWithDual.hasDualState 200 2 = true ∧
    Sample.solverWithDual.state.mapVector 200 7 = [1, 2, 3, 0, 0, 0, 1] ∧
    ∃ t, Sample.solverWithDual.scanAndCreateDualStates = some t ∧
      t.remoteDual 2 200 = some [9, 9, 9, 0, 0, 0, 1] ∧
      t.localDual 2 200 = some [8, 8, 8, 0, 0, 0, 1] := by
  obtain ⟨t, ht, hkeep, _⟩ :=
    scanAndCreateDualStates_ensure Sample.solverWithDual Sample.solverWithDual_framesKnown
  have hhas : Sample.solverWithDual.hasDualState 200 2 = true := by decide
  have hk := hkeep 2 200 hhas
  refine ⟨hhas, by decide, t, ht, ?_, ?_⟩
  · rw [hk.1]; rfl
  · rw [hk.2]; rfl

end ScanWitnesses

/-! ## The dual update -/

section UpdateLemmas

variable {K P : Type} [LinearOrderedField K] [FloorRing K]

theorem StdMap.mem_of_find {κ ν : Type} [DecidableEq κ] (m : StdMap κ ν) (k : κ) (v : ν)
    (h : StdMap.find m k = some v) : (k, v) ∈ m := by
  induction m with
  | nil => simp [StdMap.find] at h
  | cons hd tl ih =>
    obtain ⟨k', v'⟩ := hd
    by_cases hk : k' = k
    · subst hk
      simp only [StdMap.find, if_true, Option.some.injEq] at h
      subst h
      exact List.mem_cons_self _ _
    · simp only [StdMap.find, hk, if_false] at h
      exact List.mem_cons_of_mem _ (ih h)

omit [LinearOrderedField K] [FloorRing K] in
theorem ARockSolver.mem_of_localDual (s : ARockSolver K) (d : Int) (ptr : StatePtr) (zl : List K)
    (h : s.localDual d ptr = some zl) :
    ∃ duals, (d, duals) ∈ s.dual_states_local ∧ (ptr, zl) ∈ duals := by
  unfold ARockSolver.localDual at h
  cases hm : StdMap.find s.dual_states_local d with
  | none => simp [hm] at h
  | some duals =>
    simp only [hm, Option.some_bind] at h
    exact ⟨duals, StdMap.mem_of_find _ _ _ hm, StdMap.mem_of_find _ _ _ h⟩

/-- Effect of `updateDualStates` when it returns: each local dual is replaced by
the result of the loop body on it, and nothing else changes. -/
theorem ARockSolver.updateDualStates_spec (E : Externals K P) (s t : ARockSolver K)
    (h : s.updateDualStates E = some t) :
    (∀ d ptr, t.localDual d ptr = (s.localDual d ptr).bind (s.updateDualState E d ptr)) ∧
    t.dual_states_remote = s.dual_states_remote ∧ t.state = s.state ∧
    t.all_estimating_params = s.all_estimating_params ∧ t.residuals = s.residuals ∧
    t.config = s.config ∧ t.self_id = s.self_id := by
  unfold ARockSolver.updateDualStates at h
  cases hm : StdMap.mapValsM (fun remote_drone_id duals =>
      StdMap.mapValsM (fun state_pointer dual_state_local =>
        s.updateDualState E remote_drone_id state_pointer dual_state_local) duals)
      s.dual_states_local with
  | none => simp [hm] at h
  | some duals =>
    simp only [hm, Option.some.injEq] at h
    subst h
    refine ⟨?_, rfl, rfl, rfl, rfl, rfl, rfl⟩
    intro d ptr
    unfold ARockSolver.localDual
    simp only
    rw [StdMap.find_mapValsM _ _ _ hm d]
    cases hd : StdMap.find s.dual_states_local d with
    | none => simp
    | some inner =>
      simp only [Option.some_bind]
      cases hi : StdMap.mapValsM (fun state_pointer dual_state_local =>
          s.updateDualState E d state_pointer dual_state_local) inner with
      | none =>
        have := StdMap.find_mapValsM _ _ _ hm d
        rw [hd] at this
        simp only [Option.some_bind, hi] at this
        cases hx : StdMap.find duals d with
        | none =>
          exfalso
          have hmem := StdMap.mem_of_find _ _ _ hd
          have hall : ∀ m r, StdMap.mapValsM (fun remote_drone_id duals =>
              StdMap.mapValsM (fun state_pointer dual_state_local =>
                s.updateDualState E remote_drone_id state_pointer dual_state_local) duals) m
                = some r → ∀ kv ∈ m, (StdMap.mapValsM (fun state_pointer dual_state_local =>
                s.updateDualState E kv.1 state_pointer dual_state_local) kv.2).isSome := by
            intro m
            induction m with
            | nil => intro r _ kv hkv; simp at hkv
            | cons hd' tl ih =>
              intro r hr kv hkv
              obtain ⟨k', v'⟩ := hd'
              simp only [StdMap.mapValsM] at hr
              cases hf : StdMap.mapValsM (fun state_pointer dual_state_local =>
                  s.updateDualState E k' state_pointer dual_state_local) v' with
              | none => simp [hf] at hr
              | some w =>
                cases ht : StdMap.mapValsM (fun remote_drone_id duals =>
                    StdMap.mapValsM (fun state_pointer dual_state_local =>
                      s.updateDualState E remote_drone_id state_pointer dual_state_local) duals)
                    tl with
                | none => simp [hf, ht] at hr
                | some r' =>
                  rcases List.mem_cons.mp hkv with rfl | hrest
                  · simp [hf]
                  · exact ih r' ht kv hrest
          have := hall _ _ hm (d, inner) hmem
          simp [hi] at this
        | some y => rw [hx] at this; simp at this
      | some inner' =>
        simp only [Option.some_bind]
        exact StdMap.find_mapValsM _ _ _ hi ptr

theorem ARockSolver.updateDualStates_returns (E : Externals K P) (s : ARockSolver K)
    (hall : ∀ d duals, (d, duals) ∈ s.dual_states_local → ∀ ptr zl, (ptr, zl) ∈ duals →
      (s.updateDualState E d ptr zl).isSome) :
    ∃ t, s.updateDualStates E = some t := by
  have h := StdMap.mapValsM_isSome (fun remote_drone_id duals =>
      StdMap.mapValsM (fun state_pointer dual_state_local =>
        s.updateDualState E remote_drone_id state_pointer dual_state_local) duals)
      s.dual_states_local (fun kv hkv =>
        StdMap.mapValsM_isSome _ kv.2 (fun kv' hkv' => hall kv.1 kv.2 hkv kv'.1 kv'.2 hkv'))
  obtain ⟨r, hr⟩ := Option.isSome_iff_exists.mp h
  exact ⟨{ s with dual_states_local := r }, by simp [ARockSolver.updateDualStates, hr]⟩

end UpdateLemmas

section VectorBranch

variable {K P : Type} [LinearOrderedField K] [FloorRing K]

omit [LinearOrderedField K] [FloorRing K] in
theorem D2State.length_mapVector (state : D2State K) (ptr : StatePtr) (n : Nat) :
    (state.mapVector ptr n).length = n := by
  simp [D2State.mapVector]

omit [LinearOrderedField K] [FloorRing K] in
theorem D2State.getElem?_mapVector (state : D2State K) (ptr : StatePtr) (n i : Nat)
    (hi : i < n) : (state.mapVector ptr n)[i]? = some (state.mem ptr i) := by
  simp [D2State.mapVector, List.getElem?_range hi]

omit [LinearOrderedField K] [FloorRing K] in
theorem zipSame_eq (f : K → K → K) (a b : List K) (h : a.length = b.length) :
    zipSame f a b = some (List.zipWith f a b) := by
  simp [zipSame, h]

omit [FloorRing K] in
/-- Closed form of the vector branch on vectors of one size. -/
theorem updateDualVector_eq (eta_k : K) (cur zl zr : List K)
    (hr : zl.length = zr.length) (hc : zl.length = cur.length) :
    updateDualVector eta_k cur zl zr =
      some (List.zipWith (fun a b => a - b) zl
        ((List.zipWith (fun a b => a - b)
          ((List.zipWith (fun a b => a + b) zl zr).map (fun c => c / 2)) cur).map
            (fun c => c * eta_k))) := by
  unfold updateDualVector
  rw [zipSame_eq _ _ _ hr]
  simp only [Option.some_bind]
  rw [zipSame_eq _ _ _ (by simp only [List.length_map, List.length_zipWith]; omega)]
  simp only [Option.some_bind]
  rw [zipSame_eq _ _ _ (by simp only [List.length_map, List.length_zipWith]; omega)]

omit [FloorRing K] in
/-- Coefficient of the vector branch: `z_l - η·((z_l + z_r)/2 - x)`. -/
theorem updateDualVector_coeff (eta_k : K) (cur zl zr : List K)
    (hr : zl.length = zr.length) (hc : zl.length = cur.length) :
    ∃ out, updateDualVector eta_k cur zl zr = some out ∧ out.length = zl.length ∧
      ∀ (i : Nat) (a b x : K), zl[i]? = some a → zr[i]? = some b → cur[i]? = some x →
        out[i]? = some (a - eta_k * ((a + b) / 2 - x)) := by
  refine ⟨_, updateDualVector_eq eta_k cur zl zr hr hc, ?_, ?_⟩
  · simp only [List.length_map, List.length_zipWith]
    omega
  · intro i a b x ha hb hx
    simp [List.getElem?_zipWith, ha, hb, hx, mul_comm]

end VectorBranch

section YawBranch

variable {K P : Type} [LinearOrderedField K] [FloorRing K]

/-- Range of the wrapped angle: the half-open interval (-π, π]. -/
theorem NormalizeAngle_range (pi angle : K) (hpi : 0 < pi) :
    -pi < NormalizeAngle pi angle ∧ NormalizeAngle pi angle ≤ pi := by
  unfold NormalizeAngle
  have h2 : (0 : K) < 2 * pi := by linarith
  have hle := Int.le_ceil ((angle - pi) / (2 * pi))
  have hlt := Int.ceil_lt_add_one ((angle - pi) / (2 * pi))
  rw [div_le_iff₀ h2] at hle
  rw [← sub_lt_iff_lt_add, lt_div_iff₀ h2] at hlt
  constructor
  · nlinarith
  · nlinarith

/-- An angle of (-π, π] is its own wrapped value. -/
theorem NormalizeAngle_of_mem (pi angle : K) (hpi : 0 < pi) (hlo : -pi < angle)
    (hhi : angle ≤ pi) : NormalizeAngle pi angle = angle := by
  unfold NormalizeAngle
  have h2 : (0 : K) < 2 * pi := by linarith
  have hc : ⌈(angle - pi) / (2 * pi)⌉ = 0 := by
    rw [Int.ceil_eq_iff]
    constructor
    · rw [lt_div_iff₀ h2]
      push_cast
      linarith
    · rw [div_le_iff₀ h2]
      push_cast
      linarith
  rw [hc]
  simp

omit [LinearOrderedField K] [FloorRing K] in
theorem setYaw_eq (f : K → K) (v : List K) (y : K) (h : v[3]? = some y) :
    setYaw f v = some (v.set 3 (f y)) := by
  simp [setYaw, h]

/-- Coefficients of the yaw-pose branch on vectors of one size with a yaw. -/
theorem updateDualPose4D_coeff (pi eta_k : K) (cur zl zr : List K)
    (hr : zl.length = zr.length) (hc : zl.length = cur.length) (h3 : 3 < zl.length) :
    ∃ out, updateDualPose4D pi eta_k cur zl zr = some out ∧ out.length = zl.length ∧
      (∀ (i : Nat) (a b x : K), i ≠ 3 → zl[i]? = some a → zr[i]? = some b →
        cur[i]? = some x → out[i]? = some (a - eta_k * ((a + b) / 2 - x))) ∧
      (∀ (a b x : K), zl[3]? = some a → zr[3]? = some b → cur[3]? = some x →
        out[3]? = some (NormalizeAngle pi
          (a - NormalizeAngle pi (eta_k * ((a + b) / 2 - x))))) := by
  have h3r : 3 < zr.length := by omega
  have h3c : 3 < cur.length := by omega
  obtain ⟨a0, ha⟩ : ∃ a0, zl[3]? = some a0 := ⟨_, List.getElem?_eq_getElem h3⟩
  obtain ⟨b0, hb⟩ : ∃ b0, zr[3]? = some b0 := ⟨_, List.getElem?_eq_getElem h3r⟩
  obtain ⟨x0, hx⟩ : ∃ x0, cur[3]? = some x0 := ⟨_, List.getElem?_eq_getElem h3c⟩
  have hd0 : ((List.zipWith (fun a b => a - b)
      ((List.zipWith (fun a b => a + b) zl zr).map (fun c => c / 2)) cur).map
        (fun c => c * eta_k))[3]? = some (((a0 + b0) / 2 - x0) * eta_k) := by
    simp [List.getElem?_zipWith, ha, hb, hx]
  have hmv : (List.zipWith (fun a b => a - b) zl
      (((List.zipWith (fun a b => a - b)
        ((List.zipWith (fun a b => a + b) zl zr).map (fun c => c / 2)) cur).map
          (fun c => c * eta_k)).set 3
            (NormalizeAngle pi (((a0 + b0) / 2 - x0) * eta_k))))[3]? =
      some (a0 - NormalizeAngle pi (((a0 + b0) / 2 - x0) * eta_k)) := by
    rw [List.getElem?_zipWith, ha, List.getElem?_set_self (by
      simp only [List.length_map, List.length_zipWith]; omega)]
  have heq : updateDualPose4D pi eta_k cur zl zr = some
      ((List.zipWith (fun a b => a - b) zl
        (((List.zipWith (fun a b => a - b)
          ((List.zipWith (fun a b => a + b) zl zr).map (fun c => c / 2)) cur).map
            (fun c => c * eta_k)).set 3
              (NormalizeAngle pi (((a0 + b0) / 2 - x0) * eta_k)))).set 3
        (NormalizeAngle pi (a0 - NormalizeAngle pi (((a0 + b0) / 2 - x0) * eta_k)))) := by
    unfold updateDualPose4D
    rw [zipSame_eq _ _ _ hr]
    simp only [Option.some_bind]
    rw [zipSame_eq _ _ _ (by simp only [List.length_map, List.length_zipWith]; omega)]
    simp only [Option.some_bind]
    rw [setYaw_eq _ _ _ hd0]
    simp only [Option.some_bind]
    rw [zipSame_eq _ _ _ (by
      simp only [List.length_set, List.length_map, List.length_zipWith]; omega)]
    simp only [Option.some_bind]
    rw [setYaw_eq _ _ _ hmv]
  refine ⟨_, heq, ?_, ?_, ?_⟩
  · simp only [List.length_set, List.length_map, List.length_zipWith]
    omega
  · intro i a b x hi hai hbi hxi
    have hi' : 3 ≠ i := fun h => hi h.symm
    rw [List.getElem?_set_ne hi', List.getElem?_zipWith, hai, List.getElem?_set_ne hi']
    simp [List.getElem?_zipWith, hai, hbi, hxi, mul_comm]
  · intro a b x ha' hb' hx'
    rw [ha] at ha'
    rw [hb] at hb'
    rw [hx] at hx'
    cases ha'
    cases hb'
    cases hx'
    rw [List.getElem?_set_self (by
      simp only [List.length_zipWith, List.length_set, List.length_map]; omega)]
    rw [mul_comm eta_k]

end YawBranch

section SolverUpdate

variable {K P : Type} [LinearOrderedField K] [FloorRing K]

omit [LinearOrderedField K] [FloorRing K] in
theorem List.set_of_getElem? (l : List K) (i : Nat) (y : K) (h : l[i]? = some y) :
    l.set i y = l := by
  apply List.ext_getElem?
  intro j
  by_cases hij : i = j
  · subst hij
    obtain ⟨hlt, _⟩ := List.getElem?_eq_some.mp h
    rw [List.getElem?_set_self hlt, h]
  · rw [List.getElem?_set_ne hij]

/-- With both dual yaws in (-π, π] the yaw-pose branch computes what the spec
prescribes: the wrap of the averaged yaw is then the identity. -/
theorem updateDualPose4D_eq_spec (pi eta_k : K) (cur zl zr : List K) (hpi : 0 < pi)
    (a b : K) (ha : zl[3]? = some a) (hb : zr[3]? = some b)
    (hla : -pi < a ∧ a ≤ pi) (hlb : -pi < b ∧ b ≤ pi) :
    yawUpdateSpec pi eta_k cur zl zr = updateDualPose4D pi eta_k cur zl zr := by
  unfold yawUpdateSpec updateDualPose4D
  by_cases hr : zl.length = zr.length
  · rw [zipSame_eq _ _ _ hr]
    simp only [Option.some_bind]
    have havg : ((List.zipWith (fun a b => a + b) zl zr).map (fun c => c / 2))[3]? =
        some ((a + b) / 2) := by
      simp [List.getElem?_zipWith, ha, hb]
    rw [setYaw_eq _ _ _ havg,
      NormalizeAngle_of_mem pi ((a + b) / 2) hpi (by linarith [hla.1, hlb.1])
        (by linarith [hla.2, hlb.2]),
      List.set_of_getElem? _ _ _ havg]
    simp only [Option.some_bind]
    have hmul : (fun c : K => eta_k * c) = fun c => c * eta_k :=
      funext (fun c => mul_comm _ _)
    rw [hmul]
  · simp [zipSame, hr]

theorem ARockSolver.updateDualState_eq (E : Externals K P) (s : ARockSolver K) (d : Int)
    (ptr : StatePtr) (zl zr : List K) (param_info : ParamInfo)
    (hp : StdMap.find s.all_estimating_params ptr = some param_info)
    (hr : s.remoteDual d ptr = some zr) :
    s.updateDualState E d ptr zl =
      if E.IsSE3 param_info.type then
        some (updateDualSE3 E s.config.eta_k (s.state.mem ptr) zl zr)
      else if E.IsPose4D param_info.type then
        updateDualPose4D E.pi s.config.eta_k (s.state.mapVector ptr param_info.size) zl zr
      else
        updateDualVector s.config.eta_k (s.state.mapVector ptr param_info.size) zl zr := by
  unfold ARockSolver.remoteDual at hr
  unfold ARockSolver.updateDualState
  simp only [hp, hr]

/-- Under `UpdateReady` the loop body throws for no local dual. -/
theorem ARockSolver.updateDualState_isSome (E : Externals K P) (s : ARockSolver K)
    (hready : s.UpdateReady E) (d : Int) (duals : StdMap StatePtr (List K))
    (hd : (d, duals) ∈ s.dual_states_local) (ptr : StatePtr) (zl : List K)
    (hz : (ptr, zl) ∈ duals) : (s.updateDualState E d ptr zl).isSome := by
  obtain ⟨param_info, zr, hp, hr, hsz⟩ := hready d duals hd ptr zl hz
  rw [s.updateDualState_eq E d ptr zl zr param_info hp hr]
  cases hse3 : E.IsSE3 param_info.type with
  | true => simp
  | false =>
    obtain ⟨hl1, hl2, h4⟩ := hsz hse3
    have hc : zl.length = (s.state.mapVector ptr param_info.size).length := by
      rw [D2State.length_mapVector]
      exact hl1
    cases h4d : E.IsPose4D param_info.type with
    | true =>
      obtain ⟨out, hout, _⟩ := updateDualPose4D_coeff E.pi s.config.eta_k
        (s.state.mapVector ptr param_info.size) zl zr (hl1.trans hl2.symm) hc
        (by have := h4 h4d; omega)
      simp [hout]
    | false =>
      obtain ⟨out, hout, _⟩ := updateDualVector_coeff s.config.eta_k
        (s.state.mapVector ptr param_info.size) zl zr (hl1.trans hl2.symm) hc
      simp [hout]

/-- Entry of the local store after `updateDualStates`: under `UpdateReady` the
method returns, the local dual of `(d, ptr)` is the result of the loop body on
it, and the remote dual, the primal and the registry are as before. -/
theorem ARockSolver.updateDualStates_entry (E : Externals K P) (s : ARockSolver K)
    (hready : s.UpdateReady E) (d : Int) (ptr : StatePtr) (zl zr : List K)
    (param_info : ParamInfo) (hl : s.localDual d ptr = some zl)
    (hr : s.remoteDual d ptr = some zr)
    (hp : StdMap.find s.all_estimating_params ptr = some param_info) :
    ∃ t, s.updateDualStates E = some t ∧
      t.localDual d ptr = s.updateDualState E d ptr zl ∧
      t.remoteDual d ptr = some zr ∧ t.state = s.state ∧
      t.all_estimating_params = s.all_estimating_params ∧
      (E.IsSE3 param_info.type = false →
        zl.length = param_info.size ∧ zr.length = param_info.size ∧
        (E.IsPose4D param_info.type = true → 3 < param_info.size)) := by
  obtain ⟨t, ht⟩ := s.updateDualStates_returns E (s.updateDualState_isSome E hready)
  obtain ⟨hloc, hrem, hstate, hreg, _⟩ := s.updateDualStates_spec E t ht
  obtain ⟨duals, hd, hz⟩ := s.mem_of_localDual d ptr zl hl
  obtain ⟨param_info', zr', hp', hr', hsz⟩ := hready d duals hd ptr zl hz
  rw [hp] at hp'
  rw [hr] at hr'
  cases hp'
  cases hr'
  refine ⟨t, ht, ?_, ?_, hstate, hreg, hsz⟩
  · rw [hloc d ptr, hl]
    rfl
  · unfold ARockSolver.remoteDual
    rw [hrem]
    exact hr

end SolverUpdate

section DualUpdateClaims

variable {K P : Type} [LinearOrderedField K] [FloorRing K]

/-- Value of the wrapped angle: the representative `angle - 2πk` that lies in (-π, π]. -/
theorem NormalizeAngle_eq_sub (pi angle : K) (k : ℤ) (hpi : 0 < pi)
    (hlo : -pi < angle - 2 * pi * (k : K)) (hhi : angle - 2 * pi * (k : K) ≤ pi) :
    NormalizeAngle pi angle = angle - 2 * pi * (k : K) := by
  unfold NormalizeAngle
  have h2 : (0 : K) < 2 * pi := by linarith
  have hc : ⌈(angle - pi) / (2 * pi)⌉ = k := by
    rw [Int.ceil_eq_iff]
    constructor
    · rw [lt_div_iff₀ h2]
      linarith
    · rw [div_le_iff₀ h2]
      linarith
  rw [hc]

omit [LinearOrderedField K] [FloorRing K] in
/-- Readiness of a solver whose local store is the single dual `(d, ptr)`. -/
theorem ARockSolver.updateReady_single (E : Externals K P) (s : ARockSolver K) (d : Int)
    (ptr : StatePtr) (zl zr : List K) (param_info : ParamInfo)
    (hl : s.dual_states_local = [(d, [(ptr, zl)])]) (hr : s.remoteDual d ptr = some zr)
    (hp : StdMap.find s.all_estimating_params ptr = some param_info)
    (hsz : E.IsSE3 param_info.type = false →
      zl.length = param_info.size ∧ zr.length = param_info.size ∧
      (E.IsPose4D param_info.type = true → 3 < param_info.size)) :
    s.UpdateReady E := by
  intro d' duals hd ptr' zl' hz
  rw [hl] at hd
  simp only [List.mem_singleton, Prod.mk.injEq] at hd
  obtain ⟨rfl, rfl⟩ := hd
  simp only [List.mem_singleton, Prod.mk.injEq] at hz
  obtain ⟨rfl, rfl⟩ := hz
  exact ⟨param_info, zr, hp, hr, hsz⟩

/-- C6. For a parameter that is neither SE3 nor a yaw pose, `updateDualStates`
returns and replaces the local dual `z_l` by the vector whose every
coefficient is `z_l - η·((z_l + z_r)/2 - x)`, with `z_r` the remote dual, `x`
the primal and `η = eta_k`; the identity is exact in the field of scalars. -/
theorem updateDualStates_euclidean (E : Externals K P) (s : ARockSolver K)
    (hready : s.UpdateReady E) (d : Int) (ptr : StatePtr) (zl zr : List K)
    (param_info : ParamInfo) (hl : s.localDual d ptr = some zl)
    (hr : s.remoteDual d ptr = some zr)
    (hp : StdMap.find s.all_estimating_params ptr = some param_info)
    (hse3 : E.IsSE3 param_info.type = false) (h4d : E.IsPose4D param_info.type = false) :
    ∃ t out, s.updateDualStates E = some t ∧ t.localDual d ptr = some out ∧
      out.length = zl.length ∧
      ∀ (i : Nat) (a b : K), zl[i]? = some a → zr[i]? = some b →
        out[i]? = some (a - s.config.eta_k * ((a + b) / 2 - s.state.mem ptr i)) := by
  obtain ⟨t, ht, hloc, _, _, _, hsz⟩ :=
    s.updateDualStates_entry E hready d ptr zl zr param_info hl hr hp
  obtain ⟨hl1, hl2, _⟩ := hsz hse3
  rw [s.updateDualState_eq E d ptr zl zr param_info hp hr] at hloc
  simp only [hse3, h4d, Bool.false_eq_true, if_false] at hloc
  obtain ⟨out, hout, hlen, hcoeff⟩ := updateDualVector_coeff s.config.eta_k
    (s.state.mapVector ptr param_info.size) zl zr (hl1.trans hl2.symm)
    (by rw [D2State.length_mapVector]; exact hl1)
  refine ⟨t, out, ht, hloc.trans hout, hlen, ?_⟩
  intro i a b ha hb
  obtain ⟨hi, _⟩ := List.getElem?_eq_some.mp ha
  exact hcoeff i a b _ ha hb (s.state.getElem?_mapVector ptr param_info.size i (by omega))

/-- C7 amended. For a yaw pose `updateDualStates` returns and the new local dual
has, in every coefficient but the yaw, the value `z_l - η·((z_l + z_r)/2 - x)`,
and in the yaw coefficient `wrap(z_l - wrap(η·((z_l + z_r)/2 - x)))`: the
average is not wrapped. When both dual yaws lie in (-π, π] this is the vector
the spec prescribes. -/
theorem updateDualStates_yaw_pose (E : Externals K P) (s : ARockSolver K)
    (hready : s.UpdateReady E) (hpi : 0 < E.pi) (d : Int) (ptr : StatePtr) (zl zr : List K)
    (param_info : ParamInfo) (hl : s.localDual d ptr = some zl)
    (hr : s.remoteDual d ptr = some zr)
    (hp : StdMap.find s.all_estimating_params ptr = some param_info)
    (hse3 : E.IsSE3 param_info.type = false) (h4d : E.IsPose4D param_info.type = true) :
    ∃ t out, s.updateDualStates E = some t ∧ t.localDual d ptr = some out ∧
      out.length = zl.length ∧
      (∀ (i : Nat) (a b : K), i ≠ 3 → zl[i]? = some a → zr[i]? = some b →
        out[i]? = some (a - s.config.eta_k * ((a + b) / 2 - s.state.mem ptr i))) ∧
      (∀ (a b : K), zl[3]? = some a → zr[3]? = some b →
        out[3]? = some (NormalizeAngle E.pi
          (a - NormalizeAngle E.pi (s.config.eta_k * ((a + b) / 2 - s.state.mem ptr 3)))) ∧
        (-E.pi < a → a ≤ E.pi → -E.pi < b → b ≤ E.pi →
          yawUpdateSpec E.pi s.config.eta_k (s.state.mapVector ptr param_info.size) zl zr
            = some out)) := by
  obtain ⟨t, ht, hloc, _, _, _, hsz⟩ :=
    s.updateDualStates_entry E hready d ptr zl zr param_info hl hr hp
  obtain ⟨hl1, hl2, h3⟩ := hsz hse3
  have h3' := h3 h4d
  rw [s.updateDualState_eq E d ptr zl zr param_info hp hr] at hloc
  simp only [hse3, h4d, Bool.false_eq_true, if_false, if_true] at hloc
  obtain ⟨out, hout, hlen, hcoeff, hyaw⟩ := updateDualPose4D_coeff E.pi s.config.eta_k
    (s.state.mapVector ptr param_info.size) zl zr (hl1.trans hl2.symm)
    (by rw [D2State.length_mapVector]; exact hl1) (by omega)
  refine ⟨t, out, ht, hloc.trans hout, hlen, ?_, ?_⟩
  · intro i a b hne ha hb
    obtain ⟨hi, _⟩ := List.getElem?_eq_some.mp ha
    exact hcoeff i a b _ hne ha hb
      (s.state.getElem?_mapVector ptr param_info.size i (by omega))
  · intro a b ha hb
    refine ⟨hyaw a b _ ha hb (s.state.getElem?_mapVector ptr param_info.size 3 h3'), ?_⟩
    intro ha1 ha2 hb1 hb2
    rw [updateDualPose4D_eq_spec E.pi s.config.eta_k _ zl zr hpi a b ha hb ⟨ha1, ha2⟩
      ⟨hb1, hb2⟩]
    exact hout

/-- C8. The yaw coefficient of the local dual that the yaw-pose branch of
`updateDualStates` writes lies in the half-open interval (-π, π], for all
local and remote dual yaws and every primal yaw. -/
theorem updateDualStates_yaw_in_range (E : Externals K P) (s : ARockSolver K)
    (hready : s.UpdateReady E) (hpi : 0 < E.pi) (d : Int) (ptr : StatePtr) (zl zr : List K)
    (param_info : ParamInfo) (hl : s.localDual d ptr = some zl)
    (hr : s.remoteDual d ptr = some zr)
    (hp : StdMap.find s.all_estimating_params ptr = some param_info)
    (hse3 : E.IsSE3 param_info.type = false) (h4d : E.IsPose4D param_info.type = true) :
    ∃ t out yaw, s.updateDualStates E = some t ∧ t.localDual d ptr = some out ∧
      out[3]? = some yaw ∧ -E.pi < yaw ∧ yaw ≤ E.pi := by
  obtain ⟨t, ht, hloc, _, _, _, hsz⟩ :=
    s.updateDualStates_entry E hready d ptr zl zr param_info hl hr hp
  obtain ⟨hl1, hl2, h3⟩ := hsz hse3
  have h3' := h3 h4d
  rw [s.updateDualState_eq E d ptr zl zr param_info hp hr] at hloc
  simp only [hse3, h4d, Bool.false_eq_true, if_false, if_true] at hloc
  obtain ⟨out, hout, _, _, hyaw⟩ := updateDualPose4D_coeff E.pi s.config.eta_k
    (s.state.mapVector ptr param_info.size) zl zr (hl1.trans hl2.symm)
    (by rw [D2State.length_mapVector]; exact hl1) (by omega)
  obtain ⟨a, ha⟩ : ∃ a, zl[3]? = some a := ⟨_, List.getElem?_eq_getElem (by omega)⟩
  obtain ⟨b, hb⟩ : ∃ b, zr[3]? = some b := ⟨_, List.getElem?_eq_getElem (by omega)⟩
  have hy := hyaw a b _ ha hb (s.state.getElem?_mapVector ptr param_info.size 3 h3')
  have hrange := NormalizeAngle_range E.pi
    (a - NormalizeAngle E.pi (s.config.eta_k * ((a + b) / 2 - s.state.mem ptr 3))) hpi
  exact ⟨t, out, _, ht, hloc.trans hout, hy, hrange.1, hrange.2⟩

omit [LinearOrderedField K] [FloorRing K] in
theorem storeHead_of_length (scalars v : List K) (h : scalars.length = v.length) :
    storeHead scalars v = scalars := by
  unfold storeHead
  rw [h, List.drop_length, List.append_nil]

omit [FloorRing K] in
/-- The SE3 branch of the loop body computes the update of the spec when the
pose library implements the group of poses. -/
theorem updateDualSE3_eq_spec (E : Externals K P) (G : PoseGroup K P) (hlib : E.Implements G)
    (eta_k : K) (cur : Nat → K) (zl zr : List K) :
    updateDualSE3 E eta_k cur zl zr =
      storeHead (E.to_vector (se3UpdateSpec G eta_k (E.ofPointer cur)
        (E.ofVector zl) (E.ofVector zr))) zl := by
  have hmul : (fun c : K => eta_k * c) = fun c => c * eta_k :=
    funext (fun c => mul_comm _ _)
  simp only [updateDualSE3, se3UpdateSpec, PoseGroup.boxMinus, hmul, hlib.mul_eq,
    hlib.averagePoses_eq, hlib.DeltaPose_eq, hlib.tangentSpace_eq, hlib.fromTangentSpace_eq]

/-- C9. For an SE3 pose whose dual holds as many scalars as the vector form of
a pose, and a pose library that implements the group of poses
(`DeltaPose(a, b) = a⁻¹ · b`), `updateDualStates` returns and the new local
dual is the vector form of `z_l · Exp(-η·e)` with `z_avg = avg(z_r, z_l)` and
`e = Log(z_avg ⊟ x) = Log(x⁻¹ · z_avg)`; the remote dual of the pose, the
primal buffers and the registry are unchanged. -/
theorem updateDualStates_se3 (E : Externals K P) (G : PoseGroup K P) (hlib : E.Implements G)
    (s : ARockSolver K) (hready : s.UpdateReady E) (d : Int) (ptr : StatePtr)
    (zl zr : List K) (param_info : ParamInfo) (hl : s.localDual d ptr = some zl)
    (hr : s.remoteDual d ptr = some zr)
    (hp : StdMap.find s.all_estimating_params ptr = some param_info)
    (hse3 : E.IsSE3 param_info.type = true)
    (hlen : (E.to_vector (se3UpdateSpec G s.config.eta_k (E.ofPointer (s.state.mem ptr))
      (E.ofVector zl) (E.ofVector zr))).length = zl.length) :
    ∃ t, s.updateDualStates E = some t ∧
      t.localDual d ptr = some (E.to_vector
        (se3UpdateSpec G s.config.eta_k (E.ofPointer (s.state.mem ptr))
          (E.ofVector zl) (E.ofVector zr))) ∧
      t.remoteDual d ptr = some zr ∧ t.state = s.state ∧
      t.all_estimating_params = s.all_estimating_params := by
  obtain ⟨t, ht, hloc, hrem, hstate, hreg, _⟩ :=
    s.updateDualStates_entry E hready d ptr zl zr param_info hl hr hp
  rw [s.updateDualState_eq E d ptr zl zr param_info hp hr] at hloc
  simp only [hse3, if_true] at hloc
  refine ⟨t, ht, ?_, hrem, hstate, hreg⟩
  rw [hloc, updateDualSE3_eq_spec E G hlib, storeHead_of_length _ _ hlen]

end DualUpdateClaims

section DualUpdateWitnesses

theorem Sample.pi_pos : (0 : ℚ) < Sample.externals.pi := by
  norm_num [Sample.externals]

theorem Sample.wrap_two : NormalizeAngle Sample.externals.pi 2 = 2 := by
  have h := NormalizeAngle_eq_sub Sample.externals.pi 2 0 Sample.pi_pos
    (by norm_num [Sample.externals]) (by norm_num [Sample.externals])
  simpa using h

theorem Sample.wrap_four :
    NormalizeAngle Sample.externals.pi 4 = 4 - 2 * Sample.externals.pi := by
  have h := NormalizeAngle_eq_sub Sample.externals.pi 4 1 Sample.pi_pos
    (by norm_num [Sample.externals]) (by norm_num [Sample.externals])
  simpa using h

theorem Sample.wrap_two_sub_pi :
    NormalizeAngle Sample.externals.pi (2 - Sample.externals.pi) = 2 - Sample.externals.pi := by
  have h := NormalizeAngle_eq_sub Sample.externals.pi (2 - Sample.externals.pi) 0
    Sample.pi_pos (by norm_num [Sample.externals]) (by norm_num [Sample.externals])
  simpa using h

theorem Sample.wrap_two_add_pi :
    NormalizeAngle Sample.externals.pi (2 + Sample.externals.pi) = 2 - Sample.externals.pi := by
  have h := NormalizeAngle_eq_sub Sample.externals.pi (2 + Sample.externals.pi) 1
    Sample.pi_pos (by norm_num [Sample.externals]) (by norm_num [Sample.externals])
  rw [h]
  ring

theorem Sample.solverEuclid_ready : Sample.solverEuclid.UpdateReady Sample.externals :=
  Sample.solverEuclid.updateReady_single Sample.externals 2 300 [3] [5] Sample.landmark
    rfl rfl rfl (fun _ => ⟨rfl, rfl, fun h => absurd h (by decide)⟩)

theorem Sample.solverYawOut_ready : Sample.solverYawOut.UpdateReady Sample.externals :=
  Sample.solverYawOut.updateReady_single Sample.externals 2 400 [0, 0, 0, 4] [0, 0, 0, 4]
    Sample.poseYaw rfl rfl rfl (fun _ => ⟨rfl, rfl, fun _ => by decide⟩)

theorem Sample.solverYawIn_ready : Sample.solverYawIn.UpdateReady Sample.externals :=
  Sample.solverYawIn.updateReady_single Sample.externals 2 400 [5, 0, 0, 1] [7, 0, 0, 3]
    Sample.poseYaw rfl rfl rfl (fun _ => ⟨rfl, rfl, fun _ => by decide⟩)

theorem Sample.solverSE3_ready : Sample.solverSE3.UpdateReady Sample.externals :=
  Sample.solverSE3.updateReady_single Sample.externals 2 200 [1, 2, 3, 0, 0, 0, 1]
    [3, 2, 3, 0, 0, 0, 1] Sample.poseRemote rfl rfl rfl (fun h => absurd h (by decide))

/-- Witness of C6: landmark with local dual 3, remote dual 5, primal 1/2 and
step 1/2; the new local dual is 3 - (1/2)·(4 - 1/2) = 5/4. -/
theorem updateDualStates_euclidean_witness :
    ∃ t out, Sample.solverEuclid.updateDualStates Sample.externals = some t ∧
      t.localDual 2 300 = some out ∧ out.length = 1 ∧ out[0]? = some (5 / 4) := by
  obtain ⟨t, out, ht, hloc, hlen, hcoeff⟩ :=
    updateDualStates_euclidean Sample.externals Sample.solverEuclid Sample.solverEuclid_ready
      2 300 [3] [5] Sample.landmark rfl rfl rfl (by decide) (by decide)
  refine ⟨t, out, ht, hloc, hlen, ?_⟩
  rw [hcoeff 0 3 5 rfl rfl]
  norm_num [Sample.solverEuclid, Sample.solver, Sample.state]

/-- C7 as stated fails: with step 1/2, primal yaw 0 and both dual yaws 4 the
code writes the yaw 2 (the average 4 is not wrapped, δ = wrap(2) = 2), while
the update the spec prescribes wraps the average to 4 - 2π and gives 2 - π. -/
theorem updateDualStates_yaw_spec_counterexample :
    ∃ t, Sample.solverYawOut.updateDualStates Sample.externals = some t ∧
      t.localDual 2 400 = some [0, 0, 0, 2] ∧
      yawUpdateSpec Sample.externals.pi Sample.solverYawOut.config.eta_k
        (Sample.solverYawOut.state.mapVector 400 4) [0, 0, 0, 4] [0, 0, 0, 4]
        = some [0, 0, 0, 2 - Sample.externals.pi] ∧
      ([0, 0, 0, 2] : List ℚ) ≠ [0, 0, 0, 2 - Sample.externals.pi] := by
  obtain ⟨t, ht, hloc, _⟩ :=
    Sample.solverYawOut.updateDualStates_entry Sample.externals Sample.solverYawOut_ready
      2 400 [0, 0, 0, 4] [0, 0, 0, 4] Sample.poseYaw rfl rfl rfl
  have hm : Sample.solverYawOut.state.mapVector 400 4 = [0, 0, 0, 0] := by decide
  have heta : Sample.solverYawOut.config.eta_k = 1 / 2 := rfl
  rw [Sample.solverYawOut.updateDualState_eq Sample.externals 2 400 [0, 0, 0, 4]
    [0, 0, 0, 4] Sample.poseYaw rfl rfl] at hloc
  have hse3 : Sample.externals.IsSE3 Sample.poseYaw.type = false := by decide
  have h4d : Sample.externals.IsPose4D Sample.poseYaw.type = true := by decide
  simp only [hse3, h4d, Bool.false_eq_true, if_false, if_true] at hloc
  have hsize : Sample.poseYaw.size = 4 := rfl
  rw [hsize, hm, heta] at hloc
  refine ⟨t, ht, ?_, ?_, ?_⟩
  · rw [hloc]
    simp [updateDualPose4D, zipSame, setYaw]
    norm_num [Sample.wrap_two]
  · rw [hm, heta]
    simp [yawUpdateSpec, zipSame, setYaw]
    rw [Sample.wrap_four]
    have e1 : (2 : ℚ)⁻¹ * (4 - 2 * Sample.externals.pi) = 2 - Sample.externals.pi := by ring
    have e2 : (4 : ℚ) - (2 - Sample.externals.pi) = 2 + Sample.externals.pi := by ring
    rw [e1, Sample.wrap_two_sub_pi, e2, Sample.wrap_two_add_pi]
  · norm_num [Sample.externals]

/-- Witness of C7 amended: dual yaws 1 and 3, both in (-π, π]; the code returns
the vector the spec prescribes. -/
theorem updateDualStates_yaw_pose_witness :
    ∃ t out, Sample.solverYawIn.updateDualStates Sample.externals = some t ∧
      t.localDual 2 400 = some out ∧
      yawUpdateSpec Sample.externals.pi Sample.solverYawIn.config.eta_k
        (Sample.solverYawIn.state.mapVector 400 Sample.poseYaw.size)
        [5, 0, 0, 1] [7, 0, 0, 3] = some out := by
  obtain ⟨t, out, ht, hloc, _, _, hyaw⟩ :=
    updateDualStates_yaw_pose Sample.externals Sample.solverYawIn Sample.solverYawIn_ready
      Sample.pi_pos 2 400 [5, 0, 0, 1] [7, 0, 0, 3] Sample.poseYaw rfl rfl rfl
      (by decide) (by decide)
  exact ⟨t, out, ht, hloc, (hyaw 1 3 rfl rfl).2 (by norm_num [Sample.externals])
    (by norm_num [Sample.externals]) (by norm_num [Sample.externals])
    (by norm_num [Sample.externals])⟩

/-- Witness of C8: even with both dual yaws at 4, outside the interval, the yaw
written lies in (-π, π]. -/
theorem updateDualStates_yaw_in_range_witness :
    ∃ t out yaw, Sample.solverYawOut.updateDualStates Sample.externals = some t ∧
      t.localDual 2 400 = some out ∧ out[3]? = some yaw ∧
      -Sample.externals.pi < yaw ∧ yaw ≤ Sample.externals.pi :=
  updateDualStates_yaw_in_range Sample.externals Sample.solverYawOut
    Sample.solverYawOut_ready Sample.pi_pos 2 400 [0, 0, 0, 4] [0, 0, 0, 4] Sample.poseYaw
    rfl rfl rfl (by decide) (by decide)

theorem Sample.externals_implements : Sample.externals.Implements Sample.poseGroup where
  mul_eq := fun _ _ => rfl
  averagePoses_eq := fun _ _ => rfl
  DeltaPose_eq := fun a b => by
    show List.zipWith (fun x y => y - x) a b
      = List.zipWith (fun x y => x + y) (a.map (fun x => -x)) b
    rw [List.zipWith_map_left]
    congr 1
    funext x y
    ring
  tangentSpace_eq := fun _ => rfl
  fromTangentSpace_eq := fun _ => rfl

theorem Sample.se3_update_value :
    Sample.externals.to_vector
      (se3UpdateSpec Sample.poseGroup Sample.solverSE3.config.eta_k
        (Sample.externals.ofPointer (Sample.solverSE3.state.mem 200))
        (Sample.externals.ofVector [1, 2, 3, 0, 0, 0, 1])
        (Sample.externals.ofVector [3, 2, 3, 0, 0, 0, 1]))
      = [1 / 2, 2, 3, 0, 0, 0, 1] := by
  have hx : Sample.externals.ofPointer (Sample.solverSE3.state.mem 200)
      = [1, 2, 3, 0, 0, 0, 1] := by decide
  have heta : Sample.solverSE3.config.eta_k = 1 / 2 := rfl
  rw [hx, heta]
  simp only [se3UpdateSpec, PoseGroup.boxMinus, Sample.poseGroup, Sample.externals,
    List.zipWith, List.map]
  norm_num

/-- Witness of C9 on the SE3 pose of frame 42 with the stand-in pose library:
local dual (1, 2, 3, ..), remote dual (3, 2, 3, ..), primal (1, 2, 3, ..) and
step 1/2. The average is (2, 2, 3, ..), its error relative to the primal is
(1, 0, 0, ..), and the new local dual is (1 - 1/2, 2, 3, ..); with the operands
of `DeltaPose` exchanged it would be (3/2, 2, 3, ..). -/
theorem updateDualStates_se3_witness :
    ∃ t, Sample.solverSE3.updateDualStates Sample.externals = some t ∧
      t.localDual 2 200 = some [1 / 2, 2, 3, 0, 0, 0, 1] ∧
      t.remoteDual 2 200 = some [3, 2, 3, 0, 0, 0, 1] ∧
      t.state = Sample.solverSE3.state ∧
      t.all_estimating_params = Sample.solverSE3.all_estimating_params := by
  obtain ⟨t, ht, hloc, hrest⟩ :=
    updateDualStates_se3 Sample.externals Sample.poseGroup Sample.externals_implements
      Sample.solverSE3 Sample.solverSE3_ready 2 200
      [1, 2, 3, 0, 0, 0, 1] [3, 2, 3, 0, 0, 0, 1] Sample.poseRemote rfl rfl rfl (by decide)
      (by rw [Sample.se3_update_value]; rfl)
  rw [Sample.se3_update_value] at hloc
  exact ⟨t, ht, hloc, hrest⟩

end DualUpdateWitnesses

/-! ## Round negotiation -/

section Negotiation

variable {K P : Type}

theorem wrapInt64_of_range (x : Int) (hlo : -2 ^ 63 ≤ x) (hhi : x < 2 ^ 63) :
    wrapInt64 x = x := by
  unfold wrapInt64
  omega

/-- Token after one signal: the token of the message for a start signal (or a
non-distributed claim of drone 1), the old token otherwise. -/
theorem D2Estimator.solve_token_onSyncSignal (e : D2Estimator K P) (drone_id : Int)
    (signal : SyncSignal) (token : Int) :
    (e.onSyncSignal drone_id signal token).solve_token =
      if signal = SyncSignal.DSolverStart ∨
          (signal = SyncSignal.DSolverNonDist ∧ drone_id = 1) then token
      else e.solve_token := by
  unfold D2Estimator.onSyncSignal
  by_cases h1 : signal = SyncSignal.DSolverReady ∨ signal = SyncSignal.DSolverNonDist <;>
  by_cases h2 : signal = SyncSignal.DSolverStart ∨
      (signal = SyncSignal.DSolverNonDist ∧ drone_id = 1) <;>
  simp only [h1, h2, if_true, if_false] <;>
  split <;> rfl

/-- Token bounds kept by the wait when the token of every delivered signal that
sets the token lies within them. -/
theorem D2Estimator.solve_token_waitForStart (e w : D2Estimator K P) (incoming : List SyncMsg)
    (lo hi : Int) (hw : e.waitForStart incoming = some w)
    (hmsgs : ∀ msg ∈ incoming,
      msg.2.1 = SyncSignal.DSolverStart ∨ (msg.2.1 = SyncSignal.DSolverNonDist ∧ msg.1 = 1) →
      lo ≤ msg.2.2 ∧ msg.2.2 ≤ hi)
    (he : lo ≤ e.solve_token ∧ e.solve_token ≤ hi) :
    lo ≤ w.solve_token ∧ w.solve_token ≤ hi := by
  induction incoming generalizing e with
  | nil =>
    unfold D2Estimator.waitForStart at hw
    by_cases hr : e.readyForStart = true
    · simp only [hr, if_true, Option.some.injEq] at hw
      subst hw
      exact he
    · simp [hr] at hw
  | cons msg rest ih =>
    unfold D2Estimator.waitForStart at hw
    by_cases hr : e.readyForStart = true
    · simp only [hr, if_true, Option.some.injEq] at hw
      subst hw
      exact he
    · simp only [hr, if_false] at hw
      refine ih _ hw (fun m hm => hmsgs m (List.mem_cons_of_mem _ hm)) ?_
      rw [D2Estimator.solve_token_onSyncSignal]
      split
      · next hset => exact hmsgs msg (List.mem_cons_self _ _) hset
      · exact he

/-- C10 as stated fails: drone 2 adopts token 7 from a start signal, and a later
start signal that carries token 5 lowers `solve_token` from 7 to 5. -/
theorem solve_token_monotone_counterexample :
    (Sample.estimator.onSyncSignal 1 SyncSignal.DSolverStart 7).solve_token = 7 ∧
    ((Sample.estimator.onSyncSignal 1 SyncSignal.DSolverStart 7).onSyncSignal 1
      SyncSignal.DSolverStart 5).solve_token = 5 := by
  constructor <;> simp [D2Estimator.solve_token_onSyncSignal]

/-- C10 amended. `onSyncSignal` sets `solve_token` to the token of a start signal
(or of a non-distributed claim of drone 1) without comparing it, and leaves it
unchanged for every other signal; so the token does not decrease when the
message token is not below it. A round of `solveinDistributedMode` that
returns does not decrease the token when no signal delivered during its wait
carries a token below it (tokens within the 64-bit range, below its maximum):
the round itself only adds 1, on the main agent. -/
theorem solve_token_monotone_of_fresh (e : D2Estimator K P) :
    (∀ (drone_id : Int) (signal : SyncSignal) (token : Int),
      (e.onSyncSignal drone_id signal token).solve_token =
        if signal = SyncSignal.DSolverStart ∨
            (signal = SyncSignal.DSolverNonDist ∧ drone_id = 1) then token
        else e.solve_token) ∧
    (∀ (drone_id : Int) (signal : SyncSignal) (token : Int), e.solve_token ≤ token →
      e.solve_token ≤ (e.onSyncSignal drone_id signal token).solve_token) ∧
    (∀ (incoming : List SyncMsg) (e' : D2Estimator K P),
      -2 ^ 63 ≤ e.solve_token → e.solve_token < 2 ^ 63 - 1 →
      (∀ msg ∈ incoming,
        msg.2.1 = SyncSignal.DSolverStart ∨
          (msg.2.1 = SyncSignal.DSolverNonDist ∧ msg.1 = 1) →
        e.solve_token ≤ msg.2.2 ∧ msg.2.2 < 2 ^ 63 - 1) →
      e.solveinDistributedMode incoming = some e' →
      e.solve_token ≤ e'.solve_token) := by
  refine ⟨e.solve_token_onSyncSignal, ?_, ?_⟩
  · intro drone_id signal token hle
    rw [e.solve_token_onSyncSignal]
    split
    · exact hle
    · exact le_refl _
  · intro incoming e' hlo hhi hmsgs hsolve
    unfold D2Estimator.solveinDistributedMode at hsolve
    cases hsize : e.state.size with
    | none => simp [hsize] at hsolve
    | some n =>
      simp only [hsize] at hsolve
      by_cases hearly : n < toSizeT e.params.min_solve_frames ∨ ¬ e.updated = true
      · simp only [hearly, if_true, Option.some.injEq] at hsolve
        subst hsolve
        exact le_refl _
      · simp only [hearly, if_false] at hsolve
        cases hsync : e.params.consensus_sync_to_start with
        | false =>
          simp only [hsync, Bool.false_eq_true, if_false, Option.some.injEq] at hsolve
          subst hsolve
          exact le_refl _
        | true =>
          simp only [hsync, if_true] at hsolve
          cases hwait : D2Estimator.waitForStart
              { e with updated := false, ready_drones := {e.self_id} } incoming with
          | none => simp [hwait] at hsolve
          | some w =>
            simp only [hwait, Option.some.injEq] at hsolve
            have hb := D2Estimator.solve_token_waitForStart _ w incoming e.solve_token
              (2 ^ 63 - 2) hwait (fun msg hm hset => ⟨(hmsgs msg hm hset).1, by
                have := (hmsgs msg hm hset).2
                omega⟩) ⟨le_refl _, by show e.solve_token ≤ 2 ^ 63 - 2; omega⟩
            subst hsolve
            cases hmain : w.isMain with
            | true =>
              simp only [hmain, if_true]
              rw [wrapInt64_of_range _ (by omega) (by omega)]
              omega
            | false =>
              simp only [hmain, Bool.false_eq_true, if_false]
              exact hb.1

/-- Witness of C10 amended: the main agent at token 7 receives, while it waits,
the ready signal of drone 2 and starts the round with token 8. -/
theorem solve_token_monotone_of_fresh_witness :
    ∃ e', Sample.estimatorMain.solveinDistributedMode [(2, SyncSignal.DSolverReady, -1)]
        = some e' ∧ e'.solve_token = 8 ∧
      Sample.estimatorMain.solve_token ≤ e'.solve_token :=
  ⟨_, rfl, by decide,
    (solve_token_monotone_of_fresh Sample.estimatorMain).2.2
      [(2, SyncSignal.DSolverReady, -1)] _ (by decide) (by decide)
      (fun msg hm hset => by
        rw [List.mem_singleton.mp hm] at hset
        exact absurd hset (by decide))
      rfl⟩

end Negotiation

/-! ## The methods of the solver keep the dual stores paired -/

section Pairing

variable {K P : Type} [LinearOrderedField K] [FloorRing K]

omit [LinearOrderedField K] [FloorRing K] in
theorem ARockSolver.reset_dualsPaired (base : ARockSolver K → ARockSolver K)
    (s : ARockSolver K) : (s.reset base).DualsPaired := by
  intro d ptr h
  simp [ARockSolver.reset, ARockSolver.remoteDual, StdMap.find] at h

omit [LinearOrderedField K] [FloorRing K] in
theorem ARockSolver.createDualState_dualsPaired (s : ARockSolver K) (p : ParamInfo) (d : Int)
    (hp : s.DualsPaired) : (s.createDualState p d).DualsPaired := by
  intro d' ptr hex
  rw [ARockSolver.remoteDual_createDualState] at hex
  rw [ARockSolver.localDual_createDualState]
  by_cases hnew : d' = d ∧ ptr = p.pointer
  · simp [hnew]
  · simp only [hnew, if_false] at hex ⊢
    have hcont : ¬ (d' = d ∧ StdMap.contains s.dual_states_remote d = false) := by
      rintro ⟨rfl, hc⟩
      unfold ARockSolver.remoteDual at hex
      unfold StdMap.contains at hc
      cases hm : StdMap.find s.dual_states_remote d' with
      | none => simp [hm] at hex
      | some m => simp [hm] at hc
    simp only [hcont, if_false]
    exact hp d' ptr hex

omit [LinearOrderedField K] [FloorRing K] in
theorem StdMap.mapValsM_find_isSome {κ ν μ : Type} [DecidableEq κ] (f : κ → ν → Option μ)
    (m : StdMap κ ν) (r : StdMap κ μ) (h : StdMap.mapValsM f m = some r) (k : κ)
    (hk : (StdMap.find m k).isSome) : (StdMap.find r k).isSome := by
  induction m generalizing r with
  | nil => simp [StdMap.find] at hk
  | cons hd tl ih =>
    obtain ⟨k', v'⟩ := hd
    simp only [StdMap.mapValsM] at h
    cases hf : f k' v' with
    | none => simp [hf] at h
    | some w =>
      cases ht : StdMap.mapValsM f tl with
      | none => simp [hf, ht] at h
      | some r' =>
        simp only [hf, ht, Option.some.injEq] at h
        subst h
        by_cases hkk : k' = k
        · simp [StdMap.find, hkk]
        · simp only [StdMap.find, hkk, if_false] at hk ⊢
          exact ih r' ht hk

theorem ARockSolver.updateDualStates_dualsPaired (E : Externals K P) (s t : ARockSolver K)
    (h : s.updateDualStates E = some t) (hp : s.DualsPaired) : t.DualsPaired := by
  intro d ptr hex
  obtain ⟨_, hrem, _⟩ := s.updateDualStates_spec E t h
  have hex' : (s.remoteDual d ptr).isSome := by
    unfold ARockSolver.remoteDual at hex ⊢
    rw [hrem] at hex
    exact hex
  have hloc := hp d ptr hex'
  unfold ARockSolver.updateDualStates at h
  cases hm : StdMap.mapValsM (fun remote_drone_id duals =>
      StdMap.mapValsM (fun state_pointer dual_state_local =>
        s.updateDualState E remote_drone_id state_pointer dual_state_local) duals)
      s.dual_states_local with
  | none => simp [hm] at h
  | some duals =>
    simp only [hm, Option.some.injEq] at h
    subst h
    unfold ARockSolver.localDual at hloc ⊢
    simp only
    cases hd : StdMap.find s.dual_states_local d with
    | none => simp [hd] at hloc
    | some inner =>
      simp only [hd, Option.some_bind] at hloc
      have hfind := StdMap.find_mapValsM _ _ _ hm d
      rw [hd] at hfind
      simp only [Option.some_bind] at hfind
      cases hi : StdMap.mapValsM (fun state_pointer dual_state_local =>
          s.updateDualState E d state_pointer dual_state_local) inner with
      | none =>
        rw [hi] at hfind
        have hsome := StdMap.mapValsM_find_isSome _ _ _ hm d (by simp [hd])
        rw [hfind] at hsome
        simp at hsome
      | some inner' =>
        rw [hi] at hfind
        rw [hfind]
        simp only [Option.some_bind]
        exact StdMap.mapValsM_find_isSome _ _ _ hi ptr hloc

end Pairing

/-! ## Signals, tokens and readiness -/

section Signals

variable {K P : Type}

theorem D2Estimator.self_id_onSyncSignal (e : D2Estimator K P) (drone_id : Int)
    (signal : SyncSignal) (token : Int) :
    (e.onSyncSignal drone_id signal token).self_id = e.self_id ∧
    (e.onSyncSignal drone_id signal token).state = e.state := by
  unfold D2Estimator.onSyncSignal
  by_cases h1 : signal = SyncSignal.DSolverReady ∨ signal = SyncSignal.DSolverNonDist <;>
  by_cases h2 : signal = SyncSignal.DSolverStart ∨
      (signal = SyncSignal.DSolverNonDist ∧ drone_id = 1) <;>
  simp only [h1, h2, if_true, if_false] <;>
  split <;> exact ⟨rfl, rfl⟩

/-- Readiness set after one signal: the token plays no part. -/
theorem D2Estimator.ready_drones_onSyncSignal (e : D2Estimator K P) (drone_id : Int)
    (signal : SyncSignal) (token : Int) :
    (e.onSyncSignal drone_id signal token).ready_drones =
      if signal = SyncSignal.DSolverReady ∨ signal = SyncSignal.DSolverNonDist then
        insert drone_id e.ready_drones
      else e.ready_drones := by
  unfold D2Estimator.onSyncSignal
  by_cases h1 : signal = SyncSignal.DSolverReady ∨ signal = SyncSignal.DSolverNonDist <;>
  by_cases h2 : signal = SyncSignal.DSolverStart ∨
      (signal = SyncSignal.DSolverNonDist ∧ drone_id = 1) <;>
  simp only [h1, h2, if_true, if_false] <;>
  split <;> rfl

/-- Start flag after one signal: the token plays no part. -/
theorem D2Estimator.ready_to_start_onSyncSignal (e : D2Estimator K P) (drone_id : Int)
    (signal : SyncSignal) (token : Int) :
    (e.onSyncSignal drone_id signal token).ready_to_start = true ↔
      (signal = SyncSignal.DSolverStart ∨
        (signal = SyncSignal.DSolverNonDist ∧ drone_id = 1)) ∨
      (e.isMain = true ∧
        (e.onSyncSignal drone_id signal token).ready_drones.card
          = e.state.availableDrones.card) ∨
      e.ready_to_start = true := by
  rw [e.ready_drones_onSyncSignal]
  unfold D2Estimator.onSyncSignal
  by_cases h1 : signal = SyncSignal.DSolverReady ∨ signal = SyncSignal.DSolverNonDist <;>
  by_cases h2 : signal = SyncSignal.DSolverStart ∨
      (signal = SyncSignal.DSolverNonDist ∧ drone_id = 1) <;>
  simp only [h1, h2, if_true, if_false, D2Estimator.isMain] <;>
  split <;> simp_all

end Signals

section NegotiationClaims

variable {K P : Type}

/-- C11 as stated fails: drone 2 at token 7 receives signals tagged with token 5;
the ready signal still adds its sender to `ready_drones`, and the start signal
still sets `ready_to_start` and lowers `solve_token` to 5. -/
theorem stale_signal_counterexample :
    (5 : Int) < Sample.estimatorAt7.solve_token ∧
    Sample.estimatorAt7.ready_drones = ∅ ∧
    (Sample.estimatorAt7.onSyncSignal 1 SyncSignal.DSolverReady 5).ready_drones = {1} ∧
    Sample.estimatorAt7.ready_to_start = false ∧
    (Sample.estimatorAt7.onSyncSignal 1 SyncSignal.DSolverStart 5).ready_to_start = true ∧
    (Sample.estimatorAt7.onSyncSignal 1 SyncSignal.DSolverStart 5).solve_token = 5 := by
  refine ⟨by decide, rfl, ?_, rfl, ?_, ?_⟩
  · rw [D2Estimator.ready_drones_onSyncSignal]
    decide
  · rw [D2Estimator.ready_to_start_onSyncSignal]
    exact Or.inl (Or.inl rfl)
  · rw [D2Estimator.solve_token_onSyncSignal]
    decide

/-- C11 amended. `onSyncSignal` never compares the token of a message with
`solve_token`: whatever the token, a ready signal and a non-distributed claim
add the sender to `ready_drones`, a start signal (and a non-distributed claim
of drone 1) sets `ready_to_start` and stores the token, and the main agent
sets `ready_to_start` when `ready_drones` is as large as the set of available
drones. The readiness set and the start flag are the same for every token. -/
theorem onSyncSignal_ignores_token_age (e : D2Estimator K P) (drone_id : Int)
    (signal : SyncSignal) (token : Int) :
    (e.onSyncSignal drone_id signal token).ready_drones =
      (if signal = SyncSignal.DSolverReady ∨ signal = SyncSignal.DSolverNonDist then
        insert drone_id e.ready_drones
      else e.ready_drones) ∧
    ((e.onSyncSignal drone_id signal token).ready_to_start = true ↔
      (signal = SyncSignal.DSolverStart ∨
        (signal = SyncSignal.DSolverNonDist ∧ drone_id = 1)) ∨
      (e.isMain = true ∧
        (e.onSyncSignal drone_id signal token).ready_drones.card
          = e.state.availableDrones.card) ∨
      e.ready_to_start = true) ∧
    (e.onSyncSignal drone_id signal token).solve_token =
      (if signal = SyncSignal.DSolverStart ∨
          (signal = SyncSignal.DSolverNonDist ∧ drone_id = 1) then token
      else e.solve_token) ∧
    ∀ other : Int,
      (e.onSyncSignal drone_id signal other).ready_drones =
        (e.onSyncSignal drone_id signal token).ready_drones ∧
      (e.onSyncSignal drone_id signal other).ready_to_start =
        (e.onSyncSignal drone_id signal token).ready_to_start := by
  refine ⟨e.ready_drones_onSyncSignal drone_id signal token,
    e.ready_to_start_onSyncSignal drone_id signal token,
    e.solve_token_onSyncSignal drone_id signal token, ?_⟩
  intro other
  have hd : (e.onSyncSignal drone_id signal other).ready_drones =
      (e.onSyncSignal drone_id signal token).ready_drones := by
    rw [e.ready_drones_onSyncSignal, e.ready_drones_onSyncSignal]
  refine ⟨hd, ?_⟩
  have h1 := e.ready_to_start_onSyncSignal drone_id signal other
  have h2 := e.ready_to_start_onSyncSignal drone_id signal token
  rw [hd] at h1
  have hiff : (e.onSyncSignal drone_id signal other).ready_to_start = true ↔
      (e.onSyncSignal drone_id signal token).ready_to_start = true := h1.trans h2.symm
  cases ha : (e.onSyncSignal drone_id signal other).ready_to_start <;>
  cases hb : (e.onSyncSignal drone_id signal token).ready_to_start <;>
  simp_all

/-- C12 as stated fails: among the drones 2 and 3, drone 2 has the lowest id and
`isMain` is false for it. -/
theorem isMain_lowest_id_counterexample :
    Sample.estimatorLowest.self_id ∈ Sample.estimatorLowest.state.availableDrones ∧
    (∀ d ∈ Sample.estimatorLowest.state.availableDrones, Sample.estimatorLowest.self_id ≤ d) ∧
    Sample.estimatorLowest.isMain = false := by
  decide

/-- C12 amended. `isMain` is true exactly for the agent whose id is 1, whatever
the available drones are; it is the agent of lowest id whenever 1 is the
lowest id among the available drones. -/
theorem isMain_iff_id_one (e : D2Estimator K P) :
    (e.isMain = true ↔ e.self_id = 1) ∧
    ((1 : Int) ∈ e.state.availableDrones → (∀ d ∈ e.state.availableDrones, (1 : Int) ≤ d) →
      e.self_id ∈ e.state.availableDrones →
      (e.isMain = true ↔ ∀ d ∈ e.state.availableDrones, e.self_id ≤ d)) := by
  have hmain : e.isMain = true ↔ e.self_id = 1 := by simp [D2Estimator.isMain]
  refine ⟨hmain, ?_⟩
  intro h1 hmin hself
  rw [hmain]
  constructor
  · intro h d hd
    rw [h]
    exact hmin d hd
  · intro h
    exact le_antisymm (h 1 h1) (hmin _ hself)

/-- Witness of C12 amended: in the swarm of drones 1 and 2, drone 1 is main and
has the lowest id. -/
theorem isMain_iff_id_one_witness :
    Sample.estimatorMain.isMain = true ↔
      ∀ d ∈ Sample.estimatorMain.state.availableDrones, Sample.estimatorMain.self_id ≤ d :=
  (isMain_iff_id_one Sample.estimatorMain).2 (by decide) (by decide) (by decide)

end NegotiationClaims

section ReadinessClaims

variable {K P : Type}

theorem D2Estimator.readyForStart_iff (e : D2Estimator K P)
    (hmany : e.state.availableDrones.card ≠ 1) :
    e.readyForStart = true ↔ e.ready_to_start = true := by
  simp [D2Estimator.readyForStart, hmany]

/-- Readiness of a non-main agent that knows several drones after one signal. -/
theorem D2Estimator.readyForStart_onSyncSignal (e : D2Estimator K P)
    (hnot : e.isMain = false) (hmany : e.state.availableDrones.card ≠ 1)
    (drone_id : Int) (signal : SyncSignal) (token : Int) :
    (e.onSyncSignal drone_id signal token).readyForStart = true ↔
      (signal = SyncSignal.DSolverStart ∨
        (signal = SyncSignal.DSolverNonDist ∧ drone_id = 1)) ∨
      e.ready_to_start = true := by
  have hstate := (e.self_id_onSyncSignal drone_id signal token).2
  rw [D2Estimator.readyForStart_iff _ (by rw [hstate]; exact hmany),
    e.ready_to_start_onSyncSignal]
  simp [hnot]

/-- C13 as stated fails: drone 2, not main, at token 7 and not ready, becomes
ready on a start signal with the older token 5, and also on a
non-distributed claim of drone 1. -/
theorem readyForStart_newer_start_counterexample :
    Sample.estimatorAt7.isMain = false ∧
    Sample.estimatorAt7.state.availableDrones.card = 2 ∧
    Sample.estimatorAt7.readyForStart = false ∧
    (5 : Int) < Sample.estimatorAt7.solve_token ∧
    (Sample.estimatorAt7.onSyncSignal 1 SyncSignal.DSolverStart 5).readyForStart = true ∧
    (Sample.estimatorAt7.onSyncSignal 1 SyncSignal.DSolverNonDist 8).readyForStart = true := by
  refine ⟨by decide, by decide, by decide, by decide, ?_, ?_⟩
  · rw [D2Estimator.readyForStart_onSyncSignal _ (by decide) (by decide)]
    exact Or.inl (Or.inl rfl)
  · rw [D2Estimator.readyForStart_onSyncSignal _ (by decide) (by decide)]
    exact Or.inl (Or.inr ⟨rfl, rfl⟩)

/-- C13 amended. For an agent that is not main, knows more than one drone and
has `ready_to_start` false, one signal makes `readyForStart` true exactly
when it is a start signal, with any token, or a non-distributed claim of
drone 1; and after any sequence of signals `readyForStart` is true only if
the sequence holds such a signal. No ready signal, no non-distributed claim
of another drone and no unrecognised signal makes it true. -/
theorem readyForStart_only_on_start (e : D2Estimator K P)
    (hnot : e.isMain = false) (hmany : e.state.availableDrones.card ≠ 1)
    (hidle : e.ready_to_start = false) :
    (∀ (drone_id : Int) (signal : SyncSignal) (token : Int),
      (e.onSyncSignal drone_id signal token).readyForStart = true ↔
        (signal = SyncSignal.DSolverStart ∨
          (signal = SyncSignal.DSolverNonDist ∧ drone_id = 1))) ∧
    (∀ msgs : List SyncMsg, (e.deliver msgs).readyForStart = true →
      ∃ msg ∈ msgs, msg.2.1 = SyncSignal.DSolverStart ∨
        (msg.2.1 = SyncSignal.DSolverNonDist ∧ msg.1 = 1)) := by
  constructor
  · intro drone_id signal token
    rw [e.readyForStart_onSyncSignal hnot hmany]
    simp [hidle]
  · intro msgs
    induction msgs generalizing e with
    | nil =>
      intro h
      rw [D2Estimator.deliver, D2Estimator.readyForStart_iff _ hmany, hidle] at h
      exact absurd h (by simp)
    | cons msg rest ih =>
      intro h
      by_cases hset : msg.2.1 = SyncSignal.DSolverStart ∨
          (msg.2.1 = SyncSignal.DSolverNonDist ∧ msg.1 = 1)
      · exact ⟨msg, List.mem_cons_self _ _, hset⟩
      · have hfr := e.self_id_onSyncSignal msg.1 msg.2.1 msg.2.2
        have hnot' : (e.onSyncSignal msg.1 msg.2.1 msg.2.2).isMain = false := by
          unfold D2Estimator.isMain at hnot ⊢
          rw [hfr.1]
          exact hnot
        have hmany' : (e.onSyncSignal msg.1 msg.2.1 msg.2.2).state.availableDrones.card ≠ 1 := by
          rw [hfr.2]
          exact hmany
        have hidle' : (e.onSyncSignal msg.1 msg.2.1 msg.2.2).ready_to_start = false := by
          cases hv : (e.onSyncSignal msg.1 msg.2.1 msg.2.2).ready_to_start with
          | false => rfl
          | true =>
            have := (e.ready_to_start_onSyncSignal msg.1 msg.2.1 msg.2.2).mp hv
            simp [hset, hnot, hidle] at this
        obtain ⟨m, hm, hm'⟩ := ih _ hnot' hmany' hidle' h
        exact ⟨m, List.mem_cons_of_mem _ hm, hm'⟩

/-- Witness of C13 amended: drone 2 stays idle on the ready signal of drone 1
and becomes ready on the start signal that follows. -/
theorem readyForStart_only_on_start_witness :
    (Sample.estimator.onSyncSignal 1 SyncSignal.DSolverReady (-1)).readyForStart = false ∧
    (Sample.estimator.onSyncSignal 1 SyncSignal.DSolverStart 1).readyForStart = true := by
  have h := (readyForStart_only_on_start Sample.estimator (by decide) (by decide)
    (by decide)).1
  constructor
  · cases hv : (Sample.estimator.onSyncSignal 1 SyncSignal.DSolverReady (-1)).readyForStart with
    | false => rfl
    | true => exact absurd ((h 1 SyncSignal.DSolverReady (-1)).mp hv) (by decide)
  · exact (h 1 SyncSignal.DSolverStart 1).mpr (Or.inl rfl)

/-- C14, the code at the failing input: the main agent of the swarm of drones 1
and 2, with `ready_drones = {1}` and `ready_to_start` false, receives the
ready signal of drone 3, which it does not know. The two sets then have the
same size and `ready_to_start` is set, although drone 2 has not signalled. -/
theorem main_ready_by_size_failing_input :
    Sample.estimatorMainIdle.isMain = true ∧
    Sample.estimatorMainIdle.ready_drones = {1} ∧
    Sample.estimatorMainIdle.ready_to_start = false ∧
    (Sample.estimatorMainIdle.onSyncSignal 3 SyncSignal.DSolverReady (-1)).ready_to_start
      = true ∧
    (2 : Int) ∈ Sample.estimatorMainIdle.state.availableDrones ∧
    (2 : Int) ∉ (Sample.estimatorMainIdle.onSyncSignal 3 SyncSignal.DSolverReady
      (-1)).ready_drones := by
  refine ⟨by decide, rfl, rfl, ?_, by decide, ?_⟩
  · rw [D2Estimator.ready_to_start_onSyncSignal, D2Estimator.ready_drones_onSyncSignal]
    exact Or.inr (Or.inl (by decide))
  · rw [D2Estimator.ready_drones_onSyncSignal]
    decide

/-- When every sender of a ready signal is an available drone, the size test of
the main agent is the membership test: `ready_to_start` is set by a ready
signal only if every available drone is in `ready_drones`. -/
theorem D2Estimator.main_ready_of_known_senders (e : D2Estimator K P)
    (hidle : e.ready_to_start = false) (hsub : e.ready_drones ⊆ e.state.availableDrones)
    (drone_id : Int) (hknown : drone_id ∈ e.state.availableDrones) (token : Int)
    (hset : (e.onSyncSignal drone_id SyncSignal.DSolverReady token).ready_to_start = true) :
    ∀ d ∈ e.state.availableDrones,
      d ∈ (e.onSyncSignal drone_id SyncSignal.DSolverReady token).ready_drones := by
  have h := (e.ready_to_start_onSyncSignal drone_id SyncSignal.DSolverReady token).mp hset
  simp only [hidle, Bool.false_eq_true, or_false, false_or, reduceCtorEq, false_and] at h
  have hsub' : (e.onSyncSignal drone_id SyncSignal.DSolverReady token).ready_drones ⊆
      e.state.availableDrones := by
    rw [e.ready_drones_onSyncSignal]
    simp only [true_or, if_true]
    exact Finset.insert_subset hknown hsub
  have heq := Finset.eq_of_subset_of_card_le hsub' (le_of_eq h.2.symm)
  intro d hd
  rw [heq]
  exact hd

end ReadinessClaims

/-! ## The outer loop of the solver -/

section SolveLemmas

variable {K P : Type} [LinearOrderedField K] [FloorRing K]

omit [LinearOrderedField K] [FloorRing K] in
theorem ARockSolver.createDualState_keeps (s : ARockSolver K) (p : ParamInfo) (d : Int) :
    (s.createDualState p d).config = s.config ∧
    (s.createDualState p d).problem = s.problem ∧
    (s.createDualState p d).all_estimating_params = s.all_estimating_params ∧
    (s.createDualState p d).rho_T = s.rho_T ∧ (s.createDualState p d).rho_theta = s.rho_theta ∧
    (s.createDualState p d).rho_landmark = s.rho_landmark := by
  unfold ARockSolver.createDualState
  by_cases h : StdMap.contains s.dual_states_remote d = true <;> simp [h]

omit [LinearOrderedField K] [FloorRing K] in
theorem ARockSolver.scanParams_keeps_config (s t : ARockSolver K) (ps : List ParamInfo)
    (h : s.scanParams ps = some t) :
    t.config = s.config ∧ t.problem = s.problem ∧
    t.all_estimating_params = s.all_estimating_params ∧
    t.rho_T = s.rho_T ∧ t.rho_theta = s.rho_theta ∧ t.rho_landmark = s.rho_landmark := by
  induction ps generalizing s with
  | nil =>
    simp only [ARockSolver.scanParams, Option.some.injEq] at h
    subst h
    exact ⟨rfl, rfl, rfl, rfl, rfl, rfl⟩
  | cons p rest ih =>
    simp only [ARockSolver.scanParams] at h
    cases h1 : s.scanParam p with
    | none => simp [h1] at h
    | some s1 =>
      simp only [h1] at h
      have hr := ih s1 h
      rcases s.scanParam_cases s1 p h1 with ⟨rfl, _⟩ | ⟨d, _, _, _, rfl⟩
      · exact hr
      · have hk := s.createDualState_keeps p d
        exact ⟨hr.1.trans hk.1, hr.2.1.trans hk.2.1, hr.2.2.1.trans hk.2.2.1,
          hr.2.2.2.1.trans hk.2.2.2.1, hr.2.2.2.2.1.trans hk.2.2.2.2.1,
          hr.2.2.2.2.2.trans hk.2.2.2.2.2⟩

omit [LinearOrderedField K] [FloorRing K] in
theorem ARockSolver.scanAndCreateDualStates_keeps_config (s t : ARockSolver K)
    (h : s.scanAndCreateDualStates = some t) :
    t.config = s.config ∧ t.problem = s.problem ∧
    t.all_estimating_params = s.all_estimating_params ∧
    t.rho_T = s.rho_T ∧ t.rho_theta = s.rho_theta ∧ t.rho_landmark = s.rho_landmark := by
  rw [ARockSolver.scanAndCreateDualStates, ARockSolver.scanResiduals_eq] at h
  exact s.scanParams_keeps_config t _ h

omit [FloorRing K] in
theorem ARockSolver.setDualStateFactors_config (E : Externals K P) (s t : ARockSolver K)
    (h : s.setDualStateFactors E = some t) :
    t.config = s.config ∧ t.dual_states_local = s.dual_states_local ∧
    t.dual_states_remote = s.dual_states_remote ∧ t.state = s.state ∧
    t.all_estimating_params = s.all_estimating_params ∧ t.residuals = s.residuals := by
  unfold ARockSolver.setDualStateFactors at h
  cases hp : s.problem with
  | none => simp [hp] at h
  | some problem =>
    simp only [hp] at h
    cases ha : s.addFactorsAll E s.dual_states_remote problem with
    | none => simp [ha] at h
    | some problem1 =>
      simp only [ha, Option.some.injEq] at h
      subst h
      exact ⟨rfl, rfl, rfl, rfl, rfl, rfl⟩

omit [LinearOrderedField K] [FloorRing K] in
theorem ARockSolver.solveLocalStep_config (env : SolveEnv K) (s t : ARockSolver K)
    (summary : Summary K) (h : s.solveLocalStep env = some (t, summary)) :
    t.config = s.config ∧ t.dual_states_local = s.dual_states_local ∧
    t.dual_states_remote = s.dual_states_remote ∧ t.updated = false := by
  unfold ARockSolver.solveLocalStep at h
  cases hp : s.problem with
  | none => simp [hp] at h
  | some problem =>
    simp only [hp, Option.some.injEq, Prod.mk.injEq] at h
    obtain ⟨rfl, _⟩ := h
    exact ⟨rfl, rfl, rfl, rfl⟩

theorem wrapInt32_of_range (x : Int) (h1 : -2147483648 ≤ x) (h2 : x < 2147483648) :
    wrapInt32 x = x := by
  unfold wrapInt32
  omega

theorem wrapInt32_range (x : Int) : -2147483648 ≤ wrapInt32 x ∧ wrapInt32 x < 2147483648 := by
  unfold wrapInt32
  omega

/-- The shapes of one pass of the loop: an empty round that bails out, an empty
round that goes on, a full step, or an exception before the inner solve or in
`updateDualStates`. The configuration is never changed. -/
theorem ARockSolver.solvePass_cases (E : Externals K P) (env : SolveEnv K) (s : ARockSolver K)
    (n : Nat) (iter_cnt total_cnt : Int) (report : SolverReport K) :
    (s.solvePass E env n iter_cnt total_cnt report
        = PassResult.halt (s.receiveAll env n) [SolveEvent.skipped] ∧
      (s.receiveAll env n).updated = false ∧
      wrapInt32 (total_cnt + 1) > wrapInt32 (s.config.max_wait_steps + s.config.max_steps)) ∨
    (s.solvePass E env n iter_cnt total_cnt report
        = PassResult.next (s.receiveAll env n) iter_cnt (wrapInt32 (total_cnt + 1)) report
          [SolveEvent.skipped] ∧
      (s.receiveAll env n).updated = false ∧
      wrapInt32 (total_cnt + 1) ≤ wrapInt32 (s.config.max_wait_steps + s.config.max_steps)) ∨
    (∃ s1 report1 problem summary, s.solvePass E env n iter_cnt total_cnt report
        = PassResult.next s1 (iter_cnt + 1) (wrapInt32 (total_cnt + 1)) report1
          [SolveEvent.localStep problem summary, SolveEvent.updateDualStates,
            SolveEvent.broadcastData] ∧
      s1.config = s.config ∧ (s.receiveAll env n).updated = true) ∨
    (∃ s1, s.solvePass E env n iter_cnt total_cnt report = PassResult.threw s1 [] ∧
      (s.receiveAll env n).updated = true) ∨
    (∃ s1 problem summary, s.solvePass E env n iter_cnt total_cnt report
        = PassResult.threw s1 [SolveEvent.localStep problem summary,
          SolveEvent.updateDualStates] ∧
      (s.receiveAll env n).updated = true) := by
  unfold ARockSolver.solvePass
  have hcfg : (s.receiveAll env n).config = s.config := rfl
  cases hu : (s.receiveAll env n).updated with
  | false =>
    simp only [hu, Bool.false_eq_true, not_false_eq_true, if_true, hcfg]
    by_cases hb : wrapInt32 (total_cnt + 1)
        > wrapInt32 (s.config.max_wait_steps + s.config.max_steps)
    · exact Or.inl ⟨by simp [hb], trivial, hb⟩
    · exact Or.inr (Or.inl ⟨by simp [hb], trivial, by omega⟩)
  | true =>
    simp only [hu, not_true_eq_false, if_false]
    right; right
    split
    · exact Or.inr (Or.inl ⟨_, rfl, trivial⟩)
    · next s3 h3 =>
      split
      · exact Or.inr (Or.inl ⟨_, rfl, trivial⟩)
      · next s4 h4 =>
        split
        · exact Or.inr (Or.inl ⟨_, rfl, trivial⟩)
        · next s6 summary h6 =>
          split
          · exact Or.inr (Or.inr ⟨_, _, _, rfl, trivial⟩)
          · next s7 h7 =>
            refine Or.inl ⟨_, _, _, _, rfl, ?_, trivial⟩
            have c3 := (ARockSolver.scanAndCreateDualStates_keeps_config _ s3 h3).1
            have c4 := (ARockSolver.setDualStateFactors_config E s3 s4 h4).1
            have c6 := (ARockSolver.solveLocalStep_config env _ s6 summary h6).1
            have c7 := (ARockSolver.updateDualStates_spec E s6 s7 h7).2.2.2.2.2.1
            exact c7.trans (c6.trans (c4.trans c3))

/-- The shapes of one pass when the `int` counters cannot overflow: inside the
loop, with `0 <= total_cnt <= max_wait_steps + max_steps + iter_cnt` and
`2·max_steps + max_wait_steps <= INT_MAX`, the increment of `total_cnt` and
the sum of the two options are exact. -/
theorem ARockSolver.solvePass_cases_fit (E : Externals K P) (env : SolveEnv K)
    (s : ARockSolver K) (n : Nat) (iter_cnt total_cnt : Int) (report : SolverReport K)
    (hwait : 0 ≤ s.config.max_wait_steps)
    (hfit : 2 * s.config.max_steps + s.config.max_wait_steps < 2147483648)
    (hg : iter_cnt < s.config.max_steps) (hiter : 0 ≤ iter_cnt) (htotal : 0 ≤ total_cnt)
    (hinv : total_cnt ≤ s.config.max_wait_steps + s.config.max_steps + iter_cnt) :
    (s.solvePass E env n iter_cnt total_cnt report
        = PassResult.halt (s.receiveAll env n) [SolveEvent.skipped] ∧
      (s.receiveAll env n).updated = false ∧
      total_cnt + 1 > s.config.max_wait_steps + s.config.max_steps) ∨
    (s.solvePass E env n iter_cnt total_cnt report
        = PassResult.next (s.receiveAll env n) iter_cnt (total_cnt + 1) report
          [SolveEvent.skipped] ∧
      (s.receiveAll env n).updated = false ∧
      total_cnt + 1 ≤ s.config.max_wait_steps + s.config.max_steps) ∨
    (∃ s1 report1 problem summary, s.solvePass E env n iter_cnt total_cnt report
        = PassResult.next s1 (iter_cnt + 1) (total_cnt + 1) report1
          [SolveEvent.localStep problem summary, SolveEvent.updateDualStates,
            SolveEvent.broadcastData] ∧
      s1.config = s.config ∧ (s.receiveAll env n).updated = true) ∨
    (∃ s1, s.solvePass E env n iter_cnt total_cnt report = PassResult.threw s1 [] ∧
      (s.receiveAll env n).updated = true) ∨
    (∃ s1 problem summary, s.solvePass E env n iter_cnt total_cnt report
        = PassResult.threw s1 [SolveEvent.localStep problem summary,
          SolveEvent.updateDualStates] ∧
      (s.receiveAll env n).updated = true) := by
  have hw1 : wrapInt32 (total_cnt + 1) = total_cnt + 1 :=
    wrapInt32_of_range _ (by omega) (by omega)
  have hw2 : wrapInt32 (s.config.max_wait_steps + s.config.max_steps)
      = s.config.max_wait_steps + s.config.max_steps :=
    wrapInt32_of_range _ (by omega) (by omega)
  have h := s.solvePass_cases E env n iter_cnt total_cnt report
  rw [hw1, hw2] at h
  exact h

omit [LinearOrderedField K] [FloorRing K] in
theorem ARockSolver.receiveAll_inert (env : SolveEnv K)
    (hinert : ∀ n t, (env.receiveAll n t).dual_states_local = t.dual_states_local ∧
      (env.receiveAll n t).dual_states_remote = t.dual_states_remote ∧
      (env.receiveAll n t).updated = t.updated) (n : Nat) (s : ARockSolver K) :
    s.receiveAll env n = s := by
  unfold ARockSolver.receiveAll
  rw [(hinert n s).1, (hinert n s).2.1, (hinert n s).2.2]

/-- Without new data and with `max_wait_steps + max_steps` equal to `INT_MAX`
no empty round bails out, because no `int` exceeds `INT_MAX`: the loop makes
an empty round in every pass granted to it. -/
theorem ARockSolver.solveLoop_stuck (E : Externals K P) (env : SolveEnv K)
    (hinert : ∀ n t, (env.receiveAll n t).dual_states_local = t.dual_states_local ∧
      (env.receiveAll n t).dual_states_remote = t.dual_states_remote ∧
      (env.receiveAll n t).updated = t.updated)
    (t : ARockSolver K) (ht : t.updated = false) (iter_cnt : Int)
    (hg : iter_cnt < t.config.max_steps)
    (hsum : wrapInt32 (t.config.max_wait_steps + t.config.max_steps) = 2147483647)
    (fuel n : Nat) (total_cnt : Int) (report : SolverReport K) :
    t.solveLoop E env fuel n iter_cnt total_cnt report =
      { status := SolveStatus.outOfFuel, solver := t, report := report,
        trace := List.replicate fuel SolveEvent.skipped } ∧
    t.loopPasses E env fuel n iter_cnt total_cnt report = fuel := by
  induction fuel generalizing n total_cnt with
  | zero =>
    unfold ARockSolver.solveLoop ARockSolver.loopPasses
    simp [hg]
  | succ fuel ih =>
    have hpass : t.solvePass E env n iter_cnt total_cnt report =
        PassResult.next t iter_cnt (wrapInt32 (total_cnt + 1)) report [SolveEvent.skipped] := by
      unfold ARockSolver.solvePass
      rw [ARockSolver.receiveAll_inert env hinert]
      have hr := (wrapInt32_range (total_cnt + 1)).2
      have hb : ¬ wrapInt32 (total_cnt + 1) > 2147483647 := by omega
      simp [ht, hsum, hb]
    obtain ⟨h1, h2⟩ := ih (n + 1) (wrapInt32 (total_cnt + 1))
    unfold ARockSolver.solveLoop ARockSolver.loopPasses
    simp only [hg, if_true, hpass, h1, h2]
    exact ⟨by simp [List.replicate], trivial⟩

end SolveLemmas

section SolveCounts

variable {K P : Type} [LinearOrderedField K] [FloorRing K]

omit [LinearOrderedField K] [FloorRing K] in
theorem countLocalSteps_append (a b : List (SolveEvent K)) :
    countLocalSteps (a ++ b) = countLocalSteps a + countLocalSteps b := by
  induction a with
  | nil => simp [countLocalSteps]
  | cons ev rest ih =>
    cases ev <;> simp [countLocalSteps, ih]
    omega

omit [LinearOrderedField K] [FloorRing K] in
theorem countSkipped_append (a b : List (SolveEvent K)) :
    countSkipped (a ++ b) = countSkipped a + countSkipped b := by
  induction a with
  | nil => simp [countSkipped]
  | cons ev rest ih =>
    cases ev <;> simp [countSkipped, ih]
    omega

omit [LinearOrderedField K] [FloorRing K] in
theorem countSkipped_replicate_skipped (n : Nat) :
    countSkipped (List.replicate n (SolveEvent.skipped : SolveEvent K)) = n := by
  induction n with
  | zero => rfl
  | succ n ih => simp [List.replicate, countSkipped, ih]

/-- Stepping passes of the loop entered with `iter_cnt`: at most `max_steps - iter_cnt`. -/
theorem ARockSolver.countLocalSteps_solveLoop (E : Externals K P) (env : SolveEnv K)
    (fuel n : Nat) (s : ARockSolver K) (iter_cnt total_cnt : Int) (report : SolverReport K) :
    countLocalSteps (s.solveLoop E env fuel n iter_cnt total_cnt report).trace
      ≤ (s.config.max_steps - iter_cnt).toNat := by
  induction fuel generalizing n s iter_cnt total_cnt report with
  | zero =>
    unfold ARockSolver.solveLoop
    split <;> simp [countLocalSteps]
  | succ fuel ih =>
    unfold ARockSolver.solveLoop
    by_cases hg : iter_cnt < s.config.max_steps
    · simp only [hg, if_true]
      rcases s.solvePass_cases E env n iter_cnt total_cnt report with
        ⟨h, _, _⟩ | ⟨h, _, _⟩ | ⟨s1, report1, problem, summary, h, hc, _⟩ | ⟨s1, h, _⟩ |
        ⟨s1, problem, summary, h, _⟩
      · simp [h, countLocalSteps]
      · simp only [h, countLocalSteps_append]
        have := ih (n + 1) (s.receiveAll env n) iter_cnt (wrapInt32 (total_cnt + 1)) report
        have hcfg : (s.receiveAll env n).config = s.config := rfl
        rw [hcfg] at this
        simp only [countLocalSteps]
        omega
      · simp only [h, countLocalSteps_append]
        have := ih (n + 1) s1 (iter_cnt + 1) (wrapInt32 (total_cnt + 1)) report1
        rw [hc] at this
        simp only [countLocalSteps]
        omega
      · simp [h, countLocalSteps]
      · simp only [h, countLocalSteps]
        omega
    · simp [hg, countLocalSteps]

/-- Empty rounds of the loop entered with `total_cnt`, when the `int` counters
cannot overflow: at most `max_wait_steps + max_steps - total_cnt` that go on,
and the one that bails out. -/
theorem ARockSolver.countSkipped_solveLoop (E : Externals K P) (env : SolveEnv K)
    (fuel n : Nat) (s : ARockSolver K) (iter_cnt total_cnt : Int) (report : SolverReport K)
    (hwait : 0 ≤ s.config.max_wait_steps)
    (hfit : 2 * s.config.max_steps + s.config.max_wait_steps < 2147483648)
    (hiter : 0 ≤ iter_cnt) (htotal : 0 ≤ total_cnt)
    (hinv : total_cnt ≤ s.config.max_wait_steps + s.config.max_steps + iter_cnt) :
    countSkipped (s.solveLoop E env fuel n iter_cnt total_cnt report).trace
      ≤ (s.config.max_wait_steps + s.config.max_steps - total_cnt).toNat + 1 := by
  induction fuel generalizing n s iter_cnt total_cnt report with
  | zero =>
    unfold ARockSolver.solveLoop
    split <;> simp [countSkipped]
  | succ fuel ih =>
    unfold ARockSolver.solveLoop
    by_cases hg : iter_cnt < s.config.max_steps
    · simp only [hg, if_true]
      rcases s.solvePass_cases_fit E env n iter_cnt total_cnt report hwait hfit hg hiter htotal
          hinv with
        ⟨h, _, _⟩ | ⟨h, _, hle⟩ | ⟨s1, report1, problem, summary, h, hc, _⟩ | ⟨s1, h, _⟩ |
        ⟨s1, problem, summary, h, _⟩
      · simp [h, countSkipped]
      · simp only [h, countSkipped_append]
        have hcfg : (s.receiveAll env n).config = s.config := rfl
        have := ih (n + 1) (s.receiveAll env n) iter_cnt (total_cnt + 1) report
          (by rw [hcfg]; exact hwait) (by rw [hcfg]; exact hfit) hiter (by omega)
          (by rw [hcfg]; omega)
        rw [hcfg] at this
        simp only [countSkipped]
        omega
      · simp only [h, countSkipped_append]
        have := ih (n + 1) s1 (iter_cnt + 1) (total_cnt + 1) report1
          (by rw [hc]; exact hwait) (by rw [hc]; exact hfit) (by omega) (by omega)
          (by rw [hc]; omega)
        rw [hc] at this
        simp only [countSkipped]
        omega
      · simp [h, countSkipped]
      · simp [h, countSkipped]
    · simp [hg, countSkipped]

/-- C15. In one call of `solve`, whatever `receiveAll` delivers and however the
run ends, the passes that build a problem and run a local step number at
most `config.max_steps` (none when `max_steps` is negative). -/
theorem solve_steps_le_max_steps (E : Externals K P) (env : SolveEnv K) (fuel : Nat)
    (s : ARockSolver K) :
    countLocalSteps (s.solve E env fuel).trace ≤ s.config.max_steps.toNat ∧
    (0 ≤ s.config.max_steps →
      (countLocalSteps (s.solve E env fuel).trace : Int) ≤ s.config.max_steps) := by
  have h := s.countLocalSteps_solveLoop E env fuel 0 0 0 env.report0
  simp only [sub_zero] at h
  refine ⟨h, fun h0 => ?_⟩
  unfold ARockSolver.solve
  omega

/-- C16 amended. When `max_steps` and `max_wait_steps` are not negative and
`2·max_steps + max_wait_steps` is at most `INT_MAX` (so that the `int` counter
`total_cnt` cannot overflow), the empty-reception rounds of one call of
`solve` number at most `max_wait_steps + max_steps + 1`: an empty round bails
out when `total_cnt`, which counts stepping and empty passes alike, exceeds
`max_wait_steps + max_steps`. -/
theorem solve_skipped_le_wait_plus_steps (E : Externals K P) (env : SolveEnv K) (fuel : Nat)
    (s : ARockSolver K) (hsteps : 0 ≤ s.config.max_steps)
    (hwait : 0 ≤ s.config.max_wait_steps)
    (hfit : 2 * s.config.max_steps + s.config.max_wait_steps ≤ 2147483647) :
    (countSkipped (s.solve E env fuel).trace : Int)
      ≤ s.config.max_wait_steps + s.config.max_steps + 1 := by
  have h := s.countSkipped_solveLoop E env fuel 0 0 0 env.report0 hwait (by omega)
    (le_refl 0) (le_refl 0) (by omega)
  simp only [sub_zero] at h
  unfold ARockSolver.solve
  omega

end SolveCounts

section SolveFailure

variable {K P : Type} [LinearOrderedField K] [FloorRing K]

omit [LinearOrderedField K] [FloorRing K] in
theorem ARockSolver.solveLocalStep_reporting (env : SolveEnv K) (usable : Bool)
    (s : ARockSolver K) :
    s.solveLocalStep (env.reporting usable) =
      (s.solveLocalStep env).map
        (fun r => (r.1, { r.2 with is_solution_usable := usable })) := by
  unfold ARockSolver.solveLocalStep
  cases s.problem <;> rfl

/-- One pass does the same whatever the inner solver reports as its success. -/
theorem ARockSolver.solvePass_reporting (E : Externals K P) (env : SolveEnv K)
    (usable : Bool) (s : ARockSolver K) (n : Nat) (iter_cnt total_cnt : Int)
    (report : SolverReport K) :
    (s.solvePass E (env.reporting usable) n iter_cnt total_cnt report).shape =
      (s.solvePass E env n iter_cnt total_cnt report).shape := by
  unfold ARockSolver.solvePass
  have hrecv : s.receiveAll (env.reporting usable) n = s.receiveAll env n := rfl
  rw [hrecv]
  cases hu : (s.receiveAll env n).updated with
  | false =>
    simp only [hu, Bool.false_eq_true, not_false_eq_true, if_true]
  | true =>
    simp only [hu, not_true_eq_false, if_false]
    split
    · rfl
    · next s3 h3 =>
      split
      · rfl
      · next s4 h4 =>
        have hset : s4.setStateProperties (env.reporting usable)
            = s4.setStateProperties env := rfl
        rw [hset, ARockSolver.solveLocalStep_reporting]
        cases h6 : ARockSolver.solveLocalStep env (s4.setStateProperties env) with
        | none => rfl
        | some r =>
          obtain ⟨s6, summary⟩ := r
          simp only [Option.map_some']
          cases s6.updateDualStates E <;> rfl

omit [LinearOrderedField K] [FloorRing K] in
theorem stepsPublished_skipped (rest : List (SolveEvent K)) :
    stepsPublished ([SolveEvent.skipped] ++ rest) = stepsPublished rest := by
  simp [stepsPublished]

omit [LinearOrderedField K] [FloorRing K] in
theorem stepsPublished_step (problem : Problem K) (summary : Summary K)
    (rest : List (SolveEvent K)) :
    stepsPublished ([SolveEvent.localStep problem summary, SolveEvent.updateDualStates,
      SolveEvent.broadcastData] ++ rest) = stepsPublished rest := by
  simp [stepsPublished]

/-- In every run each local step is followed by the dual update and the broadcast. -/
theorem ARockSolver.stepsPublished_solveLoop (E : Externals K P) (env : SolveEnv K)
    (fuel n : Nat) (s : ARockSolver K) (iter_cnt total_cnt : Int) (report : SolverReport K) :
    stepsPublished (s.solveLoop E env fuel n iter_cnt total_cnt report).trace = true := by
  induction fuel generalizing n s iter_cnt total_cnt report with
  | zero =>
    unfold ARockSolver.solveLoop
    split <;> simp [stepsPublished]
  | succ fuel ih =>
    unfold ARockSolver.solveLoop
    by_cases hg : iter_cnt < s.config.max_steps
    · simp only [hg, if_true]
      rcases s.solvePass_cases E env n iter_cnt total_cnt report with
        ⟨h, _, _⟩ | ⟨h, _, _⟩ | ⟨s1, report1, problem, summary, h, _, _⟩ | ⟨s1, h, _⟩ |
        ⟨s1, problem, summary, h, _⟩
      · simp [h, stepsPublished]
      · simp only [h, stepsPublished_skipped]
        exact ih _ _ _ _ _
      · simp only [h, stepsPublished_step]
        exact ih _ _ _ _ _
      · simp [h, stepsPublished]
      · simp [h, stepsPublished]
    · simp [hg, stepsPublished]

/-- A run is the same whatever the inner solver reports as its success. -/
theorem ARockSolver.solveLoop_reporting (E : Externals K P) (env : SolveEnv K)
    (usable : Bool) (fuel n : Nat) (s : ARockSolver K) (iter_cnt total_cnt : Int)
    (report : SolverReport K) :
    (s.solveLoop E (env.reporting usable) fuel n iter_cnt total_cnt report).shape =
      (s.solveLoop E env fuel n iter_cnt total_cnt report).shape := by
  induction fuel generalizing n s iter_cnt total_cnt report with
  | zero =>
    unfold ARockSolver.solveLoop
    split <;> rfl
  | succ fuel ih =>
    unfold ARockSolver.solveLoop
    by_cases hg : iter_cnt < s.config.max_steps
    · simp only [hg, if_true]
      have hp := s.solvePass_reporting E env usable n iter_cnt total_cnt report
      generalize s.solvePass E (env.reporting usable) n iter_cnt total_cnt report = p1 at hp
      generalize s.solvePass E env n iter_cnt total_cnt report = p2 at hp
      cases p1 with
      | halt s1 ev1 =>
        cases p2 with
        | halt s2 ev2 =>
          simp only [PassResult.shape, PassResult.halt.injEq] at hp
          obtain ⟨rfl, hev⟩ := hp
          simp [SolveRun.shape, hev]
        | next s2 it2 tot2 rep2 ev2 => simp [PassResult.shape] at hp
        | threw s2 ev2 => simp [PassResult.shape] at hp
      | next s1 it1 tot1 rep1 ev1 =>
        cases p2 with
        | halt s2 ev2 => simp [PassResult.shape] at hp
        | next s2 it2 tot2 rep2 ev2 =>
          simp only [PassResult.shape, PassResult.next.injEq] at hp
          obtain ⟨rfl, rfl, rfl, rfl, hev⟩ := hp
          have hrec := ih (n + 1) s1 it1 tot1 rep1
          simp only [SolveRun.shape, SolveRun.mk.injEq] at hrec ⊢
          simp only [List.map_append, hev, hrec.1, hrec.2.1, hrec.2.2.1, hrec.2.2.2, and_self]
        | threw s2 ev2 => simp [PassResult.shape] at hp
      | threw s1 ev1 =>
        cases p2 with
        | halt s2 ev2 => simp [PassResult.shape] at hp
        | next s2 it2 tot2 rep2 ev2 => simp [PassResult.shape] at hp
        | threw s2 ev2 =>
          simp only [PassResult.shape, PassResult.threw.injEq] at hp
          obtain ⟨rfl, hev⟩ := hp
          simp [SolveRun.shape, hev]
    · simp [hg]

end SolveFailure

section SolveClaims

variable {K P : Type} [LinearOrderedField K] [FloorRing K]

/-- C16 as stated fails: with `max_wait_steps = 1` and `max_steps = 2`, and a
`receiveAll` that never delivers, `solve` makes one step and then three empty
rounds (`total_cnt` = 2, 3, 4) before it bails out at `total_cnt` > 3. And
with `max_steps = 1` and `max_wait_steps = 2147483646`, whose sum is
`INT_MAX`, the `int` counter `total_cnt` never exceeds the sum: a solver
without new data makes an empty round in every pass, 2147483650 of them in
as many passes, more than `max_wait_steps + max_steps + 1`. -/
theorem solve_skipped_le_max_wait_counterexample :
    (Sample.solverShort.config.max_wait_steps = 1 ∧
      (Sample.solverShort.solve Sample.externals Sample.env 10).status
        = SolveStatus.returned ∧
      countLocalSteps (Sample.solverShort.solve Sample.externals Sample.env 10).trace = 1 ∧
      countSkipped (Sample.solverShort.solve Sample.externals Sample.env 10).trace = 3) ∧
    (Sample.solverWaitMax.config.max_wait_steps + Sample.solverWaitMax.config.max_steps + 1
        = 2147483648 ∧
      (Sample.solverWaitMax.solve Sample.externals Sample.env 2147483650).status
        = SolveStatus.outOfFuel ∧
      countSkipped (Sample.solverWaitMax.solve Sample.externals Sample.env 2147483650).trace
        = 2147483650) := by
  have h := (ARockSolver.solveLoop_stuck Sample.externals Sample.env
    (fun _ _ => ⟨rfl, rfl, rfl⟩) Sample.solverWaitMax rfl 0 (by decide) (by decide)
    2147483650 0 0 Sample.env.report0).1
  refine ⟨by decide, by decide, ?_, ?_⟩
  · unfold ARockSolver.solve
    rw [h]
  · unfold ARockSolver.solve
    rw [h]
    exact countSkipped_replicate_skipped _

/-- C17 as stated fails: the inner solver reports failure in the first outer
iteration, and `solve` still runs `updateDualStates` and `broadcastData` for
it and goes on with a second iteration. -/
theorem solve_after_failed_step_counterexample :
    (Sample.solverShort.solve Sample.externals Sample.envFailing 10).status
      = SolveStatus.returned ∧
    (Sample.solverShort.solve Sample.externals Sample.envFailing 10).trace.map SolveEvent.kind
      = [EventKind.localStep false, EventKind.updateDualStates, EventKind.broadcastData,
         EventKind.localStep false, EventKind.updateDualStates, EventKind.broadcastData] := by
  decide

/-- C17 amended. `solve` does not look at the success reported by the inner
solver: in every run each `solveLocalStep` is followed by `updateDualStates`
and, unless that throws, by `broadcastData`; and the run (its end, the final
solver, the report, the sequence of steps) is the same whatever success the
inner solver reports. -/
theorem solve_ignores_inner_failure (E : Externals K P) (env : SolveEnv K) (fuel : Nat)
    (s : ARockSolver K) :
    stepsPublished (s.solve E env fuel).trace = true ∧
    ∀ usable : Bool,
      (s.solve E (env.reporting usable) fuel).shape = (s.solve E env fuel).shape :=
  ⟨s.stepsPublished_solveLoop E env fuel 0 0 0 env.report0,
    fun usable => s.solveLoop_reporting E env usable fuel 0 0 0 env.report0⟩

/-- C20 as stated fails: the constructor accepts a configuration with
`eta_k = 2`, outside (0, 1], and the solver it returns holds that step. -/
theorem construct_large_step_counterexample :
    ¬ ((0 : ℚ) < Sample.configLargeStep.eta_k ∧ Sample.configLargeStep.eta_k ≤ 1) ∧
    ∃ s, ARockSolver.construct Sample.state Sample.configLargeStep = some s ∧
      s.config.eta_k = 2 :=
  ⟨by norm_num [Sample.configLargeStep], _, rfl, rfl⟩

end SolveClaims

section Construction

variable {K : Type}

/-- C20 amended. The constructor accepts every configuration, whatever its
`eta_k`: it returns a solver that holds the configuration as given, with
`self_id` and the three weights copied from it, no residual and no dual
state; `updateDualStates` later uses the stored `eta_k` as it is. -/
theorem construct_accepts_every_config (_state : D2State K) (_config : ARockSolverConfig K) :
    ∃ s, ARockSolver.construct _state _config = some s ∧
      s.config = _config ∧ s.state = _state ∧ s.self_id = _config.self_id ∧
      s.rho_landmark = _config.rho_landmark ∧ s.rho_T = _config.rho_frame_T ∧
      s.rho_theta = _config.rho_frame_theta ∧
      s.residuals = [] ∧ s.dual_states_local = [] ∧ s.dual_states_remote = [] :=
  ⟨_, rfl, rfl, rfl, rfl, rfl, rfl, rfl, rfl, rfl, rfl⟩

end Construction

/-! ## Consensus factors -/

section Factors

variable {K P : Type} [LinearOrderedField K]

theorem ARockSolver.dualStateFactor_attached (E : Externals K P) (s : ARockSolver K)
    (ptr : StatePtr) (dual : List K) (block : ResidualBlock K)
    (h : s.dualStateFactor E ptr dual = some block) :
    block.attachedTo = some ptr ∧ block.target = some dual := by
  unfold ARockSolver.dualStateFactor at h
  cases hp : StdMap.find s.all_estimating_params ptr with
  | none => simp [hp] at h
  | some param_info =>
    simp only [hp] at h
    split at h
    · cases h
      exact ⟨rfl, rfl⟩
    · split at h
      · cases h
        exact ⟨rfl, rfl⟩
      · cases h
        exact ⟨rfl, rfl⟩

theorem ARockSolver.dualStateFactor_isSome (E : Externals K P) (s : ARockSolver K)
    (ptr : StatePtr) (dual : List K) (h : (StdMap.find s.all_estimating_params ptr).isSome) :
    ∃ block, s.dualStateFactor E ptr dual = some block := by
  obtain ⟨param_info, hp⟩ := Option.isSome_iff_exists.mp h
  unfold ARockSolver.dualStateFactor
  simp only [hp]
  split
  · exact ⟨_, rfl⟩
  · split
    · exact ⟨_, rfl⟩
    · exact ⟨_, rfl⟩

/-- Inner loop: one block per entry, in order, after the blocks already there. -/
theorem ARockSolver.addFactorsOf_spec (E : Externals K P) (s : ARockSolver K) (d : Int)
    (duals : StdMap StatePtr (List K)) (problem problem1 : Problem K)
    (h : s.addFactorsOf E duals problem = some problem1) :
    ∃ blocks, problem1 = { problem with
        residual_blocks := problem.residual_blocks ++ blocks } ∧
      List.Forall₂ (fun (pair : Int × StatePtr × List K) (block : ResidualBlock K) =>
          block.attachedTo = some pair.2.1 ∧ block.target = some pair.2.2)
        (duals.map (fun it => (d, it.1, it.2))) blocks := by
  induction duals generalizing problem with
  | nil =>
    simp only [ARockSolver.addFactorsOf, Option.some.injEq] at h
    subst h
    exact ⟨[], by simp, List.Forall₂.nil⟩
  | cons hd tl ih =>
    obtain ⟨ptr, dual⟩ := hd
    simp only [ARockSolver.addFactorsOf] at h
    cases hf : s.dualStateFactor E ptr dual with
    | none => simp [hf] at h
    | some factor =>
      simp only [hf] at h
      obtain ⟨blocks, hpb, hall⟩ := ih _ h
      refine ⟨factor :: blocks, ?_, ?_⟩
      · rw [hpb]
        simp
      · exact List.Forall₂.cons (s.dualStateFactor_attached E ptr dual factor hf) hall

/-- Outer loop: one block per pair of the store, in iteration order. -/
theorem ARockSolver.addFactorsAll_spec (E : Externals K P) (s : ARockSolver K)
    (store : DualStates K) (problem problem1 : Problem K)
    (h : s.addFactorsAll E store problem = some problem1) :
    ∃ blocks, problem1 = { problem with
        residual_blocks := problem.residual_blocks ++ blocks } ∧
      List.Forall₂ (fun (pair : Int × StatePtr × List K) (block : ResidualBlock K) =>
          block.attachedTo = some pair.2.1 ∧ block.target = some pair.2.2)
        (dualPairs store) blocks := by
  induction store generalizing problem with
  | nil =>
    simp only [ARockSolver.addFactorsAll, Option.some.injEq] at h
    subst h
    exact ⟨[], by simp, List.Forall₂.nil⟩
  | cons hd tl ih =>
    obtain ⟨d, duals⟩ := hd
    simp only [ARockSolver.addFactorsAll] at h
    cases ho : s.addFactorsOf E duals problem with
    | none => simp [ho] at h
    | some problem0 =>
      simp only [ho] at h
      obtain ⟨blocks0, hpb0, hall0⟩ := s.addFactorsOf_spec E d duals problem problem0 ho
      obtain ⟨blocks, hpb, hall⟩ := ih _ h
      refine ⟨blocks0 ++ blocks, ?_, ?_⟩
      · rw [hpb, hpb0]
        simp
      · simp only [dualPairs]
        exact List.rel_append hall0 hall

theorem ARockSolver.addFactorsOf_isSome (E : Externals K P) (s : ARockSolver K)
    (duals : StdMap StatePtr (List K)) (problem : Problem K)
    (h : ∀ it ∈ duals, (StdMap.find s.all_estimating_params it.1).isSome) :
    ∃ problem1, s.addFactorsOf E duals problem = some problem1 := by
  induction duals generalizing problem with
  | nil => exact ⟨problem, rfl⟩
  | cons hd tl ih =>
    obtain ⟨ptr, dual⟩ := hd
    obtain ⟨factor, hf⟩ := s.dualStateFactor_isSome E ptr dual (h (ptr, dual)
      (List.mem_cons_self _ _))
    obtain ⟨problem1, h1⟩ := ih { problem with
      residual_blocks := problem.residual_blocks ++ [factor] }
      (fun it hit => h it (List.mem_cons_of_mem _ hit))
    exact ⟨problem1, by simp only [ARockSolver.addFactorsOf, hf, h1]⟩

theorem ARockSolver.addFactorsAll_isSome (E : Externals K P) (s : ARockSolver K)
    (store : DualStates K) (problem : Problem K)
    (h : ∀ pair ∈ dualPairs store, (StdMap.find s.all_estimating_params pair.2.1).isSome) :
    ∃ problem1, s.addFactorsAll E store problem = some problem1 := by
  induction store generalizing problem with
  | nil => exact ⟨problem, rfl⟩
  | cons hd tl ih =>
    obtain ⟨d, duals⟩ := hd
    obtain ⟨problem0, h0⟩ := s.addFactorsOf_isSome E duals problem (fun it hit =>
      h (d, it.1, it.2) (by
        simp only [dualPairs, List.mem_append, List.mem_map]
        exact Or.inl ⟨it, hit, rfl⟩))
    obtain ⟨problem1, h1⟩ := ih problem0 (fun pair hp => h pair (by
      simp only [dualPairs, List.mem_append]
      exact Or.inr hp))
    exact ⟨problem1, by simp only [ARockSolver.addFactorsAll, h0, h1]⟩

/-- C19. When the problem exists and the parameter of every pair of the remote
dual store is registered, `setDualStateFactors` returns and appends to the
problem exactly one consensus residual per (peer, parameter) pair of the
store, in iteration order: as many residuals as pairs, each attached to the
primal buffer of its parameter, with the remote dual of the pair as target. -/
theorem setDualStateFactors_one_per_pair (E : Externals K P) (s : ARockSolver K)
    (problem : Problem K) (hproblem : s.problem = some problem)
    (hreg : ∀ pair ∈ dualPairs s.dual_states_remote,
      (StdMap.find s.all_estimating_params pair.2.1).isSome) :
    ∃ t blocks, s.setDualStateFactors E = some t ∧
      t.problem = some { problem with
        residual_blocks := problem.residual_blocks ++ blocks } ∧
      blocks.length = (dualPairs s.dual_states_remote).length ∧
      List.Forall₂ (fun (pair : Int × StatePtr × List K) (block : ResidualBlock K) =>
          block.attachedTo = some pair.2.1 ∧ block.target = some pair.2.2)
        (dualPairs s.dual_states_remote) blocks ∧
      t.dual_states_remote = s.dual_states_remote ∧
      t.dual_states_local = s.dual_states_local := by
  obtain ⟨problem1, h1⟩ := s.addFactorsAll_isSome E s.dual_states_remote problem hreg
  obtain ⟨blocks, hpb, hall⟩ := s.addFactorsAll_spec E s.dual_states_remote problem problem1 h1
  refine ⟨{ s with problem := some problem1 }, blocks, ?_, ?_, hall.length_eq.symm, hall,
    rfl, rfl⟩
  · simp only [ARockSolver.setDualStateFactors, hproblem, h1]
  · rw [hpb]

end Factors

section SingleAgent

variable {K P : Type} [LinearOrderedField K] [FloorRing K]

end SingleAgent

section SingleAgentClaim

variable {K P : Type} [LinearOrderedField K] [FloorRing K]

end SingleAgentClaim


section SingleAgentWitness

end SingleAgentWitness



section FactorsWitness

theorem setDualStateFactors_one_per_pair_witness :
    (Sample.solverFactors.problem = some { residual_blocks := [] } ∧
      dualPairs Sample.solverFactors.dual_states_remote = [(2, 200, [3, 2, 3, 0, 0, 0, 1])]) ∧
    ∃ t blocks, Sample.solverFactors.setDualStateFactors Sample.externals = some t ∧
      t.problem = some { ({ residual_blocks := [] } : Problem ℚ) with
        residual_blocks := ({ residual_blocks := [] } : Problem ℚ).residual_blocks ++ blocks } ∧
      blocks.length = (dualPairs Sample.solverFactors.dual_states_remote).length ∧
      List.Forall₂ (fun (pair : Int × StatePtr × List ℚ) (block : ResidualBlock ℚ) =>
          block.attachedTo = some pair.2.1 ∧ block.target = some pair.2.2)
        (dualPairs Sample.solverFactors.dual_states_remote) blocks ∧
      t.dual_states_remote = Sample.solverFactors.dual_states_remote ∧
      t.dual_states_local = Sample.solverFactors.dual_states_local :=
  ⟨⟨rfl, rfl⟩,
    setDualStateFactors_one_per_pair Sample.externals Sample.solverFactors
      { residual_blocks := [] } rfl (by
        intro pair hpair
        have hp : pair = (2, 200, [3, 2, 3, 0, 0, 0, 1]) := List.mem_singleton.mp hpair
        subst hp
        rfl)⟩

end FactorsWitness


section StepsWitness

theorem solve_steps_le_max_steps_witness :
    (0 ≤ Sample.solverShort.config.max_steps ∧
      (Sample.solverShort.solve Sample.externals Sample.envFailing 10).status
        = SolveStatus.returned) ∧
    countLocalSteps (Sample.solverShort.solve Sample.externals Sample.envFailing 10).trace
      ≤ Sample.solverShort.config.max_steps.toNat ∧
    (countLocalSteps (Sample.solverShort.solve Sample.externals Sample.envFailing 10).trace
      : Int) ≤ Sample.solverShort.config.max_steps :=
  ⟨⟨by decide, by decide⟩,
    (solve_steps_le_max_steps Sample.externals Sample.envFailing 10 Sample.solverShort).1,
    (solve_steps_le_max_steps Sample.externals Sample.envFailing 10 Sample.solverShort).2
      (by decide)⟩

/-- Witness of C16 amended: `max_wait_steps = 1`, `max_steps = 2` and a
`receiveAll` that never delivers; the three empty rounds are within
`max_wait_steps + max_steps + 1 = 4`. -/
theorem solve_skipped_le_wait_plus_steps_witness :
    ((0 : Int) ≤ Sample.solverShort.config.max_steps ∧
      (0 : Int) ≤ Sample.solverShort.config.max_wait_steps ∧
      2 * Sample.solverShort.config.max_steps + Sample.solverShort.config.max_wait_steps
        ≤ 2147483647) ∧
    countSkipped (Sample.solverShort.solve Sample.externals Sample.env 10).trace = 3 ∧
    (countSkipped (Sample.solverShort.solve Sample.externals Sample.env 10).trace : Int)
      ≤ Sample.solverShort.config.max_wait_steps + Sample.solverShort.config.max_steps + 1 :=
  ⟨⟨by decide, by decide, by decide⟩, by decide,
    solve_skipped_le_wait_plus_steps Sample.externals Sample.env 10 Sample.solverShort
      (by decide) (by decide) (by decide)⟩

end StepsWitness

/-! ## Frame of the consensus steps -/

section Frame

variable {K P : Type} [LinearOrderedField K] [FloorRing K]

theorem StdMap.mapValsM_keys {κ ν μ : Type} (f : κ → ν → Option μ) (m : StdMap κ ν)
    (r : StdMap κ μ) (h : StdMap.mapValsM f m = some r) :
    r.map Prod.fst = m.map Prod.fst := by
  induction m generalizing r with
  | nil =>
    simp only [StdMap.mapValsM, Option.some.injEq] at h
    subst h
    rfl
  | cons kv rest ih =>
    obtain ⟨k, v⟩ := kv
    simp only [StdMap.mapValsM] at h
    cases hf : f k v with
    | none => simp [hf] at h
    | some w =>
      cases hr : StdMap.mapValsM f rest with
      | none => simp [hf, hr] at h
      | some r1 =>
        simp only [hf, hr, Option.some.injEq] at h
        subst h
        simp [ih r1 hr]

omit [LinearOrderedField K] [FloorRing K] in
theorem dualKeys_cons (d : Int) (duals : StdMap StatePtr (List K)) (rest : DualStates K) :
    dualKeys ((d, duals) :: rest) = duals.map (fun it => (d, it.1)) ++ dualKeys rest := by
  simp [dualKeys, dualPairs, List.map_append, List.map_map, Function.comp_def]

omit [LinearOrderedField K] [FloorRing K] in
theorem dualKeys_mapValsM (g : Int → StatePtr → List K → Option (List K)) (m r : DualStates K)
    (h : StdMap.mapValsM (fun d duals => StdMap.mapValsM (g d) duals) m = some r) :
    dualKeys r = dualKeys m := by
  induction m generalizing r with
  | nil =>
    simp only [StdMap.mapValsM, Option.some.injEq] at h
    subst h
    rfl
  | cons kv rest ih =>
    obtain ⟨d, duals⟩ := kv
    simp only [StdMap.mapValsM] at h
    cases hf : StdMap.mapValsM (g d) duals with
    | none => simp [hf] at h
    | some w =>
      cases hr : StdMap.mapValsM (fun d duals => StdMap.mapValsM (g d) duals) rest with
      | none => simp [hf, hr] at h
      | some r1 =>
        simp only [hf, hr, Option.some.injEq] at h
        subst h
        have hk := StdMap.mapValsM_keys (g d) duals w hf
        rw [dualKeys_cons, dualKeys_cons, ih r1 hr]
        congr 1
        have h1 : w.map (fun it => (d, it.1)) = (w.map Prod.fst).map (fun k => (d, k)) := by
          simp [List.map_map, Function.comp_def]
        have h2 : duals.map (fun it => (d, it.1)) = (duals.map Prod.fst).map (fun k => (d, k)) := by
          simp [List.map_map, Function.comp_def]
        rw [h1, h2, hk]

theorem ARockSolver.dualKeys_updateDualStates (E : Externals K P) (s t : ARockSolver K)
    (h : s.updateDualStates E = some t) :
    dualKeys t.dual_states_local = dualKeys s.dual_states_local := by
  unfold ARockSolver.updateDualStates at h
  cases hm : StdMap.mapValsM (fun remote_drone_id duals =>
      StdMap.mapValsM (fun state_pointer dual_state_local =>
        s.updateDualState E remote_drone_id state_pointer dual_state_local) duals)
      s.dual_states_local with
  | none => simp [hm] at h
  | some duals =>
    simp only [hm, Option.some.injEq] at h
    subst h
    exact dualKeys_mapValsM (fun d ptr zl => s.updateDualState E d ptr zl) _ _ hm

omit [FloorRing K] in
theorem ARockSolver.setDualStateFactors_frame (E : Externals K P) (s t : ARockSolver K)
    (h : s.setDualStateFactors E = some t) :
    t.dual_states_remote = s.dual_states_remote ∧ t.dual_states_local = s.dual_states_local ∧
    t.all_estimating_params = s.all_estimating_params ∧ t.state = s.state ∧
    t.residuals = s.residuals := by
  unfold ARockSolver.setDualStateFactors at h
  cases hp : s.problem with
  | none => simp [hp] at h
  | some problem =>
    cases ha : s.addFactorsAll E s.dual_states_remote problem with
    | none => simp [hp, ha] at h
    | some problem1 =>
      simp only [hp, ha, Option.some.injEq] at h
      subst h
      exact ⟨rfl, rfl, rfl, rfl, rfl⟩

/-- C21. The ARock update step writes local duals only: whenever
`updateDualStates` returns (it does when no lookup and no vector operation
fails), every remote dual, the `(peer, parameter)` keys of both dual maps, the
parameter registry and every primal buffer are as before; and whenever
`setDualStateFactors` returns, both dual stores are as before. -/
theorem updateDualStates_writes_local_only (E : Externals K P) (s : ARockSolver K) :
    (s.UpdateReady E → (s.updateDualStates E).isSome) ∧
    (∀ t, s.updateDualStates E = some t →
      t.dual_states_remote = s.dual_states_remote ∧
      dualKeys t.dual_states_remote = dualKeys s.dual_states_remote ∧
      dualKeys t.dual_states_local = dualKeys s.dual_states_local ∧
      t.all_estimating_params = s.all_estimating_params ∧
      t.state = s.state) ∧
    (∀ t, s.setDualStateFactors E = some t →
      t.dual_states_remote = s.dual_states_remote ∧
      t.dual_states_local = s.dual_states_local) := by
  refine ⟨fun hready => ?_, fun t ht => ?_, fun t ht => ?_⟩
  · obtain ⟨t, ht⟩ := s.updateDualStates_returns E
      (fun d duals hd ptr zl hz => s.updateDualState_isSome E hready d duals hd ptr zl hz)
    simp [ht]
  · obtain ⟨_, hremote, hstate, hreg, _⟩ := s.updateDualStates_spec E t ht
    exact ⟨hremote, by rw [hremote], s.dualKeys_updateDualStates E t ht, hreg, hstate⟩
  · obtain ⟨hr, hl, _⟩ := s.setDualStateFactors_frame E t ht
    exact ⟨hr, hl⟩

theorem updateDualStates_writes_local_only_witness :
    Sample.solverEuclid.UpdateReady Sample.externals ∧
    (Sample.solverEuclid.updateDualStates Sample.externals).isSome ∧
    (∃ t, Sample.solverEuclid.updateDualStates Sample.externals = some t ∧
      t.dual_states_remote = [(2, [(300, [5])])] ∧
      dualKeys t.dual_states_local = [(2, 300)] ∧
      t.state = Sample.solverEuclid.state) ∧
    (∃ t, Sample.solverFactors.setDualStateFactors Sample.externals = some t ∧
      t.dual_states_remote = Sample.solverFactors.dual_states_remote ∧
      t.dual_states_local = Sample.solverFactors.dual_states_local) := by
  have h := updateDualStates_writes_local_only Sample.externals Sample.solverEuclid
  have hsome := h.1 Sample.solverEuclid_ready
  obtain ⟨t, ht⟩ := Option.isSome_iff_exists.mp hsome
  obtain ⟨u, hu⟩ : ∃ u, Sample.solverFactors.setDualStateFactors Sample.externals = some u :=
    ⟨_, rfl⟩
  refine ⟨Sample.solverEuclid_ready, hsome, ⟨t, ht, (h.2.1 t ht).1, (h.2.1 t ht).2.2.1,
    (h.2.1 t ht).2.2.2.2⟩, ⟨u, hu, ?_⟩⟩
  exact (updateDualStates_writes_local_only Sample.externals Sample.solverFactors).2.2 u hu

end Frame

/-! ## Agreement is a fixed point -/

section FixedPoint

variable {K P : Type} [LinearOrderedField K] [FloorRing K]

omit [FloorRing K] in
theorem agreement_coeff (eta a : K) : a - eta * ((a + a) / 2 - a) = a := by
  have h : (a + a) / 2 = a := by
    rw [← two_mul]
    exact mul_div_cancel_left₀ a two_ne_zero
  rw [h, sub_self, mul_zero, sub_zero]

omit [FloorRing K] in
theorem agreement_zero (eta a : K) : eta * ((a + a) / 2 - a) = 0 := by
  have h : (a + a) / 2 = a := by
    rw [← two_mul]
    exact mul_div_cancel_left₀ a two_ne_zero
  rw [h, sub_self, mul_zero]

omit [FloorRing K] in
theorem updateDualVector_agreement (eta_k : K) (z : List K) :
    updateDualVector eta_k z z z = some z := by
  obtain ⟨out, hout, hlen, hco⟩ := updateDualVector_coeff eta_k z z z rfl rfl
  rw [hout]
  congr 1
  apply List.ext_getElem? 
  intro i
  by_cases hi : i < z.length
  · have hz : z[i]? = some z[i] := List.getElem?_eq_getElem hi
    rw [hco i z[i] z[i] z[i] hz hz hz, hz, agreement_coeff]
  · rw [List.getElem?_eq_none (by omega), List.getElem?_eq_none (by omega)]

theorem updateDualPose4D_agreement (pi eta_k : K) (z : List K) (hpi : 0 < pi)
    (h3 : 3 < z.length) (hyaw : ∀ yaw, z[3]? = some yaw → -pi < yaw ∧ yaw ≤ pi) :
    updateDualPose4D pi eta_k z z z = some z := by
  obtain ⟨out, hout, hlen, hco, hy⟩ := updateDualPose4D_coeff pi eta_k z z z rfl rfl h3
  rw [hout]
  congr 1
  apply List.ext_getElem?
  intro i
  by_cases hi : i < z.length
  · have hz : z[i]? = some z[i] := List.getElem?_eq_getElem hi
    by_cases hi3 : i = 3
    · subst hi3
      obtain ⟨a, ha⟩ : ∃ a, z[3]? = some a := ⟨_, hz⟩
      have hr := hyaw a ha
      have h0 : NormalizeAngle pi 0 = 0 :=
        NormalizeAngle_of_mem pi 0 hpi (neg_lt_zero.mpr hpi) (le_of_lt hpi)
      rw [hy a a a ha ha ha, ha, agreement_zero, h0, sub_zero,
        NormalizeAngle_of_mem pi a hpi hr.1 hr.2]
    · rw [hco i z[i] z[i] z[i] hi3 hz hz hz, hz, agreement_coeff]
  · rw [List.getElem?_eq_none (by omega), List.getElem?_eq_none (by omega)]

/-- C28. Agreement is a fixed point of the dual update: for a parameter outside
the SE3 branch (a vector, or a yaw pose whose yaw lies in (-π, π]), if the
local dual, the remote dual and the current primal are the same vector, then
`updateDualStates` returns and leaves that local dual as it is, whatever the
step `eta_k` is. -/
theorem updateDualStates_agreement_fixed (E : Externals K P) (s : ARockSolver K)
    (hready : s.UpdateReady E) (hpi : 0 < E.pi) (d : Int) (ptr : StatePtr) (z : List K)
    (param_info : ParamInfo) (hl : s.localDual d ptr = some z)
    (hr : s.remoteDual d ptr = some z)
    (hp : StdMap.find s.all_estimating_params ptr = some param_info)
    (hse3 : E.IsSE3 param_info.type = false)
    (hx : s.state.mapVector ptr param_info.size = z)
    (hyaw : E.IsPose4D param_info.type = true →
      ∀ yaw, z[3]? = some yaw → -E.pi < yaw ∧ yaw ≤ E.pi) :
    ∃ t, s.updateDualStates E = some t ∧ t.localDual d ptr = some z ∧
      t.remoteDual d ptr = some z ∧ t.state = s.state := by
  obtain ⟨t, ht, hlocal, hremote, hstate, _, hsize⟩ :=
    s.updateDualStates_entry E hready d ptr z z param_info hl hr hp
  refine ⟨t, ht, ?_, hremote, hstate⟩
  rw [hlocal, s.updateDualState_eq E d ptr z z param_info hp hr, hx]
  simp only [hse3, Bool.false_eq_true, if_false]
  cases h4 : E.IsPose4D param_info.type with
  | false =>
    simp only [Bool.false_eq_true, if_false]
    exact updateDualVector_agreement s.config.eta_k z
  | true =>
    simp only [if_true]
    have h3 : 3 < z.length := by
      have := hsize hse3
      rw [this.1]
      exact this.2.2 h4
    exact updateDualPose4D_agreement E.pi s.config.eta_k z hpi h3 (hyaw h4)

end FixedPoint

section FixedPointWitness

theorem Sample.solverYawAgree_ready : Sample.solverYawAgree.UpdateReady Sample.externals :=
  Sample.solverYawAgree.updateReady_single Sample.externals 2 200 [1, 2, 3, 0] [1, 2, 3, 0]
    Sample.poseRemoteAs4D rfl rfl rfl (fun _ => ⟨rfl, rfl, fun _ => by decide⟩)

theorem updateDualStates_agreement_fixed_witness :
    (Sample.solverYawAgree.localDual 2 200 = some [1, 2, 3, 0] ∧
      Sample.solverYawAgree.remoteDual 2 200 = some [1, 2, 3, 0] ∧
      Sample.solverYawAgree.state.mapVector 200 4 = [1, 2, 3, 0]) ∧
    ∃ t, Sample.solverYawAgree.updateDualStates Sample.externals = some t ∧
      t.localDual 2 200 = some [1, 2, 3, 0] ∧ t.remoteDual 2 200 = some [1, 2, 3, 0] ∧
      t.state = Sample.solverYawAgree.state :=
  ⟨⟨rfl, rfl, rfl⟩,
    updateDualStates_agreement_fixed Sample.externals Sample.solverYawAgree
      Sample.solverYawAgree_ready Sample.pi_pos 2 200 [1, 2, 3, 0] Sample.poseRemoteAs4D
      rfl rfl rfl (by decide) rfl (fun _ yaw hyaw => by
        have h0 : yaw = 0 := by
          simpa using hyaw.symm
        subst h0
        exact ⟨neg_lt_zero.mpr Sample.pi_pos, le_of_lt Sample.pi_pos⟩)⟩

end FixedPointWitness

/-! ## Which duals the scan creates -/

section ScanOrigin

variable {K P : Type}

theorem StdMap.mem_insert {κ ν : Type} [DecidableEq κ] [LT κ]
    [DecidableRel (fun a b : κ => a < b)] (m : StdMap κ ν) (k : κ) (v : ν) (e : κ × ν)
    (h : e ∈ StdMap.insert m k v) : e = (k, v) ∨ e ∈ m := by
  induction m with
  | nil =>
    simp only [StdMap.insert, List.mem_singleton] at h
    exact Or.inl h
  | cons hd tl ih =>
    obtain ⟨k', v'⟩ := hd
    simp only [StdMap.insert] at h
    split at h
    · rcases List.mem_cons.mp h with h | h
      · exact Or.inl h
      · exact Or.inr h
    · split at h
      · rcases List.mem_cons.mp h with h | h
        · exact Or.inl h
        · exact Or.inr (List.mem_cons_of_mem _ h)
      · rcases List.mem_cons.mp h with h | h
        · exact Or.inr (h ▸ List.mem_cons_self _ _)
        · rcases ih h with h | h
          · exact Or.inl h
          · exact Or.inr (List.mem_cons_of_mem _ h)

theorem StdMap.mem_getD {κ ν : Type} [DecidableEq κ] (m : StdMap κ (List ν)) (k : κ) (e : ν)
    (h : e ∈ StdMap.getD m k []) : ∃ inner, (k, inner) ∈ m ∧ e ∈ inner := by
  unfold StdMap.getD at h
  cases hf : StdMap.find m k with
  | none => simp [hf] at h
  | some inner =>
    simp only [hf, Option.getD_some] at h
    exact ⟨inner, StdMap.mem_of_find m k inner hf, h⟩

theorem mem_dualKeys (store : DualStates K) (key : Int × StatePtr) :
    key ∈ dualKeys store ↔
      ∃ duals, (key.1, duals) ∈ store ∧ ∃ v, (key.2, v) ∈ duals := by
  induction store with
  | nil => simp [dualKeys, dualPairs]
  | cons hd tl ih =>
    obtain ⟨d, duals⟩ := hd
    rw [dualKeys_cons, List.mem_append, ih]
    constructor
    · rintro (h | ⟨duals', hmem, v, hv⟩)
      · obtain ⟨it, hit, rfl⟩ := List.mem_map.mp h
        exact ⟨duals, List.mem_cons_self _ _, it.2, hit⟩
      · exact ⟨duals', List.mem_cons_of_mem _ hmem, v, hv⟩
    · rintro ⟨duals', hmem, v, hv⟩
      rcases List.mem_cons.mp hmem with h | h
      · left
        have h1 : key.1 = d := congrArg Prod.fst h
        have h2 : duals' = duals := congrArg Prod.snd h
        subst h2
        exact List.mem_map.mpr ⟨(key.2, v), hv, by rw [← h1]⟩
      · exact Or.inr ⟨duals', h, v, hv⟩

/-- Keys of the store `store[d][ptr] = value` built by `createDualState`. -/
theorem dualKeys_insert_insert (store : DualStates K) (d : Int) (ptr : StatePtr)
    (value : List K) (key : Int × StatePtr)
    (h : key ∈ dualKeys (StdMap.insert store d
      (StdMap.insert (StdMap.getD store d []) ptr value))) :
    key = (d, ptr) ∨ key ∈ dualKeys store := by
  obtain ⟨duals, hmem, v, hv⟩ := (mem_dualKeys _ key).mp h
  rcases StdMap.mem_insert _ _ _ _ hmem with h1 | h1
  · have hd : key.1 = d := congrArg Prod.fst h1
    have hduals : duals = StdMap.insert (StdMap.getD store d []) ptr value :=
      congrArg Prod.snd h1
    subst hduals
    rcases StdMap.mem_insert _ _ _ _ hv with h2 | h2
    · left
      have hp : key.2 = ptr := congrArg Prod.fst h2
      exact Prod.ext hd hp
    · right
      obtain ⟨inner, hin, hv'⟩ := StdMap.mem_getD store d _ h2
      exact (mem_dualKeys store key).mpr ⟨inner, by rw [hd]; exact hin, v, hv'⟩
  · exact Or.inr ((mem_dualKeys store key).mpr ⟨duals, h1, v, hv⟩)

theorem dualKeys_insert_empty (store : DualStates K) (d : Int) (key : Int × StatePtr)
    (h : key ∈ dualKeys (StdMap.insert store d [])) : key ∈ dualKeys store := by
  obtain ⟨duals, hmem, v, hv⟩ := (mem_dualKeys _ key).mp h
  rcases StdMap.mem_insert _ _ _ _ hmem with h1 | h1
  · have hduals : duals = [] := congrArg Prod.snd h1
    subst hduals
    exact absurd hv (List.not_mem_nil _)
  · exact (mem_dualKeys store key).mpr ⟨duals, h1, v, hv⟩

theorem ARockSolver.dualKeys_createDualState (s : ARockSolver K) (p : ParamInfo) (d : Int)
    (key : Int × StatePtr) :
    (key ∈ dualKeys (s.createDualState p d).dual_states_remote →
      key = (d, p.pointer) ∨ key ∈ dualKeys s.dual_states_remote) ∧
    (key ∈ dualKeys (s.createDualState p d).dual_states_local →
      key = (d, p.pointer) ∨ key ∈ dualKeys s.dual_states_local) := by
  unfold ARockSolver.createDualState
  cases hc : StdMap.contains s.dual_states_remote d with
  | true =>
    simp only [if_true]
    exact ⟨dualKeys_insert_insert _ _ _ _ _, dualKeys_insert_insert _ _ _ _ _⟩
  | false =>
    simp only [Bool.false_eq_true, if_false]
    constructor
    · intro h
      rcases dualKeys_insert_insert _ _ _ _ _ h with h | h
      · exact Or.inl h
      · exact Or.inr (dualKeys_insert_empty _ _ _ h)
    · intro h
      rcases dualKeys_insert_insert _ _ _ _ _ h with h | h
      · exact Or.inl h
      · exact Or.inr (dualKeys_insert_empty _ _ _ h)

end ScanOrigin

section ScanOriginClaim

variable {K P : Type}

theorem ARockSolver.remote_param_owner (s : ARockSolver K) (q : ParamInfo) (d : Int)
    (hr : s.isRemoteParam q = some true) (hd : s.solverId q = some d) :
    (q.type = ParamsType.POSE ∨ q.type = ParamsType.POSE_4D) ∧
    ∃ frame, s.state.getFramebyId q.id = some frame ∧ frame.drone_id = d ∧ d ≠ s.self_id := by
  unfold ARockSolver.isRemoteParam at hr
  unfold ARockSolver.solverId at hd
  by_cases hpose : q.type = ParamsType.POSE ∨ q.type = ParamsType.POSE_4D
  · refine ⟨hpose, ?_⟩
    simp only [hpose, if_true] at hr hd
    cases hf : s.state.getFramebyId q.id with
    | none => simp [hf] at hr
    | some frame =>
      simp only [hf, Option.some.injEq] at hr hd
      subst hd
      refine ⟨frame, rfl, rfl, ?_⟩
      by_cases hne : frame.drone_id ≠ s.self_id
      · exact hne
      · simp [hne] at hr
  · simp [hpose] at hr

theorem ARockSolver.scanParam_of_not_pose (s : ARockSolver K) (p : ParamInfo)
    (h : ¬ (p.type = ParamsType.POSE ∨ p.type = ParamsType.POSE_4D)) :
    s.scanParam p = some s := by
  unfold ARockSolver.scanParam ARockSolver.isRemoteParam
  simp [h]

theorem ARockSolver.scanParam_keys (s t : ARockSolver K) (p : ParamInfo)
    (h : s.scanParam p = some t) (key : Int × StatePtr) :
    (key ∈ dualKeys t.dual_states_remote → key ∈ dualKeys s.dual_states_remote ∨
      (key.2 = p.pointer ∧ s.isRemoteParam p = some true ∧ s.solverId p = some key.1)) ∧
    (key ∈ dualKeys t.dual_states_local → key ∈ dualKeys s.dual_states_local ∨
      (key.2 = p.pointer ∧ s.isRemoteParam p = some true ∧ s.solverId p = some key.1)) := by
  rcases s.scanParam_cases t p h with ⟨rfl, _⟩ | ⟨d0, hr0, hd0, _, rfl⟩
  · exact ⟨Or.inl, Or.inl⟩
  · have hk := s.dualKeys_createDualState p d0 key
    constructor
    · intro hmem
      rcases hk.1 hmem with rfl | h1
      · exact Or.inr ⟨rfl, hr0, hd0⟩
      · exact Or.inl h1
    · intro hmem
      rcases hk.2 hmem with rfl | h1
      · exact Or.inr ⟨rfl, hr0, hd0⟩
      · exact Or.inl h1

theorem ARockSolver.scanParams_keys (s t : ARockSolver K) (ps : List ParamInfo)
    (h : s.scanParams ps = some t) (key : Int × StatePtr) :
    (key ∈ dualKeys t.dual_states_remote → key ∈ dualKeys s.dual_states_remote ∨
      ∃ q ∈ ps, key.2 = q.pointer ∧ s.isRemoteParam q = some true ∧
        s.solverId q = some key.1) ∧
    (key ∈ dualKeys t.dual_states_local → key ∈ dualKeys s.dual_states_local ∨
      ∃ q ∈ ps, key.2 = q.pointer ∧ s.isRemoteParam q = some true ∧
        s.solverId q = some key.1) := by
  induction ps generalizing s with
  | nil =>
    simp only [ARockSolver.scanParams, Option.some.injEq] at h
    subst h
    exact ⟨Or.inl, Or.inl⟩
  | cons p rest ih =>
    simp only [ARockSolver.scanParams] at h
    cases h1 : s.scanParam p with
    | none => simp [h1] at h
    | some s1 =>
      simp only [h1] at h
      have hf := s.scanParam_frame s1 p h1
      have hstep := s.scanParam_keys s1 p h1 key
      have hrest := ih s1 h
      have lift : (∃ q ∈ rest, key.2 = q.pointer ∧ s1.isRemoteParam q = some true ∧
          s1.solverId q = some key.1) →
          ∃ q ∈ p :: rest, key.2 = q.pointer ∧ s.isRemoteParam q = some true ∧
            s.solverId q = some key.1 := by
        rintro ⟨q, hq, hptr, hqr, hqd⟩
        have hcg := s.isRemoteParam_congr s1 q hf.1 hf.2.1
        exact ⟨q, List.mem_cons_of_mem _ hq, hptr, hcg.1.symm.trans hqr, hcg.2.symm.trans hqd⟩
      constructor
      · intro hmem
        rcases hrest.1 hmem with h2 | h2
        · rcases hstep.1 h2 with h3 | h3
          · exact Or.inl h3
          · exact Or.inr ⟨p, List.mem_cons_self _ _, h3⟩
        · exact Or.inr (lift h2)
      · intro hmem
        rcases hrest.2 hmem with h2 | h2
        · rcases hstep.2 h2 with h3 | h3
          · exact Or.inl h3
          · exact Or.inr ⟨p, List.mem_cons_self _ _, h3⟩
        · exact Or.inr (lift h2)

theorem mem_dualKeys_of_mem_dualPairs (store : DualStates K) (pair : Int × StatePtr × List K)
    (h : pair ∈ dualPairs store) : (pair.1, pair.2.1) ∈ dualKeys store :=
  List.mem_map.mpr ⟨pair, h, rfl⟩

theorem forall₂_mem_right {α β : Type} (R : α → β → Prop) (as : List α) (bs : List β)
    (h : List.Forall₂ R as bs) (b : β) (hb : b ∈ bs) : ∃ a ∈ as, R a b := by
  induction h with
  | nil => exact absurd hb (List.not_mem_nil _)
  | cons hr _ ih =>
    rcases List.mem_cons.mp hb with rfl | hb
    · exact ⟨_, List.mem_cons_self _ _, hr⟩
    · obtain ⟨a, ha, hab⟩ := ih hb
      exact ⟨a, List.mem_cons_of_mem _ ha, hab⟩

end ScanOriginClaim

section ScanOriginTheorem

variable {K P : Type} [LinearOrderedField K]

/-- C27. `scanAndCreateDualStates` creates dual states only for pose parameters
of frames owned by another drone. It returns when every pose of a residual
names a known frame; a parameter that is neither `POSE` nor `POSE_4D`
(landmark, extrinsic, speed-bias, time offset) never makes it create a dual;
every `(peer, parameter)` key it adds to either store is the address of a
`POSE` or `POSE_4D` parameter of a residual whose frame belongs to `peer`, with
`peer` other than `self_id`; and, starting without duals, every consensus
residual that `setDualStateFactors` then builds is attached to such a pose. -/
theorem scanAndCreateDualStates_only_remote_poses (E : Externals K P) (s : ARockSolver K) :
    (s.FramesKnown → (s.scanAndCreateDualStates).isSome) ∧
    (∀ p : ParamInfo, ¬ (p.type = ParamsType.POSE ∨ p.type = ParamsType.POSE_4D) →
      s.scanParam p = some s) ∧
    ∀ t, s.scanAndCreateDualStates = some t →
      (∀ key : Int × StatePtr,
        (key ∈ dualKeys t.dual_states_remote ∧ key ∉ dualKeys s.dual_states_remote) ∨
          (key ∈ dualKeys t.dual_states_local ∧ key ∉ dualKeys s.dual_states_local) →
        ∃ q ∈ allParams s.state s.residuals, q.pointer = key.2 ∧
          (q.type = ParamsType.POSE ∨ q.type = ParamsType.POSE_4D) ∧
          ∃ frame, s.state.getFramebyId q.id = some frame ∧ frame.drone_id = key.1 ∧
            key.1 ≠ s.self_id) ∧
      (s.dual_states_remote = [] → ∀ u, t.setDualStateFactors E = some u →
        ∃ problem blocks, t.problem = some problem ∧
          u.problem = some { problem with
            residual_blocks := problem.residual_blocks ++ blocks } ∧
          ∀ block ∈ blocks, ∃ q ∈ allParams s.state s.residuals,
            block.attachedTo = some q.pointer ∧
            (q.type = ParamsType.POSE ∨ q.type = ParamsType.POSE_4D) ∧
            ∃ frame, s.state.getFramebyId q.id = some frame ∧
              frame.drone_id ≠ s.self_id) := by
  refine ⟨fun hframes => ?_, fun p hp => s.scanParam_of_not_pose p hp, fun t ht => ?_⟩
  · obtain ⟨t, _, ht⟩ := s.scanAndCreateDualStates_returns hframes
    simp [ht]
  · have hscan : s.scanParams (allParams s.state s.residuals) = some t := by
      rw [← ARockSolver.scanResiduals_eq]
      exact ht
    have origin : ∀ key : Int × StatePtr,
        (key ∈ dualKeys t.dual_states_remote ∧ key ∉ dualKeys s.dual_states_remote) ∨
          (key ∈ dualKeys t.dual_states_local ∧ key ∉ dualKeys s.dual_states_local) →
        ∃ q ∈ allParams s.state s.residuals, q.pointer = key.2 ∧
          (q.type = ParamsType.POSE ∨ q.type = ParamsType.POSE_4D) ∧
          ∃ frame, s.state.getFramebyId q.id = some frame ∧ frame.drone_id = key.1 ∧
            key.1 ≠ s.self_id := by
      intro key hkey
      have hk := s.scanParams_keys t _ hscan key
      have hq : ∃ q ∈ allParams s.state s.residuals, key.2 = q.pointer ∧
          s.isRemoteParam q = some true ∧ s.solverId q = some key.1 := by
        rcases hkey with ⟨hin, hout⟩ | ⟨hin, hout⟩
        · rcases hk.1 hin with h | h
          · exact absurd h hout
          · exact h
        · rcases hk.2 hin with h | h
          · exact absurd h hout
          · exact h
      obtain ⟨q, hmem, hptr, hr, hd⟩ := hq
      obtain ⟨hpose, frame, hf, hown, hne⟩ := s.remote_param_owner q key.1 hr hd
      exact ⟨q, hmem, hptr.symm, hpose, frame, hf, hown, hne⟩
    refine ⟨origin, fun hempty u hu => ?_⟩
    unfold ARockSolver.setDualStateFactors at hu
    cases hp : t.problem with
    | none => simp [hp] at hu
    | some problem =>
      cases ha : t.addFactorsAll E t.dual_states_remote problem with
      | none => simp [hp, ha] at hu
      | some problem1 =>
        simp only [hp, ha, Option.some.injEq] at hu
        subst hu
        obtain ⟨blocks, hpb, hall⟩ := t.addFactorsAll_spec E _ problem problem1 ha
        refine ⟨problem, blocks, rfl, by rw [hpb], fun block hblock => ?_⟩
        obtain ⟨pair, hpair, hatt, _⟩ := forall₂_mem_right _ _ _ hall block hblock
        have hkey := mem_dualKeys_of_mem_dualPairs _ pair hpair
        obtain ⟨q, hmem, hptr, hpose, frame, hf, hown, hne⟩ :=
          origin (pair.1, pair.2.1) (Or.inl ⟨hkey, by rw [hempty]; simp [dualKeys, dualPairs]⟩)
        exact ⟨q, hmem, by rw [hatt, hptr], hpose, frame, hf, by rw [hown]; exact hne⟩

theorem scanAndCreateDualStates_only_remote_poses_witness :
    Sample.solver1.FramesKnown ∧
    (Sample.solver1.scanAndCreateDualStates).isSome ∧
    Sample.solver1.scanParam Sample.landmark = some Sample.solver1 ∧
    ∃ t, Sample.solver1.scanAndCreateDualStates = some t ∧
      dualKeys t.dual_states_remote = [(2, 200)] ∧
      dualKeys t.dual_states_local = [(2, 200)] ∧
      ∃ q ∈ allParams Sample.solver1.state Sample.solver1.residuals, q.pointer = 200 ∧
        (q.type = ParamsType.POSE ∨ q.type = ParamsType.POSE_4D) ∧
        ∃ frame, Sample.solver1.state.getFramebyId q.id = some frame ∧
          frame.drone_id = 2 ∧ (2 : Int) ≠ Sample.solver1.self_id := by
  have h := scanAndCreateDualStates_only_remote_poses Sample.externals Sample.solver1
  obtain ⟨t, ht⟩ : ∃ t, Sample.solver1.scanAndCreateDualStates = some t := ⟨_, rfl⟩
  have hkeys : dualKeys t.dual_states_remote = [(2, 200)] ∧
      dualKeys t.dual_states_local = [(2, 200)] := by
    have ht' : some t = Sample.solver1.scanAndCreateDualStates := ht.symm
    have : t = _ := Option.some.inj ht'
    subst this
    exact ⟨rfl, rfl⟩
  refine ⟨Sample.solver1_framesKnown, h.1 Sample.solver1_framesKnown,
    h.2.1 Sample.landmark (by decide), t, ht, hkeys.1, hkeys.2, ?_⟩
  exact (h.2.2 t ht).1 (2, 200)
    (Or.inl ⟨by rw [hkeys.1]; exact List.mem_singleton.mpr rfl, by
      simp [dualKeys, dualPairs, Sample.solver1, Sample.solver, ARockSolver.addResidual]⟩)

end ScanOriginTheorem

/-! ## Lookups of the consensus steps -/

section Lookups

variable {K P : Type}

theorem ARockSolver.addParam_frame (s : ARockSolver K) (p : ParamInfo) :
    (s.addParam p).state = s.state ∧ (s.addParam p).residuals = s.residuals ∧
    (s.addParam p).dual_states_local = s.dual_states_local ∧
    (s.addParam p).dual_states_remote = s.dual_states_remote := by
  unfold ARockSolver.addParam
  split <;> exact ⟨rfl, rfl, rfl, rfl⟩

theorem ARockSolver.addParam_registers (s : ARockSolver K) (p : ParamInfo) :
    (StdMap.find (s.addParam p).all_estimating_params p.pointer).isSome := by
  unfold ARockSolver.addParam
  split
  · next h => exact h
  · simp [StdMap.find_insert_self]

theorem ARockSolver.addParam_mono (s : ARockSolver K) (p : ParamInfo) (ptr : StatePtr)
    (h : (StdMap.find s.all_estimating_params ptr).isSome) :
    (StdMap.find (s.addParam p).all_estimating_params ptr).isSome := by
  unfold ARockSolver.addParam
  split
  · exact h
  · by_cases hp : ptr = p.pointer
    · subst hp
      simp [StdMap.find_insert_self]
    · simp only [StdMap.find_insert_ne _ _ _ _ hp]
      exact h

theorem ARockSolver.foldl_addParam (ps : List ParamInfo) (s : ARockSolver K) :
    (ps.foldl ARockSolver.addParam s).state = s.state ∧
    (ps.foldl ARockSolver.addParam s).residuals = s.residuals ∧
    (ps.foldl ARockSolver.addParam s).dual_states_local = s.dual_states_local ∧
    (ps.foldl ARockSolver.addParam s).dual_states_remote = s.dual_states_remote ∧
    (∀ ptr, (StdMap.find s.all_estimating_params ptr).isSome →
      (StdMap.find (ps.foldl ARockSolver.addParam s).all_estimating_params ptr).isSome) ∧
    (∀ p ∈ ps,
      (StdMap.find (ps.foldl ARockSolver.addParam s).all_estimating_params
        p.pointer).isSome) := by
  induction ps generalizing s with
  | nil => exact ⟨rfl, rfl, rfl, rfl, fun _ h => h, fun p hp => absurd hp (List.not_mem_nil _)⟩
  | cons q rest ih =>
    obtain ⟨h1, h2, h3, h4, h5, h6⟩ := ih (s.addParam q)
    obtain ⟨f1, f2, f3, f4⟩ := s.addParam_frame q
    simp only [List.foldl_cons]
    refine ⟨h1.trans f1, h2.trans f2, h3.trans f3, h4.trans f4,
      fun ptr h => h5 ptr (s.addParam_mono q ptr h), fun p hp => ?_⟩
    rcases List.mem_cons.mp hp with rfl | hp
    · exact h5 _ (s.addParam_registers p)
    · exact h6 p hp

theorem ARockSolver.lookupsReady_addResidual (s : ARockSolver K) (residual_info : ResidualInfo K)
    (h : s.LookupsReady) : (s.addResidual residual_info).LookupsReady := by
  obtain ⟨hres, hloc, hrem⟩ := h
  obtain ⟨h1, h2, h3, h4, h5, h6⟩ :=
    ARockSolver.foldl_addParam (residual_info.paramsList s.state) s
  have hstate : (s.addResidual residual_info).state = s.state := h1
  have hreg : (s.addResidual residual_info).all_estimating_params =
      ((residual_info.paramsList s.state).foldl ARockSolver.addParam s).all_estimating_params :=
    rfl
  have hresiduals : (s.addResidual residual_info).residuals = s.residuals ++ [residual_info] := by
    show ((residual_info.paramsList s.state).foldl ARockSolver.addParam s).residuals ++ _ = _
    rw [h2]
  have hl : (s.addResidual residual_info).dual_states_local = s.dual_states_local := h3
  have hr : (s.addResidual residual_info).dual_states_remote = s.dual_states_remote := h4
  refine ⟨fun res hmem p hp => ?_, fun key hkey => ?_, fun key hkey => ?_⟩
  · rw [hreg]
    rw [hstate] at hp
    rw [hresiduals] at hmem
    rcases List.mem_append.mp hmem with hold | hnew
    · exact h5 _ (hres res hold p hp)
    · have : res = residual_info := List.mem_singleton.mp hnew
      subst this
      exact h6 p hp
  · rw [hl] at hkey
    have := hloc key hkey
    refine ⟨by rw [hreg]; exact h5 _ this.1, ?_⟩
    unfold ARockSolver.remoteDual
    rw [hr]
    exact this.2
  · rw [hr] at hkey
    rw [hreg]
    exact h5 _ (hrem key hkey)

end Lookups

section LookupsInvariant

variable {K P : Type} [LinearOrderedField K] [FloorRing K]

omit [LinearOrderedField K] [FloorRing K] in
theorem ARockSolver.lookupsReady_scan (s t : ARockSolver K) (h : s.LookupsReady)
    (ht : s.scanAndCreateDualStates = some t) : t.LookupsReady := by
  obtain ⟨hres, hloc, hrem⟩ := h
  have hscan : s.scanParams (allParams s.state s.residuals) = some t := by
    rw [← ARockSolver.scanResiduals_eq]
    exact ht
  obtain ⟨hstate, _, hresiduals⟩ := s.scanParams_frame t _ hscan
  have hreg : t.all_estimating_params = s.all_estimating_params :=
    (s.scanParams_keeps_config t _ hscan).2.2.1
  have hnew : ∀ key : Int × StatePtr,
      (∃ q ∈ allParams s.state s.residuals, key.2 = q.pointer ∧
        s.isRemoteParam q = some true ∧ s.solverId q = some key.1) →
      (StdMap.find s.all_estimating_params key.2).isSome ∧
        (t.remoteDual key.1 key.2).isSome := by
    rintro key ⟨q, hq, hptr, hr, hd⟩
    obtain ⟨res, hmem, hp⟩ := (mem_allParams s.state s.residuals q).mp hq
    refine ⟨by rw [hptr]; exact hres res hmem q hp, ?_⟩
    rw [hptr]
    exact s.scanParams_creates t _ hscan q hq key.1 hr hd
  refine ⟨fun res hmem p hp => ?_, fun key hkey => ?_, fun key hkey => ?_⟩
  · rw [hreg]
    rw [hstate] at hp
    rw [hresiduals] at hmem
    exact hres res hmem p hp
  · rw [hreg]
    rcases (s.scanParams_keys t _ hscan key).2 hkey with hold | hq
    · have := hloc key hold
      exact ⟨this.1, by rw [(s.scanParams_keeps t _ hscan key.1 key.2 this.2).1]; exact this.2⟩
    · exact hnew key hq
  · rw [hreg]
    rcases (s.scanParams_keys t _ hscan key).1 hkey with hold | hq
    · exact hrem key hold
    · exact (hnew key hq).1

theorem ARockSolver.lookupsReady_of_byScan (E : Externals K P) (s : ARockSolver K)
    (h : ARockSolver.ByScan E s) : s.LookupsReady := by
  induction h with
  | start s hres hlocal hremote =>
    refine ⟨fun res hmem => ?_, fun key hkey => ?_, fun key hkey => ?_⟩
    · rw [hres] at hmem
      exact absurd hmem (List.not_mem_nil _)
    · rw [hlocal] at hkey
      exact absurd hkey (by simp [dualKeys, dualPairs])
    · rw [hremote] at hkey
      exact absurd hkey (by simp [dualKeys, dualPairs])
  | addResidual s residual_info _ ih => exact s.lookupsReady_addResidual residual_info ih
  | resetResiduals s _ ih =>
    exact ⟨fun res hmem => absurd hmem (List.not_mem_nil _), ih.2.1, ih.2.2⟩
  | scanAndCreateDualStates s t _ ht ih => exact s.lookupsReady_scan t ih ht
  | buildProblem s _ ih => exact ih
  | setDualStateFactors s t _ ht ih =>
    obtain ⟨hr, hl, hreg, hstate, hresiduals⟩ := s.setDualStateFactors_frame E t ht
    unfold ARockSolver.LookupsReady ARockSolver.remoteDual
    rw [hr, hl, hreg, hstate, hresiduals]
    exact ih
  | setStateProperties s env _ ih => exact ih
  | solveLocalStep s t env summary _ ht hlists ih =>
    unfold ARockSolver.solveLocalStep at ht
    cases hp : s.problem with
    | none => simp [hp] at ht
    | some problem =>
      simp only [hp, Option.some.injEq, Prod.mk.injEq] at ht
      obtain ⟨ht, _⟩ := ht
      have hresiduals : t.residuals = s.residuals := by rw [← ht]
      refine ⟨fun res hmem p hp' => ?_, ?_, ?_⟩
      · rw [hresiduals] at hmem
        rw [hlists res hmem] at hp'
        have := ih.1 res hmem p hp'
        rw [← ht]
        exact this
      · rw [← ht]
        exact ih.2.1
      · rw [← ht]
        exact ih.2.2
  | updateDualStates s t _ ht ih =>
    obtain ⟨_, hremote, hstate, hreg, hresiduals, _⟩ := s.updateDualStates_spec E t ht
    have hkeys := s.dualKeys_updateDualStates E t ht
    unfold ARockSolver.LookupsReady ARockSolver.remoteDual
    rw [hremote, hkeys, hreg, hstate, hresiduals]
    exact ih

end LookupsInvariant

section LookupsClaim

variable {K P : Type} [LinearOrderedField K] [FloorRing K]

/-- C25. The lookups of the consensus steps cannot fail for duals the scan
created. In a solver state whose residuals were all added through
`addResidual` and whose duals were all created by `scanAndCreateDualStates`:
every `all_estimating_params.at(pointer)` of `setDualStateFactors` finds a
registered parameter, so the step returns once the problem exists; every
`all_estimating_params.at(pointer)` and every
`dual_states_remote.at(peer).at(pointer)` of `updateDualStates` finds an
entry, so that step returns when its vector operations are well-sized. -/
theorem consensus_lookups_succeed (E : Externals K P) (s : ARockSolver K)
    (h : ARockSolver.ByScan E s) :
    (∀ pair ∈ dualPairs s.dual_states_remote,
      (StdMap.find s.all_estimating_params pair.2.1).isSome) ∧
    (∀ problem, s.problem = some problem → (s.setDualStateFactors E).isSome) ∧
    (∀ d duals, (d, duals) ∈ s.dual_states_local → ∀ ptr zl, (ptr, zl) ∈ duals →
      (StdMap.find s.all_estimating_params ptr).isSome ∧
      ((StdMap.find s.dual_states_remote d).bind
        (fun remote => StdMap.find remote ptr)).isSome) ∧
    ((∀ d duals, (d, duals) ∈ s.dual_states_local → ∀ ptr zl, (ptr, zl) ∈ duals →
        ∀ param_info zr, StdMap.find s.all_estimating_params ptr = some param_info →
          s.remoteDual d ptr = some zr → E.IsSE3 param_info.type = false →
          zl.length = param_info.size ∧ zr.length = param_info.size ∧
            (E.IsPose4D param_info.type = true → 3 < param_info.size)) →
      (s.updateDualStates E).isSome) := by
  obtain ⟨_, hloc, hrem⟩ := s.lookupsReady_of_byScan E h
  have hpairs : ∀ pair ∈ dualPairs s.dual_states_remote,
      (StdMap.find s.all_estimating_params pair.2.1).isSome :=
    fun pair hpair => hrem (pair.1, pair.2.1) (mem_dualKeys_of_mem_dualPairs _ pair hpair)
  have hentry : ∀ d duals, (d, duals) ∈ s.dual_states_local → ∀ ptr zl, (ptr, zl) ∈ duals →
      (StdMap.find s.all_estimating_params ptr).isSome ∧ (s.remoteDual d ptr).isSome :=
    fun d duals hd ptr zl hz =>
      hloc (d, ptr) ((mem_dualKeys s.dual_states_local (d, ptr)).mpr ⟨duals, hd, zl, hz⟩)
  refine ⟨hpairs, fun problem hproblem => ?_, hentry, fun hsize => ?_⟩
  · obtain ⟨problem1, h1⟩ := s.addFactorsAll_isSome E s.dual_states_remote problem hpairs
    simp [ARockSolver.setDualStateFactors, hproblem, h1]
  · have hready : s.UpdateReady E := by
      intro d duals hd ptr zl hz
      obtain ⟨hp, hr⟩ := hentry d duals hd ptr zl hz
      obtain ⟨param_info, hp⟩ := Option.isSome_iff_exists.mp hp
      obtain ⟨zr, hr⟩ := Option.isSome_iff_exists.mp hr
      exact ⟨param_info, zr, hp, hr, hsize d duals hd ptr zl hz param_info zr hp hr⟩
    obtain ⟨t, ht⟩ := s.updateDualStates_returns E
      (fun d duals hd ptr zl hz => s.updateDualState_isSome E hready d duals hd ptr zl hz)
    simp [ht]

theorem consensus_lookups_succeed_witness :
    ∃ t, (Sample.solver.addResidual Sample.residual).scanAndCreateDualStates = some t ∧
      t.dual_states_local = [(2, [(200, [1, 2, 3, 0, 0, 0, 1])])] ∧
      ARockSolver.ByScan Sample.externals t.buildProblem ∧
      (t.buildProblem.setDualStateFactors Sample.externals).isSome ∧
      (t.buildProblem.updateDualStates Sample.externals).isSome := by
  refine ⟨_, rfl, rfl, ?_⟩
  have hby : ARockSolver.ByScan Sample.externals
      (((Sample.solver.addResidual Sample.residual).scanAndCreateDualStates).getD
        Sample.solver).buildProblem :=
    ARockSolver.ByScan.buildProblem _
      (ARockSolver.ByScan.scanAndCreateDualStates _ _
        (ARockSolver.ByScan.addResidual _ Sample.residual
          (ARockSolver.ByScan.start Sample.solver rfl rfl rfl)) rfl)
  have h := consensus_lookups_succeed Sample.externals _ hby
  refine ⟨hby, h.2.1 _ rfl, h.2.2.2 ?_⟩
  intro d duals hd ptr zl hz param_info zr hp hr hse3
  have hd' : (d, duals) = ((2 : Int), [((200 : StatePtr), ([1, 2, 3, 0, 0, 0, 1] : List ℚ))]) :=
    List.mem_singleton.mp hd
  obtain ⟨rfl, rfl⟩ := Prod.mk.inj hd'
  have hz' : (ptr, zl) = ((200 : StatePtr), ([1, 2, 3, 0, 0, 0, 1] : List ℚ)) :=
    List.mem_singleton.mp hz
  obtain ⟨rfl, rfl⟩ := Prod.mk.inj hz'
  have hp' : some param_info = some Sample.poseRemote := hp.symm.trans rfl
  have hpi : param_info = Sample.poseRemote := Option.some.inj hp'
  subst hpi
  exact absurd hse3 (by decide)

end LookupsClaim

/-! ## Termination of the outer loop -/

section Termination

variable {K P : Type} [LinearOrderedField K] [FloorRing K]

/-- When the `int` counters cannot overflow, every pass that goes on lowers
`(max_steps - iter_cnt) + (max_wait_steps + max_steps + 1 - total_cnt)`. -/
theorem ARockSolver.loopPasses_le (E : Externals K P) (env : SolveEnv K) (fuel n : Nat)
    (s : ARockSolver K) (iter_cnt total_cnt : Int) (report : SolverReport K)
    (hwait : 0 ≤ s.config.max_wait_steps)
    (hfit : 2 * s.config.max_steps + s.config.max_wait_steps < 2147483648)
    (hiter : 0 ≤ iter_cnt) (htotal : 0 ≤ total_cnt)
    (hinv : total_cnt ≤ s.config.max_wait_steps + s.config.max_steps + iter_cnt) :
    s.loopPasses E env fuel n iter_cnt total_cnt report ≤
      (s.config.max_steps - iter_cnt).toNat +
        (s.config.max_wait_steps + s.config.max_steps + 1 - total_cnt).toNat := by
  induction fuel generalizing n s iter_cnt total_cnt report with
  | zero => simp [ARockSolver.loopPasses]
  | succ fuel ih =>
    unfold ARockSolver.loopPasses
    by_cases hg : iter_cnt < s.config.max_steps
    · simp only [hg, if_true]
      rcases s.solvePass_cases_fit E env n iter_cnt total_cnt report hwait hfit hg hiter htotal
          hinv with
        ⟨h, _, _⟩ | ⟨h, _, hle⟩ | ⟨s1, report1, problem, summary, h, hc, _⟩ | ⟨s1, h, _⟩ |
        ⟨s1, problem, summary, h, _⟩
      · simp only [h]
        omega
      · simp only [h]
        have hcfg : (s.receiveAll env n).config = s.config := rfl
        have := ih (n + 1) (s.receiveAll env n) iter_cnt (total_cnt + 1) report
          (by rw [hcfg]; exact hwait) (by rw [hcfg]; exact hfit) hiter (by omega)
          (by rw [hcfg]; omega)
        rw [hcfg] at this
        omega
      · simp only [h]
        have := ih (n + 1) s1 (iter_cnt + 1) (total_cnt + 1) report1
          (by rw [hc]; exact hwait) (by rw [hc]; exact hfit) (by omega) (by omega)
          (by rw [hc]; omega)
        rw [hc] at this
        omega
      · simp only [h]
        omega
      · simp only [h]
        omega
    · simp [hg]

/-- When the `int` counters cannot overflow, a run granted as many passes as
the measure does not use them up, and more passes give the same run. -/
theorem ARockSolver.solveLoop_fuel (E : Externals K P) (env : SolveEnv K) (fuel fuel' n : Nat)
    (s : ARockSolver K) (iter_cnt total_cnt : Int) (report : SolverReport K)
    (hwait : 0 ≤ s.config.max_wait_steps)
    (hfit : 2 * s.config.max_steps + s.config.max_wait_steps < 2147483648)
    (hiter : 0 ≤ iter_cnt) (htotal : 0 ≤ total_cnt)
    (hinv : total_cnt ≤ s.config.max_wait_steps + s.config.max_steps + iter_cnt)
    (hfuel : (s.config.max_steps - iter_cnt).toNat +
      (s.config.max_wait_steps + s.config.max_steps + 1 - total_cnt).toNat ≤ fuel)
    (hfuel' : (s.config.max_steps - iter_cnt).toNat +
      (s.config.max_wait_steps + s.config.max_steps + 1 - total_cnt).toNat ≤ fuel') :
    (s.solveLoop E env fuel n iter_cnt total_cnt report).status ≠ SolveStatus.outOfFuel ∧
    s.solveLoop E env fuel n iter_cnt total_cnt report =
      s.solveLoop E env fuel' n iter_cnt total_cnt report := by
  induction fuel generalizing fuel' n s iter_cnt total_cnt report with
  | zero =>
    have hg : ¬ iter_cnt < s.config.max_steps := by omega
    cases fuel' with
    | zero =>
      unfold ARockSolver.solveLoop
      simp [hg]
    | succ fuel' =>
      unfold ARockSolver.solveLoop
      simp [hg]
  | succ fuel ih =>
    by_cases hg : iter_cnt < s.config.max_steps
    · cases fuel' with
      | zero => omega
      | succ fuel' =>
        unfold ARockSolver.solveLoop
        simp only [hg, if_true]
        rcases s.solvePass_cases_fit E env n iter_cnt total_cnt report hwait hfit hg hiter
            htotal hinv with
          ⟨h, _, _⟩ | ⟨h, _, hle⟩ | ⟨s1, report1, problem, summary, h, hc, _⟩ | ⟨s1, h, _⟩ |
          ⟨s1, problem, summary, h, _⟩
        · simp [h]
        · simp only [h]
          have hcfg : (s.receiveAll env n).config = s.config := rfl
          have := ih fuel' (n + 1) (s.receiveAll env n) iter_cnt (total_cnt + 1) report
            (by rw [hcfg]; exact hwait) (by rw [hcfg]; exact hfit) hiter (by omega)
            (by rw [hcfg]; omega) (by rw [hcfg]; omega) (by rw [hcfg]; omega)
          exact ⟨this.1, by rw [this.2]⟩
        · simp only [h]
          have := ih fuel' (n + 1) s1 (iter_cnt + 1) (total_cnt + 1) report1
            (by rw [hc]; exact hwait) (by rw [hc]; exact hfit) (by omega) (by omega)
            (by rw [hc]; omega) (by rw [hc]; omega) (by rw [hc]; omega)
          exact ⟨this.1, by rw [this.2]⟩
        · simp [h]
        · simp [h]
    · cases fuel' with
      | zero =>
        unfold ARockSolver.solveLoop
        simp [hg]
      | succ fuel' =>
        unfold ARockSolver.solveLoop
        simp [hg]

/-- C26 as stated fails: with `max_steps = 1` and `max_wait_steps = 2147483646`
(both not negative, their sum is `INT_MAX`) and a `receiveAll` that never
delivers, the `int` counter `total_cnt` never exceeds the sum, so no empty
round bails out: granted 2147483650 passes the loop makes all of them, more
than `2·max_steps + max_wait_steps + 1 = 2147483649`, and a run never ends,
whatever number of passes it is granted. -/
theorem solve_terminates_counterexample :
    ((0 : Int) ≤ Sample.solverWaitMax.config.max_steps ∧
      (0 : Int) ≤ Sample.solverWaitMax.config.max_wait_steps ∧
      Sample.solverWaitMax.updated = false) ∧
    (2 * Sample.solverWaitMax.config.max_steps + Sample.solverWaitMax.config.max_wait_steps
      + 1).toNat = 2147483649 ∧
    Sample.solverWaitMax.solvePasses Sample.externals Sample.env 2147483650 = 2147483650 ∧
    ∀ fuel : Nat, (Sample.solverWaitMax.solve Sample.externals Sample.env fuel).status
      = SolveStatus.outOfFuel := by
  have h := fun fuel => ARockSolver.solveLoop_stuck Sample.externals Sample.env
    (fun _ _ => ⟨rfl, rfl, rfl⟩) Sample.solverWaitMax rfl 0 (by decide) (by decide)
    fuel 0 0 Sample.env.report0
  refine ⟨⟨by decide, by decide, rfl⟩, by decide, (h 2147483650).2, fun fuel => ?_⟩
  unfold ARockSolver.solve
  rw [(h fuel).1]

/-- C26 amended. `solve` terminates for every behaviour of `receiveAll` when the
`int` counters cannot overflow: with `max_steps >= 0`, `max_wait_steps >= 0`
and `2·max_steps + max_wait_steps` at most `INT_MAX`, the `while` loop makes
at most `2·max_steps + max_wait_steps + 1` passes, so a run granted that many
passes ends by returning or by an exception, and granting more passes changes
nothing. -/
theorem solve_terminates (E : Externals K P) (env : SolveEnv K) (s : ARockSolver K)
    (hsteps : 0 ≤ s.config.max_steps) (hwait : 0 ≤ s.config.max_wait_steps)
    (hfit : 2 * s.config.max_steps + s.config.max_wait_steps ≤ 2147483647) :
    (∀ fuel, s.solvePasses E env fuel ≤
      (2 * s.config.max_steps + s.config.max_wait_steps + 1).toNat) ∧
    ∀ fuel, (2 * s.config.max_steps + s.config.max_wait_steps + 1).toNat ≤ fuel →
      (s.solve E env fuel).status ≠ SolveStatus.outOfFuel ∧
      s.solve E env fuel =
        s.solve E env (2 * s.config.max_steps + s.config.max_wait_steps + 1).toNat := by
  refine ⟨fun fuel => ?_, fun fuel hfuel => ?_⟩
  · have := s.loopPasses_le E env fuel 0 0 0 env.report0 hwait (by omega) (le_refl 0)
      (le_refl 0) (by omega)
    unfold ARockSolver.solvePasses
    omega
  · unfold ARockSolver.solve
    exact s.solveLoop_fuel E env fuel _ 0 0 0 env.report0 hwait (by omega) (le_refl 0)
      (le_refl 0) (by omega) (by omega) (by omega)

theorem solve_terminates_witness :
    ((0 : Int) ≤ Sample.solverShort.config.max_steps ∧
      (0 : Int) ≤ Sample.solverShort.config.max_wait_steps ∧
      2 * Sample.solverShort.config.max_steps + Sample.solverShort.config.max_wait_steps
        ≤ 2147483647) ∧
    Sample.solverShort.solvePasses Sample.externals Sample.env 10 ≤ 6 ∧
    (Sample.solverShort.solve Sample.externals Sample.env 10).status
      ≠ SolveStatus.outOfFuel ∧
    Sample.solverShort.solve Sample.externals Sample.env 10 =
      Sample.solverShort.solve Sample.externals Sample.env 6 :=
  ⟨⟨by decide, by decide, by decide⟩,
    (solve_terminates Sample.externals Sample.env Sample.solverShort (by decide)
      (by decide) (by decide)).1 10,
    (solve_terminates Sample.externals Sample.env Sample.solverShort (by decide)
      (by decide) (by decide)).2 10 (by decide)⟩

end Termination

/-! ## Round trip through the wire form -/

section Wire

variable {P W : Type}

theorem emplacePairs_take {α β γ δ : Type} (f : α → γ) (g : β → δ) (xs : List α)
    (ys : List β) (n : Nat) (hx : n ≤ xs.length) (hy : n ≤ ys.length) :
    emplacePairs f g xs ys n = some ((xs.take n).map f, (ys.take n).map g) := by
  induction n with
  | zero => simp [emplacePairs]
  | succ n ih =>
    have hxn : xs[n]? = some xs[n] := List.getElem?_eq_getElem (by omega)
    have hyn : ys[n]? = some ys[n] := List.getElem?_eq_getElem (by omega)
    simp only [emplacePairs, ih (by omega) (by omega), hxn, hyn, List.take_succ,
      Option.toList, List.map_append, List.map_cons, List.map_nil]

theorem emplacePairs_all {α β γ δ : Type} (f : α → γ) (g : β → δ) (xs : List α)
    (ys : List β) (h : ys.length = xs.length) :
    emplacePairs f g xs ys xs.length = some (xs.map f, ys.map g) := by
  rw [emplacePairs_take f g xs ys xs.length (le_refl _) (by omega), List.take_length,
    ← h, List.take_length]

/-- C22. Converting a `DistributedVinsData` whose parallel lists have equal
lengths to its wire form and back succeeds and is the identity on the discrete
content: the same `drone_id`, `solver_token` and `iteration_count`, the same
`frame_ids`, `cam_ids` and `remote_drone_ids` in the same order; and the wire
form has `sld_win_len`, `camera_num` and `remote_drone_num` equal to the
lengths of those lists. -/
theorem toLCM_roundtrip (C : PoseWire P W) (d : DistributedVinsData P)
    (hframes : d.frame_poses.length = d.frame_ids.length)
    (hcams : d.extrinsic.length = d.cam_ids.length)
    (hremote : d.relative_coordinates.length = d.remote_drone_ids.length) :
    ∃ msg d', d.toLCM C = some msg ∧ DistributedVinsData.construct C msg = some d' ∧
      d'.drone_id = d.drone_id ∧ d'.solver_token = d.solver_token ∧
      d'.iteration_count = d.iteration_count ∧
      d'.frame_ids = d.frame_ids ∧ d'.cam_ids = d.cam_ids ∧
      d'.remote_drone_ids = d.remote_drone_ids ∧
      msg.sld_win_len = d.frame_ids.length ∧ msg.camera_num = d.cam_ids.length ∧
      msg.remote_drone_num = d.remote_drone_ids.length ∧
      d'.frame_poses = d.frame_poses.map (fun pose => C.ofLCM (C.toLCM pose)) ∧
      d'.extrinsic = d.extrinsic.map (fun pose => C.ofLCM (C.toLCM pose)) ∧
      d'.relative_coordinates =
        d.relative_coordinates.map (fun pose => C.ofLCM (C.toLCM pose)) := by
  have h1 := emplacePairs_all (id : FrameIdType → FrameIdType) C.toLCM d.frame_ids
    d.frame_poses hframes
  have h2 := emplacePairs_all C.toLCM (id : Int → Int) d.extrinsic d.cam_ids hcams.symm
  have h3 := emplacePairs_all C.toLCM (id : Int → Int) d.relative_coordinates
    d.remote_drone_ids hremote.symm
  have hto : d.toLCM C = some
      { drone_id := d.drone_id
        frame_ids := d.frame_ids.map id
        frame_poses := d.frame_poses.map C.toLCM
        extrinsic := d.extrinsic.map C.toLCM
        cam_ids := d.cam_ids.map id
        relative_coordinates := d.relative_coordinates.map C.toLCM
        remote_drone_ids := d.remote_drone_ids.map id
        camera_num := d.extrinsic.length
        sld_win_len := d.frame_ids.length
        remote_drone_num := d.remote_drone_ids.length
        solver_token := d.solver_token
        iteration_count := d.iteration_count } := by
    simp only [DistributedVinsData.toLCM, h1, h2, h3]
  have g1 := emplacePairs_all (id : FrameIdType → FrameIdType) C.ofLCM (d.frame_ids.map id)
    (d.frame_poses.map C.toLCM) (by simp [hframes])
  have g2 := emplacePairs_all C.ofLCM (id : Int → Int) (d.extrinsic.map C.toLCM)
    (d.cam_ids.map id) (by simp [hcams])
  have g3 := emplacePairs_all (id : Int → Int) C.ofLCM (d.remote_drone_ids.map id)
    (d.relative_coordinates.map C.toLCM) (by simp [hremote])
  have hcon : DistributedVinsData.construct C
      { drone_id := d.drone_id
        frame_ids := d.frame_ids.map id
        frame_poses := d.frame_poses.map C.toLCM
        extrinsic := d.extrinsic.map C.toLCM
        cam_ids := d.cam_ids.map id
        relative_coordinates := d.relative_coordinates.map C.toLCM
        remote_drone_ids := d.remote_drone_ids.map id
        camera_num := d.extrinsic.length
        sld_win_len := d.frame_ids.length
        remote_drone_num := d.remote_drone_ids.length
        solver_token := d.solver_token
        iteration_count := d.iteration_count } = some
      { drone_id := d.drone_id
        solver_token := d.solver_token
        iteration_count := d.iteration_count
        frame_ids := (d.frame_ids.map id).map id
        frame_poses := (d.frame_poses.map C.toLCM).map C.ofLCM
        cam_ids := (d.cam_ids.map id).map id
        extrinsic := (d.extrinsic.map C.toLCM).map C.ofLCM
        remote_drone_ids := (d.remote_drone_ids.map id).map id
        relative_coordinates := (d.relative_coordinates.map C.toLCM).map C.ofLCM } := by
    simp only [DistributedVinsData.construct, g1, g2, g3]
  refine ⟨_, _, hto, hcon, ?_⟩
  simp [hcams]

theorem toLCM_roundtrip_witness :
    ∃ msg d', Sample.messageFull.toLCM Sample.poseWire = some msg ∧
      DistributedVinsData.construct Sample.poseWire msg = some d' ∧
      d'.drone_id = 2 ∧ d'.solver_token = 7 ∧ d'.iteration_count = 3 ∧
      d'.frame_ids = [42, 43] ∧ d'.cam_ids = [20] ∧ d'.remote_drone_ids = [1] ∧
      msg.sld_win_len = 2 ∧ msg.camera_num = 1 ∧ msg.remote_drone_num = 1 := by
  obtain ⟨msg, d', h1, h2, h3, h4, h5, h6, h7, h8, h9, h10, h11, _⟩ :=
    toLCM_roundtrip Sample.poseWire Sample.messageFull rfl rfl rfl
  exact ⟨msg, d', h1, h2, h3, h4, h5, h6, h7, h8, h9, h10, h11⟩

end Wire

/-! ## Frozen parameter blocks -/

section StateProperties

variable {K P : Type}

theorem StdSet.mem_toList (s : Finset Int) (x : Int) : x ∈ StdSet.toList s ↔ x ∈ s := by
  obtain ⟨val, nodup⟩ := s
  induction val using Quotient.inductionOn with
  | _ l =>
    show x ∈ l.insertionSort _ ↔ x ∈ l
    exact (List.perm_insertionSort _ l).mem_iff

theorem collectCalls_mem {α β : Type} (f : α → Option (List β)) (xs : List α) (out : List β)
    (h : collectCalls f xs = some out) (c : β) :
    c ∈ out ↔ ∃ x ∈ xs, ∃ calls, f x = some calls ∧ c ∈ calls := by
  induction xs generalizing out with
  | nil =>
    simp only [collectCalls, Option.some.injEq] at h
    subst h
    simp
  | cons x rest ih =>
    simp only [collectCalls] at h
    cases hx : f x with
    | none => simp [hx] at h
    | some calls =>
      cases hr : collectCalls f rest with
      | none => simp [hx, hr] at h
      | some more =>
        simp only [hx, hr, Option.some.injEq] at h
        subst h
        rw [List.mem_append, ih more hr]
        constructor
        · rintro (hc | ⟨y, hy, calls', hf, hc⟩)
          · exact ⟨x, List.mem_cons_self _ _, calls, hx, hc⟩
          · exact ⟨y, List.mem_cons_of_mem _ hy, calls', hf, hc⟩
        · rintro ⟨y, hy, calls', hf, hc⟩
          rcases List.mem_cons.mp hy with rfl | hy
          · rw [hx] at hf
            cases hf
            exact Or.inl hc
          · exact Or.inr ⟨y, hy, calls', hf, hc⟩

theorem collectCalls_isSome {α β : Type} (f : α → Option (List β)) (xs : List α)
    (h : ∀ x ∈ xs, (f x).isSome) : (collectCalls f xs).isSome := by
  induction xs with
  | nil => simp [collectCalls]
  | cons x rest ih =>
    obtain ⟨calls, hx⟩ := Option.isSome_iff_exists.mp (h x (List.mem_cons_self _ _))
    obtain ⟨more, hr⟩ := Option.isSome_iff_exists.mp
      (ih (fun y hy => h y (List.mem_cons_of_mem _ hy)))
    simp [collectCalls, hx, hr]

theorem StdMap.find_isSome_of_mem_keys {κ ν : Type} [DecidableEq κ] (m : StdMap κ ν) (k : κ)
    (h : k ∈ m.map Prod.fst) : (StdMap.find m k).isSome := by
  induction m with
  | nil => simp at h
  | cons hd tl ih =>
    obtain ⟨k', v⟩ := hd
    by_cases hk : k' = k
    · simp [StdMap.find, hk]
    · simp only [StdMap.find, hk, if_false]
      apply ih
      simp only [List.map_cons, List.mem_cons] at h
      rcases h with h | h
      · exact absurd h.symm hk
      · exact h

theorem D2Estimator.poseParameterizations_constant (e : D2Estimator K P) (M : StateMethods)
    (has : StatePtr → Bool) (poses : List (ProblemCall K))
    (h : e.poseParameterizations M has = some poses) (ptr : StatePtr) :
    ProblemCall.SetParameterBlockConstant ptr ∉ poses := by
  intro hmem
  unfold D2Estimator.poseParameterizations at h
  obtain ⟨drone_id, _, calls, hcalls, hc⟩ := (collectCalls_mem _ _ _ h _).mp hmem
  split at hcalls
  · obtain ⟨i, _, calls', hcalls', hc'⟩ := (collectCalls_mem _ _ _ hcalls _).mp hc
    split at hcalls'
    · simp at hcalls'
    · split at hcalls'
      · simp at hcalls'
      · split at hcalls'
        · simp only [Option.some.injEq] at hcalls'
          subst hcalls'
          simp at hc'
        · simp only [Option.some.injEq] at hcalls'
          subst hcalls'
          simp at hc'
  · simp only [Option.some.injEq] at hcalls
    subst hcalls
    simp at hc

theorem D2Estimator.landmarkBounds_constant (e : D2Estimator K P) (M : StateMethods)
    (min_inv_dep : K) (has : StatePtr → Bool) (ptr : StatePtr) :
    ProblemCall.SetParameterBlockConstant ptr ∉ e.landmarkBounds M min_inv_dep has := by
  intro hmem
  unfold D2Estimator.landmarkBounds at hmem
  obtain ⟨lm_id, _, hc⟩ := List.mem_map.mp hmem
  cases hc

theorem D2Estimator.extrinsicProperties_constant (e : D2Estimator K P) (M : StateMethods)
    (has : StatePtr → Bool) (cam_id : Int) (calls : List (ProblemCall K))
    (h : e.extrinsicProperties M has cam_id = some calls) (ptr : StatePtr) :
    ProblemCall.SetParameterBlockConstant ptr ∈ calls ↔
      e.state.getExtrinsicState cam_id = some ptr ∧ has ptr = true ∧
        (e.params.estimate_extrinsic = false ∨
          M.size e.state (M.getCameraBelonging e.state cam_id)
            < toSizeT (e.params.max_sld_win_size - 1)) := by
  unfold D2Estimator.extrinsicProperties at h
  cases hx : e.state.getExtrinsicState cam_id with
  | none => simp [hx] at h
  | some pointer =>
    simp only [hx] at h
    cases hhas : has pointer with
    | false =>
      simp only [hhas, Bool.false_eq_true, not_false_eq_true, if_true, Option.some.injEq] at h
      subst h
      constructor
      · intro hc
        simp at hc
      · rintro ⟨hp, hb, _⟩
        cases hp
        rw [hhas] at hb
        exact absurd hb (by simp)
    | true =>
      simp only [hhas, not_true_eq_false, if_false] at h
      by_cases hcond : ¬ e.params.estimate_extrinsic = true ∨
          M.size e.state (M.getCameraBelonging e.state cam_id)
            < toSizeT (e.params.max_sld_win_size - 1)
      · simp only [hcond, if_true, Option.some.injEq] at h
        subst h
        constructor
        · intro hc
          simp only [List.mem_cons, ProblemCall.SetParameterBlockConstant.injEq,
            reduceCtorEq, List.mem_singleton, or_false, List.not_mem_nil] at hc
          subst hc
          refine ⟨rfl, hhas, ?_⟩
          rcases hcond with h1 | h1
          · exact Or.inl (by simpa using h1)
          · exact Or.inr h1
        · rintro ⟨hp, _, _⟩
          cases hp
          simp
      · simp only [hcond, if_false, Option.some.injEq] at h
        subst h
        constructor
        · intro hc
          simp at hc
        · rintro ⟨_, _, hc⟩
          exfalso
          apply hcond
          rcases hc with h1 | h1
          · exact Or.inl (by simp [h1])
          · exact Or.inr h1

end StateProperties

section StatePropertiesWhole

variable {K P : Type}

theorem callOn_eq (has : StatePtr → Bool) (pointer : StatePtr) (call : ProblemCall K)
    (calls : List (ProblemCall K)) (h : callOn has pointer call = some calls) :
    calls = [call] ∧ has pointer = true := by
  unfold callOn at h
  cases hhas : has pointer with
  | false => simp [hhas] at h
  | true =>
    simp only [hhas, if_true, Option.some.injEq] at h
    exact ⟨h.symm, rfl⟩

theorem D2Estimator.tdProperties_constant (e : D2Estimator K P) (has : StatePtr → Bool)
    (calls : List (ProblemCall K)) (h : e.tdProperties has = some calls) (ptr : StatePtr) :
    ProblemCall.SetParameterBlockConstant ptr ∈ calls ↔
      ptr = e.state.getTdState e.self_id ∧
        (e.params.estimate_td = false ∨
          ∃ n, e.state.size = some n ∧ n < toSizeT e.params.max_sld_win_size) := by
  unfold D2Estimator.tdProperties at h
  cases htd : e.params.estimate_td with
  | false =>
    simp only [htd, Bool.false_eq_true, not_false_eq_true, if_true] at h
    obtain ⟨rfl, _⟩ := callOn_eq _ _ _ _ h
    simp
  | true =>
    simp only [htd, not_true_eq_false, if_false] at h
    cases hs : e.state.size with
    | none => simp [hs] at h
    | some n =>
      simp only [hs] at h
      by_cases hn : n < toSizeT e.params.max_sld_win_size
      · simp only [hn, if_true] at h
        obtain ⟨rfl, _⟩ := callOn_eq _ _ _ _ h
        simp [hn]
      · simp only [hn, if_false, Option.some.injEq] at h
        subst h
        simp [hn]

theorem D2Estimator.firstPoseProperties_constant (e : D2Estimator K P) (M : StateMethods)
    (has : StatePtr → Bool) (calls : List (ProblemCall K))
    (h : e.firstPoseProperties M has = some calls) (ptr : StatePtr) :
    ProblemCall.SetParameterBlockConstant ptr ∈ calls ↔
      (e.state.getPrior = none ∨ e.params.always_fixed_first_pose = true ∨
        M.marginalizeSelf e.state = false) ∧
      ∃ frame, M.firstFrame e.state e.self_id = some frame ∧
        e.state.getPoseState frame.frame_id = some ptr := by
  unfold D2Estimator.firstPoseProperties at h
  by_cases hcond : e.state.getPrior.isNone = true ∨ e.params.always_fixed_first_pose = true ∨
      ¬ M.marginalizeSelf e.state = true
  · have hcond' : e.state.getPrior = none ∨ e.params.always_fixed_first_pose = true ∨
        M.marginalizeSelf e.state = false := by
      rcases hcond with h1 | h1 | h1
      · exact Or.inl (Option.isNone_iff_eq_none.mp h1)
      · exact Or.inr (Or.inl h1)
      · exact Or.inr (Or.inr (by simpa using h1))
    simp only [hcond, if_true] at h
    cases hf : M.firstFrame e.state e.self_id with
    | none => simp [hf] at h
    | some frame =>
      simp only [hf] at h
      cases hp : e.state.getPoseState frame.frame_id with
      | none => simp [hp] at h
      | some pointer =>
        simp only [hp] at h
        obtain ⟨rfl, _⟩ := callOn_eq _ _ _ _ h
        constructor
        · intro hc
          simp only [List.mem_singleton, ProblemCall.SetParameterBlockConstant.injEq] at hc
          subst hc
          exact ⟨hcond', frame, rfl, hp⟩
        · rintro ⟨_, frame', hf', hp'⟩
          cases hf'
          rw [hp] at hp'
          cases hp'
          simp
  · simp only [hcond, if_false, Option.some.injEq] at h
    subst h
    constructor
    · intro hc
      simp at hc
    · rintro ⟨hc, _⟩
      exfalso
      apply hcond
      rcases hc with h1 | h1 | h1
      · exact Or.inl (by simp [h1])
      · exact Or.inr (Or.inl h1)
      · exact Or.inr (Or.inr (by simp [h1]))

/-- Which blocks `setStateProperties` sets constant. -/
theorem D2Estimator.setStateProperties_constant (e : D2Estimator K P) (M : StateMethods)
    (min_inv_dep : K) (has : StatePtr → Bool) (calls : List (ProblemCall K))
    (h : e.setStateProperties M min_inv_dep has = some calls) (ptr : StatePtr) :
    ProblemCall.SetParameterBlockConstant ptr ∈ calls ↔
      (∃ cam_id ∈ e.state.getAvailableCameraIds,
        e.state.getExtrinsicState cam_id = some ptr ∧ has ptr = true ∧
          (e.params.estimate_extrinsic = false ∨
            M.size e.state (M.getCameraBelonging e.state cam_id)
              < toSizeT (e.params.max_sld_win_size - 1))) ∨
      (ptr = e.state.getTdState e.self_id ∧
        (e.params.estimate_td = false ∨
          ∃ n, e.state.size = some n ∧ n < toSizeT e.params.max_sld_win_size)) ∨
      ((e.state.getPrior = none ∨ e.params.always_fixed_first_pose = true ∨
          M.marginalizeSelf e.state = false) ∧
        ∃ frame, M.firstFrame e.state e.self_id = some frame ∧
          e.state.getPoseState frame.frame_id = some ptr) := by
  unfold D2Estimator.setStateProperties at h
  cases h1 : e.poseParameterizations M has with
  | none => simp [h1] at h
  | some poses =>
    cases h2 : collectCalls (e.extrinsicProperties M has) e.state.getAvailableCameraIds with
    | none => simp [h1, h2] at h
    | some extrinsics =>
      cases h3 : e.tdProperties has with
      | none => simp [h1, h2, h3] at h
      | some td =>
        cases h4 : e.firstPoseProperties M has with
        | none => simp [h1, h2, h3, h4] at h
        | some first =>
          simp only [h1, h2, h3, h4, Option.some.injEq] at h
          subst h
          have e1 := e.poseParameterizations_constant M has poses h1 ptr
          have e3 := e.landmarkBounds_constant M min_inv_dep has ptr
          have e2 : ProblemCall.SetParameterBlockConstant ptr ∈ extrinsics ↔
              ∃ cam_id ∈ e.state.getAvailableCameraIds,
                e.state.getExtrinsicState cam_id = some ptr ∧ has ptr = true ∧
                  (e.params.estimate_extrinsic = false ∨
                    M.size e.state (M.getCameraBelonging e.state cam_id)
                      < toSizeT (e.params.max_sld_win_size - 1)) := by
            rw [collectCalls_mem _ _ _ h2]
            constructor
            · rintro ⟨cam_id, hcam, calls, hcalls, hc⟩
              exact ⟨cam_id, hcam,
                (e.extrinsicProperties_constant M has cam_id calls hcalls ptr).mp hc⟩
            · rintro ⟨cam_id, hcam, hx⟩
              have hsome : (e.extrinsicProperties M has cam_id).isSome := by
                unfold D2Estimator.extrinsicProperties
                rw [hx.1]
                simp only [hx.2.1, not_true_eq_false, if_false]
                split <;> rfl
              obtain ⟨calls, hcalls⟩ := Option.isSome_iff_exists.mp hsome
              exact ⟨cam_id, hcam, calls, hcalls,
                (e.extrinsicProperties_constant M has cam_id calls hcalls ptr).mpr hx⟩
          have e4 := e.tdProperties_constant has td h3 ptr
          have e5 := e.firstPoseProperties_constant M has first h4 ptr
          simp only [List.mem_append, e1, e3, false_or, or_false, e2, e4, e5, or_assoc]

end StatePropertiesWhole

section StatePropertiesClaims

variable {K P : Type}

theorem toSizeT_of_nonneg (x : Int) (h0 : 0 ≤ x) (h : x < 2 ^ 64) : toSizeT x = x.toNat := by
  unfold toSizeT
  rw [Int.emod_eq_of_lt h0 h]

theorem D2Estimator.setStateProperties_isSome (e : D2Estimator K P) (M : StateMethods)
    (min_inv_dep : K) (has : StatePtr → Bool)
    (hposes : ∀ drone_id ∈ e.state.availableDrones, ∀ i < M.size e.state drone_id,
      ∃ frame, M.getFrame e.state drone_id i = some frame ∧
        (e.state.getPoseState frame.frame_id).isSome)
    (htd : has (e.state.getTdState e.self_id) = true)
    (hsize : e.params.estimate_td = true → e.state.size.isSome)
    (hfirst : ∃ frame ptr, M.firstFrame e.state e.self_id = some frame ∧
      e.state.getPoseState frame.frame_id = some ptr ∧ has ptr = true) :
    ∃ calls, e.setStateProperties M min_inv_dep has = some calls := by
  have h1 : (e.poseParameterizations M has).isSome := by
    unfold D2Estimator.poseParameterizations
    apply collectCalls_isSome
    intro drone_id hd
    split
    · apply collectCalls_isSome
      intro i hi
      obtain ⟨frame, hf, hp⟩ := hposes drone_id ((StdSet.mem_toList _ _).mp hd) i
        (List.mem_range.mp hi)
      obtain ⟨ptr, hp⟩ := Option.isSome_iff_exists.mp hp
      simp only [hf, hp]
      split <;> rfl
    · rfl
  have h2 : (collectCalls (e.extrinsicProperties M has)
      e.state.getAvailableCameraIds).isSome := by
    apply collectCalls_isSome
    intro cam_id hcam
    obtain ⟨ptr, hx⟩ := Option.isSome_iff_exists.mp
      (StdMap.find_isSome_of_mem_keys e.state._camera_extrinsic_state cam_id hcam)
    have hx' : e.state.getExtrinsicState cam_id = some ptr := hx
    unfold D2Estimator.extrinsicProperties
    rw [hx']
    simp only
    split
    · rfl
    · split <;> rfl
  have h3 : (e.tdProperties has).isSome := by
    unfold D2Estimator.tdProperties callOn
    simp only [htd, if_true]
    cases hest : e.params.estimate_td with
    | false => simp
    | true =>
      obtain ⟨n, hn⟩ := Option.isSome_iff_exists.mp (hsize hest)
      simp only [hn, not_true_eq_false, if_false]
      split <;> rfl
  have h4 : (e.firstPoseProperties M has).isSome := by
    obtain ⟨frame, ptr, hf, hp, hhas⟩ := hfirst
    unfold D2Estimator.firstPoseProperties callOn
    simp only [hf, hp, hhas, if_true]
    split <;> rfl
  obtain ⟨c1, h1⟩ := Option.isSome_iff_exists.mp h1
  obtain ⟨c2, h2⟩ := Option.isSome_iff_exists.mp h2
  obtain ⟨c3, h3⟩ := Option.isSome_iff_exists.mp h3
  obtain ⟨c4, h4⟩ := Option.isSome_iff_exists.mp h4
  exact ⟨c1 ++ c2 ++ e.landmarkBounds M min_inv_dep has ++ c3 ++ c4, by
    simp only [D2Estimator.setStateProperties, h1, h2, h3, h4]⟩

/-- C23 as stated fails: with a prior present and `always_fixed_first_pose` off,
the first own pose (address 100) is still set constant, because
`marginalizeSelf()` returns false. -/
theorem setStateProperties_first_pose_counterexample :
    Sample.estimatorProps.state.getPrior = some {} ∧
    Sample.estimatorProps.params.always_fixed_first_pose = false ∧
    Sample.stateMethods.marginalizeSelf Sample.estimatorProps.state = false ∧
    Sample.stateMethods.firstFrame Sample.estimatorProps.state 1
      = some { frame_id := 10, drone_id := 1, is_keyframe := true } ∧
    Sample.estimatorProps.state.getPoseState 10 = some 100 ∧
    ∃ calls, Sample.estimatorProps.setStateProperties Sample.stateMethods (1 / 100)
        (fun _ => true) = some calls ∧
      ProblemCall.SetParameterBlockConstant 100 ∈ calls := by
  refine ⟨rfl, rfl, rfl, rfl, rfl, _, rfl, ?_⟩
  decide

end StatePropertiesClaims

section StatePropertiesTheorems

variable {K P : Type}

/-- C23 amended. `setStateProperties` sets the first pose of the own window
constant if and only if no prior is present, or `always_fixed_first_pose` is
set, or `marginalizeSelf()` returns false. Stated for a call that completes
(every pose of a window has its block address, and the blocks of the time
offset and of the first pose are in the problem) and for a first pose whose
address is neither that of the time offset nor that of an extrinsic. -/
theorem setStateProperties_first_pose (e : D2Estimator K P) (M : StateMethods)
    (min_inv_dep : K) (has : StatePtr → Bool)
    (hposes : ∀ drone_id ∈ e.state.availableDrones, ∀ i < M.size e.state drone_id,
      ∃ frame, M.getFrame e.state drone_id i = some frame ∧
        (e.state.getPoseState frame.frame_id).isSome)
    (htd : has (e.state.getTdState e.self_id) = true)
    (hsize : e.params.estimate_td = true → e.state.size.isSome)
    (frame : VINSFrame) (ptr : StatePtr)
    (hframe : M.firstFrame e.state e.self_id = some frame)
    (hptr : e.state.getPoseState frame.frame_id = some ptr) (hhas : has ptr = true)
    (hne_td : ptr ≠ e.state.getTdState e.self_id)
    (hne_cam : ∀ cam_id, e.state.getExtrinsicState cam_id ≠ some ptr) :
    ∃ calls, e.setStateProperties M min_inv_dep has = some calls ∧
      (ProblemCall.SetParameterBlockConstant ptr ∈ calls ↔
        e.state.getPrior = none ∨ e.params.always_fixed_first_pose = true ∨
          M.marginalizeSelf e.state = false) := by
  obtain ⟨calls, hcalls⟩ := e.setStateProperties_isSome M min_inv_dep has hposes htd hsize
    ⟨frame, ptr, hframe, hptr, hhas⟩
  refine ⟨calls, hcalls, ?_⟩
  rw [e.setStateProperties_constant M min_inv_dep has calls hcalls ptr]
  constructor
  · rintro (⟨cam_id, _, hx, _⟩ | ⟨htd', _⟩ | ⟨hcond, _⟩)
    · exact absurd hx (hne_cam cam_id)
    · exact absurd htd' hne_td
    · exact hcond
  · intro hcond
    exact Or.inr (Or.inr ⟨hcond, frame, hframe, hptr⟩)

/-- C24 amended. For `1 <= max_sld_win_size`: a camera extrinsic that is in the
problem is set constant if and only if `estimate_extrinsic` is off or the
window of the owning drone holds fewer than `max_sld_win_size - 1` frames; the
time offset is set constant if and only if `estimate_td` is off or the own
window holds fewer than `max_sld_win_size` frames. Stated for a call that
completes and for blocks at distinct addresses. -/
theorem setStateProperties_extrinsic_td (e : D2Estimator K P) (M : StateMethods)
    (min_inv_dep : K) (has : StatePtr → Bool)
    (hposes : ∀ drone_id ∈ e.state.availableDrones, ∀ i < M.size e.state drone_id,
      ∃ frame, M.getFrame e.state drone_id i = some frame ∧
        (e.state.getPoseState frame.frame_id).isSome)
    (htd : has (e.state.getTdState e.self_id) = true)
    (hsize : e.params.estimate_td = true → e.state.size.isSome)
    (hfirst : ∃ frame ptr, M.firstFrame e.state e.self_id = some frame ∧
      e.state.getPoseState frame.frame_id = some ptr ∧ has ptr = true)
    (hmax : 1 ≤ e.params.max_sld_win_size) (hmax' : e.params.max_sld_win_size < 2 ^ 63)
    (hinj : ∀ c1 c2 p, e.state.getExtrinsicState c1 = some p →
      e.state.getExtrinsicState c2 = some p → c1 = c2)
    (htd_cam : ∀ cam_id,
      e.state.getExtrinsicState cam_id ≠ some (e.state.getTdState e.self_id))
    (hfirst_free : ∀ frame p, M.firstFrame e.state e.self_id = some frame →
      e.state.getPoseState frame.frame_id = some p →
      p ≠ e.state.getTdState e.self_id ∧ ∀ cam_id, e.state.getExtrinsicState cam_id ≠ some p) :
    ∃ calls, e.setStateProperties M min_inv_dep has = some calls ∧
      (∀ cam_id ∈ e.state.getAvailableCameraIds, ∀ p,
        e.state.getExtrinsicState cam_id = some p → has p = true →
        (ProblemCall.SetParameterBlockConstant p ∈ calls ↔
          e.params.estimate_extrinsic = false ∨
            (M.size e.state (M.getCameraBelonging e.state cam_id) : Int)
              < e.params.max_sld_win_size - 1)) ∧
      (ProblemCall.SetParameterBlockConstant (e.state.getTdState e.self_id) ∈ calls ↔
        e.params.estimate_td = false ∨
          ∃ n : Nat, e.state.size = some n ∧ (n : Int) < e.params.max_sld_win_size) := by
  obtain ⟨calls, hcalls⟩ := e.setStateProperties_isSome M min_inv_dep has hposes htd hsize
    hfirst
  have hs1 : toSizeT (e.params.max_sld_win_size - 1) = (e.params.max_sld_win_size - 1).toNat :=
    toSizeT_of_nonneg _ (by omega) (by omega)
  have hs2 : toSizeT e.params.max_sld_win_size = e.params.max_sld_win_size.toNat :=
    toSizeT_of_nonneg _ (by omega) (by omega)
  refine ⟨calls, hcalls, fun cam_id hcam p hx hhas => ?_, ?_⟩
  · rw [e.setStateProperties_constant M min_inv_dep has calls hcalls p]
    constructor
    · rintro (⟨cam', _, hx', _, hcond⟩ | ⟨htd', _⟩ | ⟨_, frame, hf, hp⟩)
      · have hc : cam' = cam_id := hinj cam' cam_id p hx' hx
        subst hc
        rcases hcond with h1 | h1
        · exact Or.inl h1
        · right
          rw [hs1] at h1
          omega
      · rw [htd'] at hx
        exact absurd hx (htd_cam cam_id)
      · exact absurd hx ((hfirst_free frame p hf hp).2 cam_id)
    · intro hcond
      refine Or.inl ⟨cam_id, hcam, hx, hhas, ?_⟩
      rcases hcond with h1 | h1
      · exact Or.inl h1
      · right
        rw [hs1]
        omega
  · rw [e.setStateProperties_constant M min_inv_dep has calls hcalls]
    constructor
    · rintro (⟨cam', _, hx', _⟩ | ⟨_, hcond⟩ | ⟨_, frame, hf, hp⟩)
      · exact absurd hx' (htd_cam cam')
      · rcases hcond with h1 | ⟨n, hn, h1⟩
        · exact Or.inl h1
        · right
          refine ⟨n, hn, ?_⟩
          rw [hs2] at h1
          omega
      · exact absurd rfl (hfirst_free frame _ hf hp).1
    · intro hcond
      refine Or.inr (Or.inl ⟨rfl, ?_⟩)
      rcases hcond with h1 | ⟨n, hn, h1⟩
      · exact Or.inl h1
      · right
        refine ⟨n, hn, ?_⟩
        rw [hs2]
        omega

/-- C24 as stated fails: with `estimate_extrinsic` on and a window of 2 frames,
fewer than `max_sld_win_size = 3`, the extrinsic of camera 20 (address 500,
in the problem) is not set constant, while the time offset (address 600) is. -/
theorem setStateProperties_extrinsic_counterexample :
    Sample.estimatorProps.params.estimate_extrinsic = true ∧
    Sample.estimatorProps.params.max_sld_win_size = 3 ∧
    Sample.stateMethods.size Sample.estimatorProps.state
      (Sample.stateMethods.getCameraBelonging Sample.estimatorProps.state 20) = 2 ∧
    Sample.estimatorProps.state.getExtrinsicState 20 = some 500 ∧
    ∃ calls, Sample.estimatorProps.setStateProperties Sample.stateMethods (1 / 100)
        (fun _ => true) = some calls ∧
      ProblemCall.SetParameterBlockConstant 500 ∉ calls ∧
      ProblemCall.SetParameterBlockConstant 600 ∈ calls := by
  refine ⟨rfl, rfl, rfl, rfl, _, rfl, ?_, ?_⟩
  · decide
  · decide

end StatePropertiesTheorems

section StatePropertiesWitness

theorem Sample.estimatorProps_poses :
    ∀ drone_id ∈ Sample.estimatorProps.state.availableDrones,
      ∀ i < Sample.stateMethods.size Sample.estimatorProps.state drone_id,
        ∃ frame, Sample.stateMethods.getFrame Sample.estimatorProps.state drone_id i
            = some frame ∧
          (Sample.estimatorProps.state.getPoseState frame.frame_id).isSome := by
  intro drone_id hd i hi
  have hd1 : drone_id = 1 := Finset.mem_singleton.mp hd
  subst hd1
  have hi2 : i < 2 := hi
  interval_cases i
  · exact ⟨{ frame_id := 10, drone_id := 1, is_keyframe := true }, rfl, rfl⟩
  · exact ⟨{ frame_id := 12, drone_id := 1, is_keyframe := true }, rfl, rfl⟩

theorem Sample.estimatorProps_extrinsic (cam_id : Int) (p : StatePtr)
    (h : Sample.estimatorProps.state.getExtrinsicState cam_id = some p) :
    cam_id = 20 ∧ p = 500 := by
  have h' : (if (20 : Int) = cam_id then some (500 : StatePtr) else none) = some p := h
  by_cases hc : (20 : Int) = cam_id
  · simp only [hc, if_true, Option.some.injEq] at h'
    exact ⟨hc.symm, h'.symm⟩
  · simp [hc] at h'

theorem setStateProperties_first_pose_witness :
    (Sample.stateMethods.firstFrame Sample.estimatorProps.state 1
        = some { frame_id := 10, drone_id := 1, is_keyframe := true } ∧
      Sample.estimatorProps.state.getPoseState 10 = some 100) ∧
    ∃ calls, Sample.estimatorProps.setStateProperties Sample.stateMethods (1 / 100)
        (fun _ => true) = some calls ∧
      (ProblemCall.SetParameterBlockConstant 100 ∈ calls ↔
        Sample.estimatorProps.state.getPrior = none ∨
          Sample.estimatorProps.params.always_fixed_first_pose = true ∨
          Sample.stateMethods.marginalizeSelf Sample.estimatorProps.state = false) :=
  ⟨⟨rfl, rfl⟩,
    setStateProperties_first_pose Sample.estimatorProps Sample.stateMethods (1 / 100)
      (fun _ => true) Sample.estimatorProps_poses rfl (fun _ => rfl)
      { frame_id := 10, drone_id := 1, is_keyframe := true } 100 rfl rfl rfl (by decide)
      (fun cam_id h => absurd (Sample.estimatorProps_extrinsic cam_id 100 h).2 (by decide))⟩

theorem setStateProperties_extrinsic_td_witness :
    ((1 : Int) ≤ Sample.estimatorProps.params.max_sld_win_size ∧
      Sample.estimatorProps.state.getAvailableCameraIds = [20]) ∧
    ∃ calls, Sample.estimatorProps.setStateProperties Sample.stateMethods (1 / 100)
        (fun _ => true) = some calls ∧
      (∀ cam_id ∈ Sample.estimatorProps.state.getAvailableCameraIds, ∀ p,
        Sample.estimatorProps.state.getExtrinsicState cam_id = some p → true = true →
        (ProblemCall.SetParameterBlockConstant p ∈ calls ↔
          Sample.estimatorProps.params.estimate_extrinsic = false ∨
            (Sample.stateMethods.size Sample.estimatorProps.state
              (Sample.stateMethods.getCameraBelonging Sample.estimatorProps.state cam_id) : Int)
              < Sample.estimatorProps.params.max_sld_win_size - 1)) ∧
      (ProblemCall.SetParameterBlockConstant
          (Sample.estimatorProps.state.getTdState Sample.estimatorProps.self_id) ∈ calls ↔
        Sample.estimatorProps.params.estimate_td = false ∨
          ∃ n : Nat, Sample.estimatorProps.state.size = some n ∧
            (n : Int) < Sample.estimatorProps.params.max_sld_win_size) :=
  ⟨⟨by decide, rfl⟩,
    setStateProperties_extrinsic_td Sample.estimatorProps Sample.stateMethods (1 / 100)
      (fun _ => true) Sample.estimatorProps_poses rfl (fun _ => rfl)
      ⟨{ frame_id := 10, drone_id := 1, is_keyframe := true }, 100, rfl, rfl, rfl⟩
      (by decide) (by decide)
      (fun c1 c2 p h1 h2 =>
        (Sample.estimatorProps_extrinsic c1 p h1).1.trans
          (Sample.estimatorProps_extrinsic c2 p h2).1.symm)
      (fun cam_id h => absurd (Sample.estimatorProps_extrinsic cam_id _ h).2 (by decide))
      (fun frame p hf hp => by
        have hf' : some ({ frame_id := 10, drone_id := 1, is_keyframe := true } : VINSFrame)
            = some frame := hf
        have hframe := Option.some.inj hf'
        subst hframe
        have hp' : some (100 : StatePtr) = some p := hp
        have hp100 := Option.some.inj hp'
        subst hp100
        exact ⟨by decide, fun cam_id h =>
          absurd (Sample.estimatorProps_extrinsic cam_id _ h).2 (by decide)⟩)⟩

end StatePropertiesWitness

/-! ## Bound of the own sliding window -/

section ClearFrame

theorem D2EstimatorState.removeFrameById_frame (state state1 : D2EstimatorState)
    (frame_id : FrameIdType) (h : state.removeFrameById frame_id = some state1) :
    state1.self_id = state.self_id ∧ state1.sld_wins = state.sld_wins ∧
    state1.prior_factor = state.prior_factor := by
  unfold D2EstimatorState.removeFrameById at h
  split at h
  · simp only [Option.some.injEq] at h
    subst h
    exact ⟨rfl, rfl, rfl⟩
  · simp at h

theorem D2EstimatorState.eraseFrames_eq (clear_frames : Finset FrameIdType)
    (win kept : List VINSFrame) (state state1 : D2EstimatorState)
    (h : D2EstimatorState.eraseFrames clear_frames win state = some (kept, state1)) :
    kept = win.filter (fun it => it.frame_id ∉ clear_frames) ∧
    state1.self_id = state.self_id ∧ state1.prior_factor = state.prior_factor := by
  induction win generalizing kept state with
  | nil =>
    simp only [D2EstimatorState.eraseFrames, Option.some.injEq, Prod.mk.injEq] at h
    obtain ⟨rfl, rfl⟩ := h
    exact ⟨rfl, rfl, rfl⟩
  | cons it rest ih =>
    simp only [D2EstimatorState.eraseFrames] at h
    by_cases hmem : it.frame_id ∈ clear_frames
    · simp only [hmem, if_true] at h
      cases hr : state.removeFrameById it.frame_id with
      | none => simp [hr] at h
      | some state0 =>
        simp only [hr] at h
        obtain ⟨h1, h2, h3⟩ := ih kept state0 h
        obtain ⟨f1, _, f3⟩ := state.removeFrameById_frame state0 it.frame_id hr
        refine ⟨?_, h2.trans f1, h3.trans f3⟩
        rw [h1]
        simp [List.filter_cons, hmem]
    · simp only [hmem, if_false] at h
      cases hr : D2EstimatorState.eraseFrames clear_frames rest state with
      | none => simp [hr] at h
      | some res =>
        obtain ⟨kept0, state0⟩ := res
        simp only [hr, Option.some.injEq, Prod.mk.injEq] at h
        obtain ⟨rfl, rfl⟩ := h
        obtain ⟨h1, h2, h3⟩ := ih kept0 state hr
        refine ⟨?_, h2, h3⟩
        rw [h1]
        simp [List.filter_cons, hmem]

theorem D2EstimatorState.eraseWindows_eq (clear_frames : Finset FrameIdType)
    (wins windows : StdMap Int (List VINSFrame)) (state state1 : D2EstimatorState)
    (h : D2EstimatorState.eraseWindows clear_frames wins state = some (windows, state1)) :
    windows = wins.map
      (fun kv => (kv.1, kv.2.filter (fun it => it.frame_id ∉ clear_frames))) ∧
    state1.self_id = state.self_id ∧ state1.prior_factor = state.prior_factor := by
  induction wins generalizing windows state with
  | nil =>
    simp only [D2EstimatorState.eraseWindows, Option.some.injEq, Prod.mk.injEq] at h
    obtain ⟨rfl, rfl⟩ := h
    exact ⟨rfl, rfl, rfl⟩
  | cons hd rest ih =>
    obtain ⟨drone_id, win⟩ := hd
    simp only [D2EstimatorState.eraseWindows] at h
    cases hw : D2EstimatorState.eraseFrames clear_frames win state with
    | none => simp [hw] at h
    | some res =>
      obtain ⟨kept, state0⟩ := res
      simp only [hw] at h
      cases hr : D2EstimatorState.eraseWindows clear_frames rest state0 with
      | none => simp [hr] at h
      | some res1 =>
        obtain ⟨windows0, state2⟩ := res1
        simp only [hr, Option.some.injEq, Prod.mk.injEq] at h
        obtain ⟨rfl, rfl⟩ := h
        obtain ⟨k1, k2, k3⟩ := D2EstimatorState.eraseFrames_eq _ _ _ _ _ hw
        obtain ⟨h1, h2, h3⟩ := ih windows0 state0 hr
        refine ⟨?_, h2.trans k2, h3.trans k3⟩
        rw [h1, k1]
        rfl

theorem StdMap.find_map_values {κ ν μ : Type} [DecidableEq κ] (m : StdMap κ ν) (g : ν → μ)
    (k : κ) :
    StdMap.find (m.map (fun kv => (kv.1, g kv.2))) k = (StdMap.find m k).map g := by
  induction m with
  | nil => rfl
  | cons hd tl ih =>
    obtain ⟨k', v⟩ := hd
    by_cases hk : k' = k
    · simp [StdMap.find, hk]
    · simp [StdMap.find, hk, ih]

theorem filter_ne_last (win : List VINSFrame) (last : VINSFrame)
    (hnodup : (win.map (fun it => it.frame_id)).Nodup) (hlast : win.getLast? = some last) :
    win.filter (fun it => it.frame_id ≠ last.frame_id) = win.dropLast := by
  induction win with
  | nil => rfl
  | cons a rest ih =>
    cases rest with
    | nil =>
      simp only [List.getLast?_singleton, Option.some.injEq] at hlast
      subst hlast
      simp
    | cons b rest' =>
      have hlast' : (b :: rest').getLast? = some last := by
        rw [← hlast, List.getLast?_cons_cons]
      have hnd := List.nodup_cons.mp hnodup
      have hmem : last ∈ b :: rest' := List.mem_of_getLast?_eq_some hlast'
      have hne : a.frame_id ≠ last.frame_id := by
        intro heq
        exact hnd.1 (List.mem_map.mpr ⟨last, hmem, heq.symm⟩)
      rw [List.dropLast_cons₂, ← ih hnd.2 hlast']
      simp [List.filter_cons, hne]

theorem filter_ne_first (win : List VINSFrame) (first : VINSFrame)
    (hnodup : (win.map (fun it => it.frame_id)).Nodup) (hfirst : win.head? = some first) :
    win.filter (fun it => it.frame_id ≠ first.frame_id) = win.tail := by
  cases win with
  | nil => simp at hfirst
  | cons a rest =>
    simp only [List.head?_cons, Option.some.injEq] at hfirst
    subst hfirst
    have hnd := List.nodup_cons.mp hnodup
    simp only [List.filter_cons, ne_eq, not_true_eq_false, decide_False, Bool.false_eq_true,
      if_false, List.tail_cons]
    apply List.filter_eq_self.mpr
    intro b hb
    simp only [ne_eq, decide_not, Bool.not_eq_true', decide_eq_false_iff_not]
    intro heq
    exact hnd.1 (List.mem_map.mpr ⟨b, hb, heq⟩)

theorem filter_not_mem_insert (win : List VINSFrame) (x : FrameIdType)
    (clear_frames : Finset FrameIdType) (h : ∀ it ∈ win, it.frame_id ∉ clear_frames) :
    win.filter (fun it => it.frame_id ∉ insert x clear_frames) =
      win.filter (fun it => it.frame_id ≠ x) := by
  apply List.filter_congr
  intro it hit
  have := h it hit
  simp [Finset.mem_insert, this]

theorem filter_not_mem_self (win : List VINSFrame) (clear_frames : Finset FrameIdType)
    (h : ∀ it ∈ win, it.frame_id ∉ clear_frames) :
    win.filter (fun it => it.frame_id ∉ clear_frames) = win := by
  apply List.filter_eq_self.mpr
  intro it hit
  simpa using h it hit

end ClearFrame

section ClearFrameClaim

theorem D2EstimatorState.markSelf_cases (min_solve_frames max_sld_win_size : Int)
    (win : List VINSFrame) (sets : Finset FrameIdType × Finset FrameIdType)
    (clear_frames clear_key_frames : Finset FrameIdType)
    (h : D2EstimatorState.markSelf min_solve_frames max_sld_win_size win sets
      = some (clear_frames, clear_key_frames)) :
    (clear_frames = sets.1 ∧
      (win.length < toSizeT min_solve_frames ∨
        ∃ last, win.getLast? = some last ∧ last.is_keyframe = true ∧
          win.length < toSizeT max_sld_win_size)) ∨
    (∃ last, win.getLast? = some last ∧ last.is_keyframe = false ∧
      toSizeT min_solve_frames ≤ win.length ∧
      clear_frames = insert last.frame_id sets.1) ∨
    (∃ last first, win.getLast? = some last ∧ win.head? = some first ∧
      last.is_keyframe = true ∧ toSizeT min_solve_frames ≤ win.length ∧
      toSizeT max_sld_win_size ≤ win.length ∧
      clear_frames = insert first.frame_id sets.1) := by
  unfold D2EstimatorState.markSelf at h
  by_cases hmin : win.length ≥ toSizeT min_solve_frames
  · simp only [hmin, if_true] at h
    cases hl : win.getLast? with
    | none => simp [hl] at h
    | some last =>
      cases hf : win.head? with
      | none => simp [hl, hf] at h
      | some first =>
        simp only [hl, hf] at h
        cases hk : last.is_keyframe with
        | false =>
          simp only [hk, Bool.false_eq_true, not_false_eq_true, if_true, Option.some.injEq,
            Prod.mk.injEq] at h
          exact Or.inr (Or.inl ⟨last, rfl, hk, hmin, h.1.symm⟩)
        | true =>
          simp only [hk, not_true_eq_false, if_false] at h
          by_cases hmax : win.length ≥ toSizeT max_sld_win_size
          · simp only [hmax, if_true, Option.some.injEq, Prod.mk.injEq] at h
            exact Or.inr (Or.inr ⟨last, first, rfl, rfl, hk, hmin, hmax, h.1.symm⟩)
          · simp only [hmax, if_false, Option.some.injEq] at h
            have h1 : sets.1 = clear_frames := congrArg Prod.fst h
            exact Or.inl ⟨h1.symm, Or.inr ⟨last, rfl, hk, by omega⟩⟩
  · simp only [hmin, if_false, Option.some.injEq] at h
    have h1 : sets.1 = clear_frames := congrArg Prod.fst h
    exact Or.inl ⟨h1.symm, Or.inl (by omega)⟩

/-- The own window after `clearFrame`: the frames that `clear_frames` does not name. -/
theorem D2EstimatorState.clearFrame_self_window (state t : D2EstimatorState)
    (params : D2VINSConfig) (env : ClearEnv) (win : List VINSFrame)
    (hwin : StdMap.find state.sld_wins state.self_id = some win)
    (hret : state.clearFrame params env = some t) :
    ∃ sets0 clear_frames clear_key_frames,
      state.markRemote state.latest_remote_sld_wins (∅, ∅) = some sets0 ∧
      D2EstimatorState.markSelf params.min_solve_frames params.max_sld_win_size win sets0
        = some (clear_frames, clear_key_frames) ∧
      t.self_id = state.self_id ∧
      StdMap.find t.sld_wins t.self_id
        = some (win.filter (fun it => it.frame_id ∉ clear_frames)) := by
  unfold D2EstimatorState.clearFrame at hret
  cases hm : state.markRemote state.latest_remote_sld_wins (∅, ∅) with
  | none => simp [hm] at hret
  | some sets0 =>
    have hc : StdMap.contains state.sld_wins state.self_id = true := by
      simp [StdMap.contains, hwin]
    have hg : StdMap.getD state.sld_wins state.self_id [] = win := by
      simp [StdMap.getD, hwin]
    simp only [hm, hc, if_true, hg] at hret
    cases hs : D2EstimatorState.markSelf params.min_solve_frames params.max_sld_win_size
        win sets0 with
    | none => simp [hs] at hret
    | some sets =>
      obtain ⟨clear_frames, clear_key_frames⟩ := sets
      simp only [hs] at hret
      refine ⟨sets0, clear_frames, clear_key_frames, rfl, hs, ?_⟩
      by_cases hcard : clear_frames.card > 0
      · simp only [hcard, if_true] at hret
        split at hret
        · simp at hret
        · next windows state3 he =>
          simp only [Option.some.injEq] at hret
          subst hret
          obtain ⟨hw, hself, _⟩ := D2EstimatorState.eraseWindows_eq _ _ _ _ _ he
          refine ⟨hself, ?_⟩
          show StdMap.find windows state3.self_id = _
          rw [hself, hw]
          show StdMap.find (state.sld_wins.map _) state.self_id = _
          rw [StdMap.find_map_values state.sld_wins
            (fun w => w.filter (fun it => it.frame_id ∉ clear_frames)), hwin]
          rfl
      · simp only [hcard, if_false, Option.some.injEq] at hret
        subst hret
        refine ⟨rfl, ?_⟩
        have hempty : clear_frames = ∅ := Finset.card_eq_zero.mp (by omega)
        subst hempty
        show StdMap.find state.sld_wins state.self_id = _
        rw [hwin]
        congr 1
        exact (filter_not_mem_self win ∅ (fun _ _ => Finset.not_mem_empty _)).symm

end ClearFrameClaim

section ClearFrameTheorem

/-- C29 as stated fails: with `min_solve_frames = -1 <= max_sld_win_size = 2`,
a window of two keyframes and no remote list, the size test
`size() >= min_solve_frames` compares unsigned and fails, nothing is removed,
and the own window still holds 2 frames, more than `max_sld_win_size - 1`. -/
theorem clearFrame_window_bound_counterexample :
    Sample.paramsNegative.min_solve_frames ≤ Sample.paramsNegative.max_sld_win_size ∧
    StdMap.find Sample.estimatorProps.state.sld_wins Sample.estimatorProps.state.self_id
      = some [{ frame_id := 10, drone_id := 1, is_keyframe := true },
          { frame_id := 12, drone_id := 1, is_keyframe := true }] ∧
    Sample.estimatorProps.state.latest_remote_sld_wins = [] ∧
    ∃ t, Sample.estimatorProps.state.clearFrame Sample.paramsNegative Sample.clearEnv
        = some t ∧
      ∃ win', StdMap.find t.sld_wins t.self_id = some win' ∧ win'.length = 2 ∧
        ¬ ((win'.length : Int) ≤ Sample.paramsNegative.max_sld_win_size - 1) := by
  refine ⟨by decide, rfl, rfl, _, rfl, _, rfl, rfl, ?_⟩
  decide

theorem StdMap.contains_erase_ne {κ ν : Type} [DecidableEq κ] (m : StdMap κ ν) (k k' : κ)
    (h : k' ≠ k) : StdMap.contains (StdMap.erase m k) k' = StdMap.contains m k' := by
  induction m with
  | nil => rfl
  | cons hd tl ih =>
    obtain ⟨k0, v⟩ := hd
    simp only [StdMap.contains] at ih
    by_cases h0 : k0 = k
    · subst h0
      have hne : ¬ k0 = k' := fun heq => h heq.symm
      simp only [StdMap.erase, StdMap.contains, List.filter_cons, ne_eq, not_true_eq_false,
        decide_False, Bool.false_eq_true, if_false, StdMap.find, hne]
      exact ih
    · by_cases h1 : k0 = k'
      · subst h1
        simp [StdMap.erase, StdMap.contains, List.filter_cons, h0, StdMap.find]
      · simp only [StdMap.erase, StdMap.contains, List.filter_cons, ne_eq, h0,
          not_false_eq_true, decide_True, if_true, StdMap.find, h1, if_false]
        exact ih

/-- A window is erased without a throw when the frames still to come have
distinct ids and each has its pose and speed-bias block. -/
theorem D2EstimatorState.eraseFrames_returns (clear_frames : Finset FrameIdType)
    (win : List VINSFrame) (later : List FrameIdType) (state : D2EstimatorState)
    (hnodup : (win.map (fun it => it.frame_id) ++ later).Nodup)
    (hblocks : ∀ frame_id ∈ win.map (fun it => it.frame_id) ++ later,
      StdMap.contains state._frame_pose_state frame_id = true ∧
        StdMap.contains state._frame_spd_Bias_state frame_id = true) :
    ∃ kept state1, D2EstimatorState.eraseFrames clear_frames win state = some (kept, state1) ∧
      ∀ frame_id ∈ later,
        StdMap.contains state1._frame_pose_state frame_id = true ∧
          StdMap.contains state1._frame_spd_Bias_state frame_id = true := by
  induction win generalizing state with
  | nil => exact ⟨[], state, rfl, fun frame_id h => hblocks frame_id (by simpa using h)⟩
  | cons it rest ih =>
    simp only [List.map_cons, List.cons_append] at hnodup hblocks
    have hnd := List.nodup_cons.mp hnodup
    simp only [D2EstimatorState.eraseFrames]
    by_cases hmem : it.frame_id ∈ clear_frames
    · have hit := hblocks it.frame_id (List.mem_cons_self _ _)
      have hrem : state.removeFrameById it.frame_id = some
          { state with
            frame_db := StdMap.erase state.frame_db it.frame_id
            _frame_pose_state := StdMap.erase state._frame_pose_state it.frame_id
            _frame_spd_Bias_state := StdMap.erase state._frame_spd_Bias_state it.frame_id } := by
        simp [D2EstimatorState.removeFrameById, hit.1, hit.2]
      simp only [hmem, if_true, hrem]
      apply ih _ hnd.2
      intro frame_id hf
      have hne : frame_id ≠ it.frame_id := fun heq => hnd.1 (heq ▸ hf)
      have := hblocks frame_id (List.mem_cons_of_mem _ hf)
      exact ⟨by rw [StdMap.contains_erase_ne _ _ _ hne]; exact this.1,
        by rw [StdMap.contains_erase_ne _ _ _ hne]; exact this.2⟩
    · simp only [hmem, if_false]
      obtain ⟨kept, state1, h1, h2⟩ := ih state hnd.2
        (fun frame_id hf => hblocks frame_id (List.mem_cons_of_mem _ hf))
      exact ⟨it :: kept, state1, by simp [h1], h2⟩

theorem D2EstimatorState.eraseWindows_returns (clear_frames : Finset FrameIdType)
    (wins : StdMap Int (List VINSFrame)) (state : D2EstimatorState)
    (hnodup : ((wins.flatMap (fun kv => kv.2)).map (fun it => it.frame_id)).Nodup)
    (hblocks : ∀ frame_id ∈ (wins.flatMap (fun kv => kv.2)).map (fun it => it.frame_id),
      StdMap.contains state._frame_pose_state frame_id = true ∧
        StdMap.contains state._frame_spd_Bias_state frame_id = true) :
    (D2EstimatorState.eraseWindows clear_frames wins state).isSome := by
  induction wins generalizing state with
  | nil => rfl
  | cons hd rest ih =>
    obtain ⟨drone_id, win⟩ := hd
    simp only [List.flatMap_cons, List.map_append] at hnodup hblocks
    obtain ⟨kept, state1, h1, h2⟩ := D2EstimatorState.eraseFrames_returns clear_frames win
      ((rest.flatMap (fun kv => kv.2)).map (fun it => it.frame_id)) state hnodup hblocks
    obtain ⟨res, hres⟩ := Option.isSome_iff_exists.mp
      (ih state1 (List.Nodup.of_append_right hnodup) h2)
    obtain ⟨windows, state2⟩ := res
    simp [D2EstimatorState.eraseWindows, h1, hres]

theorem D2EstimatorState.markSelf_isSome (min_solve_frames max_sld_win_size : Int)
    (win : List VINSFrame) (sets : Finset FrameIdType × Finset FrameIdType)
    (h : win ≠ [] ∨ win.length < toSizeT min_solve_frames) :
    (D2EstimatorState.markSelf min_solve_frames max_sld_win_size win sets).isSome := by
  unfold D2EstimatorState.markSelf
  by_cases hmin : win.length ≥ toSizeT min_solve_frames
  · have hne : win ≠ [] := by
      rcases h with h | h
      · exact h
      · omega
    simp only [hmin, if_true]
    cases win with
    | nil => exact absurd rfl hne
    | cons a rest =>
      obtain ⟨last, hlast⟩ : ∃ last, (a :: rest).getLast? = some last :=
        ⟨(a :: rest).getLast (by simp), List.getLast?_eq_getLast _ (by simp)⟩
      simp only [hlast, List.head?_cons]
      split
      · rfl
      · split <;> rfl
  · simp [hmin]

/-- When `clearFrame` returns: the lists of the other drones can be followed,
and the frames of all windows have distinct ids and their blocks. -/
theorem D2EstimatorState.clearFrame_returns (state : D2EstimatorState) (params : D2VINSConfig)
    (env : ClearEnv) (win : List VINSFrame)
    (hmin : 1 ≤ params.min_solve_frames) (hint : params.min_solve_frames < 2 ^ 63)
    (hwin : StdMap.find state.sld_wins state.self_id = some win)
    (hmark : (state.markRemote state.latest_remote_sld_wins (∅, ∅)).isSome)
    (hnodup : ((state.sld_wins.flatMap (fun kv => kv.2)).map (fun it => it.frame_id)).Nodup)
    (hblocks : ∀ frame_id ∈ (state.sld_wins.flatMap (fun kv => kv.2)).map (fun it => it.frame_id),
      StdMap.contains state._frame_pose_state frame_id = true ∧
        StdMap.contains state._frame_spd_Bias_state frame_id = true) :
    (state.clearFrame params env).isSome := by
  obtain ⟨sets0, hm⟩ := Option.isSome_iff_exists.mp hmark
  have hc : StdMap.contains state.sld_wins state.self_id = true := by
    simp [StdMap.contains, hwin]
  have hg : StdMap.getD state.sld_wins state.self_id [] = win := by
    simp [StdMap.getD, hwin]
  have hs1 : toSizeT params.min_solve_frames = params.min_solve_frames.toNat :=
    toSizeT_of_nonneg _ (by omega) (by omega)
  have hself : (D2EstimatorState.markSelf params.min_solve_frames params.max_sld_win_size
      win sets0).isSome := by
    apply D2EstimatorState.markSelf_isSome
    cases win with
    | nil =>
      right
      rw [hs1]
      simp only [List.length_nil]
      omega
    | cons a rest => exact Or.inl (by simp)
  obtain ⟨sets, hs⟩ := Option.isSome_iff_exists.mp hself
  obtain ⟨clear_frames, clear_key_frames⟩ := sets
  unfold D2EstimatorState.clearFrame
  simp only [hm, hc, if_true, hg, hs]
  by_cases hcard : clear_frames.card > 0
  · simp only [hcard, if_true]
    obtain ⟨res, hres⟩ := Option.isSome_iff_exists.mp
      (D2EstimatorState.eraseWindows_returns clear_frames state.sld_wins
        { state with prior_factor :=
            (if params.enable_marginalization = true ∧ clear_key_frames.card > 0 then
              env.marginalize state (clear_key_frames ∪ clear_frames)
            else state.prior_factor).map (fun prior => prior.keep_params.foldl (fun acc p =>
              if p.id ∈ clear_frames then env.removeFrame acc p.id else acc) prior) }
        hnodup hblocks)
    obtain ⟨windows, state3⟩ := res
    rw [hres]
    rfl
  · simp [hcard]

/-- C29 amended. For `1 <= min_solve_frames <= max_sld_win_size`, an own window
of at most `max_sld_win_size` frames with distinct ids, none of which the
lists of the other drones mark for clearing: `clearFrame` returns when those
lists can be followed and the frames of all windows have distinct ids and
their blocks; and when it returns, the own window is the window before, or
that window without its last frame (which was no keyframe), or without its
oldest frame (the last one was a keyframe and the window was full), and it
holds at most `max_sld_win_size - 1` frames. -/
theorem clearFrame_window_bound (state : D2EstimatorState) (params : D2VINSConfig)
    (env : ClearEnv) (win : List VINSFrame)
    (hmin : 1 ≤ params.min_solve_frames)
    (hminmax : params.min_solve_frames ≤ params.max_sld_win_size)
    (hint : params.max_sld_win_size < 2 ^ 63)
    (hwin : StdMap.find state.sld_wins state.self_id = some win)
    (hlen : (win.length : Int) ≤ params.max_sld_win_size)
    (hnodup : (win.map (fun it => it.frame_id)).Nodup)
    (hremote : ∀ sets, state.markRemote state.latest_remote_sld_wins (∅, ∅) = some sets →
      ∀ it ∈ win, it.frame_id ∉ sets.1) :
    ((state.markRemote state.latest_remote_sld_wins (∅, ∅)).isSome →
      ((state.sld_wins.flatMap (fun kv => kv.2)).map (fun it => it.frame_id)).Nodup →
      (∀ frame_id ∈ (state.sld_wins.flatMap (fun kv => kv.2)).map (fun it => it.frame_id),
        StdMap.contains state._frame_pose_state frame_id = true ∧
          StdMap.contains state._frame_spd_Bias_state frame_id = true) →
      (state.clearFrame params env).isSome) ∧
    ∀ t, state.clearFrame params env = some t →
      ∃ win', StdMap.find t.sld_wins t.self_id = some win' ∧
        (win'.length : Int) ≤ params.max_sld_win_size - 1 ∧
        win.length ≤ win'.length + 1 ∧
        (win' = win ∨
          (∃ last, win.getLast? = some last ∧ last.is_keyframe = false ∧
            win' = win.dropLast) ∨
          (∃ last, win.getLast? = some last ∧ last.is_keyframe = true ∧
            params.max_sld_win_size ≤ win.length ∧ win' = win.tail)) := by
  refine ⟨fun hmark hall hblocks =>
    state.clearFrame_returns params env win hmin (by omega) hwin hmark hall hblocks,
    fun t hret => ?_⟩
  obtain ⟨sets0, clear_frames, clear_key_frames, hm, hs, _, hfind⟩ :=
    state.clearFrame_self_window t params env win hwin hret
  have hfree := hremote sets0 hm
  have hs1 : toSizeT params.min_solve_frames = params.min_solve_frames.toNat :=
    toSizeT_of_nonneg _ (by omega) (by omega)
  have hs2 : toSizeT params.max_sld_win_size = params.max_sld_win_size.toNat :=
    toSizeT_of_nonneg _ (by omega) (by omega)
  refine ⟨_, hfind, ?_⟩
  rcases D2EstimatorState.markSelf_cases _ _ _ _ _ _ hs with
    ⟨hcf, hcase⟩ | ⟨last, hlast, hk, _, hcf⟩ | ⟨last, first, hlast, hfirst, hk, _, hmax, hcf⟩
  · rw [hcf, filter_not_mem_self win sets0.1 hfree]
    refine ⟨?_, by omega, Or.inl rfl⟩
    rcases hcase with h1 | ⟨last, _, _, h1⟩
    · rw [hs1] at h1
      omega
    · rw [hs2] at h1
      omega
  · rw [hcf, filter_not_mem_insert win last.frame_id sets0.1 hfree,
      filter_ne_last win last hnodup hlast]
    have hpos : 0 < win.length := by
      cases win with
      | nil => simp at hlast
      | cons a rest => simp
    refine ⟨?_, ?_, Or.inr (Or.inl ⟨last, hlast, hk, rfl⟩)⟩
    · rw [List.length_dropLast]
      omega
    · rw [List.length_dropLast]
      omega
  · rw [hcf, filter_not_mem_insert win first.frame_id sets0.1 hfree,
      filter_ne_first win first hnodup hfirst]
    have hpos : 0 < win.length := by
      cases win with
      | nil => simp at hlast
      | cons a rest => simp
    rw [hs2] at hmax
    refine ⟨?_, ?_, Or.inr (Or.inr ⟨last, hlast, hk, by omega, rfl⟩)⟩
    · rw [List.length_tail]
      omega
    · rw [List.length_tail]
      omega

theorem clearFrame_window_bound_witness :
    (1 ≤ Sample.paramsClear.min_solve_frames ∧
      Sample.paramsClear.min_solve_frames ≤ Sample.paramsClear.max_sld_win_size) ∧
    (Sample.stateClear.clearFrame Sample.paramsClear Sample.clearEnv).isSome ∧
    ∃ t, Sample.stateClear.clearFrame Sample.paramsClear Sample.clearEnv = some t ∧
      StdMap.find t.sld_wins t.self_id
        = some [{ frame_id := 10, drone_id := 1, is_keyframe := true },
            { frame_id := 12, drone_id := 1, is_keyframe := true }] ∧
      ∃ win', StdMap.find t.sld_wins t.self_id = some win' ∧
        (win'.length : Int) ≤ Sample.paramsClear.max_sld_win_size - 1 ∧
        3 ≤ win'.length + 1 := by
  have h := clearFrame_window_bound Sample.stateClear Sample.paramsClear Sample.clearEnv
    [{ frame_id := 10, drone_id := 1, is_keyframe := true },
      { frame_id := 12, drone_id := 1, is_keyframe := true },
      { frame_id := 13, drone_id := 1, is_keyframe := false }]
    (by decide) (by decide) (by decide) rfl (by decide) (by decide)
    (fun sets hsets it _ => by
      have h : some ((∅ : Finset FrameIdType), (∅ : Finset FrameIdType)) = some sets := hsets
      have hs := Option.some.inj h
      subst hs
      exact Finset.not_mem_empty _)
  refine ⟨⟨by decide, by decide⟩, h.1 rfl (by decide) (by decide), _, rfl, rfl, ?_⟩
  obtain ⟨win', h1, h2, h3, _⟩ := h.2 _ rfl
  exact ⟨win', h1, h2, h3⟩

end ClearFrameTheorem

/-! ## Landmarks of other agents -/

section Landmarks

variable {K P : Type} [LinearOrderedField K]

omit [LinearOrderedField K] in
theorem LandmarkPerId.skipped_iff (lm : LandmarkPerId K) (self_id : Int) :
    lm.skipped self_id = true ↔
      (lm.solver_id = -1 ∧ lm.drone_id ≠ self_id) ∨
        (0 < lm.solver_id ∧ lm.solver_id ≠ self_id) := by
  simp [LandmarkPerId.skipped]

theorem landmarkFactors_skipped (D : DepthOptions K) (self_id : Int) (lm : LandmarkPerId K)
    (acc : LandmarkSetup) (hskip : lm.skipped self_id = true) :
    landmarkFactors D EstimationMode.DISTRIBUTED_CAMERA_CONSENUS self_id lm acc = some acc := by
  simp [landmarkFactors, hskip]

theorem landmarkLoop_skipped (D : DepthOptions K) (self_id : Int) (lm : LandmarkPerId K)
    (hskip : lm.skipped self_id = true) (pre post : List (LandmarkPerId K))
    (acc : LandmarkSetup) :
    landmarkLoop D EstimationMode.DISTRIBUTED_CAMERA_CONSENUS self_id (pre ++ lm :: post) acc
      = landmarkLoop D EstimationMode.DISTRIBUTED_CAMERA_CONSENUS self_id (pre ++ post) acc := by
  induction pre generalizing acc with
  | nil =>
    simp only [List.nil_append, landmarkLoop, landmarkFactors_skipped D self_id lm acc hskip]
  | cons hd tl ih =>
    simp only [List.cons_append, landmarkLoop]
    cases landmarkFactors D EstimationMode.DISTRIBUTED_CAMERA_CONSENUS self_id hd acc with
    | none => rfl
    | some acc1 => exact ih acc1

omit [LinearOrderedField K] in
theorem commonLoop_skipped (state : D2EstimatorState) (self_id : Int) (lm : LandmarkPerId K)
    (hskip : lm.skipped self_id = true) (pre post : List (LandmarkPerId K)) :
    commonLoop state self_id (pre ++ lm :: post) = commonLoop state self_id (pre ++ post) := by
  induction pre with
  | nil => simp only [List.nil_append, commonLoop, hskip, if_true]
  | cons hd tl ih =>
    have ih' : commonLoop state self_id (tl.append (lm :: post))
        = commonLoop state self_id (tl.append post) := ih
    simp only [List.cons_append, commonLoop, ih']

/-- C30 as stated fails: landmark 5 is solved by agent 0, another agent than
drone 1, and `setupLandmarkFactors` still builds a residual for it and
`hasCommonLandmarkMeasurments` answers true because of it. -/
theorem landmark_factors_skip_foreign_counterexample :
    (0 ≤ Sample.landmarkOfZero.solver_id ∧
      Sample.landmarkOfZero.solver_id ≠ Sample.estimatorLandmarks.self_id) ∧
    Sample.estimatorLandmarks.params.estimation_mode
      = EstimationMode.DISTRIBUTED_CAMERA_CONSENUS ∧
    (∃ setup, Sample.estimatorLandmarks.setupLandmarkFactors Sample.depthOptions
        [Sample.landmarkOfZero] = some setup ∧
      setup.residuals = [LandmarkResidual.LandmarkTwoFrameOneCamResInfo 10 42 5 20 false]) ∧
    Sample.estimatorLandmarks.hasCommonLandmarkMeasurments [Sample.landmarkOfZero]
      = some true ∧
    Sample.estimatorLandmarks.hasCommonLandmarkMeasurments
      ([] : List (LandmarkPerId ℚ)) = some false := by
  refine ⟨⟨by decide, by decide⟩, rfl, ⟨_, rfl, ?_⟩, ?_, rfl⟩
  · decide
  · decide

/-- C30 amended. In distributed-consensus mode, for a landmark whose
`solver_id` is positive and differs from `self_id`, and for an internal
landmark (`solver_id = -1`) first observed by another drone:
`setupLandmarkFactors` adds no residual for it and writes nothing, so its
result is that for the list without the landmark; and
`hasCommonLandmarkMeasurments` answers as for the list without it. -/
theorem landmark_factors_skip_foreign (e : D2Estimator K P) (D : DepthOptions K)
    (lm : LandmarkPerId K)
    (hmode : e.params.estimation_mode = EstimationMode.DISTRIBUTED_CAMERA_CONSENUS)
    (hforeign : (lm.solver_id = -1 ∧ lm.drone_id ≠ e.self_id) ∨
      (0 < lm.solver_id ∧ lm.solver_id ≠ e.self_id)) :
    (∀ acc, landmarkFactors D e.params.estimation_mode e.self_id lm acc = some acc) ∧
    (∀ pre post, e.setupLandmarkFactors D (pre ++ lm :: post)
      = e.setupLandmarkFactors D (pre ++ post)) ∧
    (∀ pre post, e.hasCommonLandmarkMeasurments (pre ++ lm :: post)
      = e.hasCommonLandmarkMeasurments (pre ++ post)) := by
  have hskip : lm.skipped e.self_id = true := (lm.skipped_iff e.self_id).mpr hforeign
  refine ⟨fun acc => ?_, fun pre post => ?_, fun pre post => ?_⟩
  · rw [hmode]
    exact landmarkFactors_skipped D e.self_id lm acc hskip
  · unfold D2Estimator.setupLandmarkFactors
    rw [hmode]
    exact landmarkLoop_skipped D e.self_id lm hskip pre post {}
  · exact commonLoop_skipped e.state e.self_id lm hskip pre post

theorem landmark_factors_skip_foreign_witness :
    (Sample.estimatorLandmarks.params.estimation_mode
        = EstimationMode.DISTRIBUTED_CAMERA_CONSENUS ∧
      (0 : Int) < Sample.landmarkOfTwo.solver_id ∧
      Sample.landmarkOfTwo.solver_id ≠ Sample.estimatorLandmarks.self_id) ∧
    Sample.estimatorLandmarks.setupLandmarkFactors Sample.depthOptions
        ([Sample.landmarkOfSelf] ++ Sample.landmarkOfTwo :: [])
      = Sample.estimatorLandmarks.setupLandmarkFactors Sample.depthOptions
        ([Sample.landmarkOfSelf] ++ []) ∧
    Sample.estimatorLandmarks.hasCommonLandmarkMeasurments
        ([] ++ Sample.landmarkOfTwo :: [])
      = Sample.estimatorLandmarks.hasCommonLandmarkMeasurments
        ([] ++ ([] : List (LandmarkPerId ℚ))) :=
  ⟨⟨rfl, by decide, by decide⟩,
    (landmark_factors_skip_foreign Sample.estimatorLandmarks Sample.depthOptions
      Sample.landmarkOfTwo rfl (Or.inr ⟨by decide, by decide⟩)).2.1 [Sample.landmarkOfSelf] [],
    (landmark_factors_skip_foreign Sample.estimatorLandmarks Sample.depthOptions
      Sample.landmarkOfTwo rfl (Or.inr ⟨by decide, by decide⟩)).2.2 [] []⟩

end Landmarks

/-! ## Buffered data and dual creation -/

section Reception

variable {K P : Type}

end Reception

section ReceptionClaim

variable {K P : Type}

end ReceptionClaim

end D2SLAM
